import Mathlib

/-!
# MiniLang parser: a verification development

Shallow embedding of `src/parser/parser.cpp` (the recursive-descent parser of the
MiniLang interpreter) and theorems about it.

Conventions of the embedding

* The `Parser` object (`lex`, `current_token`, `next_token`) is an explicit state that
  every routine takes and returns.
* A C++ `throw` is the result `Result.thrown`, which keeps the parser object as it was
  when the exception left the routine.
* Recursive routines carry a fuel argument (suffix `F`); the fuel-free routines are
  obtained from them with a budget computed from the pending input.
* Where the source writes `new Node(current_token.value, parse_x())` the two arguments
  are evaluated in an order that C++ leaves to the implementation, and `parse_x()`
  changes `current_token`. The order is a parameter of the embedding (`Toolchain`,
  `operator_text`), one choice for each of the four such calls.
-/

namespace MiniLang

/-! ## Data model -/

/-- Modelled from the spec: the token kinds (`lexer::TOKEN`); the declaration lives in
the lexer, the constructors are the kinds that `parser.cpp` names. -/
inductive TOKEN where
  | TOK_INT | TOK_REAL | TOK_BOOL | TOK_STRING | TOK_IDENTIFIER
  | TOK_ADDITIVE_OP | TOK_MULTIPLICATIVE_OP | TOK_RELATIONAL_OP | TOK_NOT | TOK_EQUALS
  | TOK_VAR | TOK_SET | TOK_PRINT | TOK_IF | TOK_ELSE | TOK_WHILE | TOK_RETURN | TOK_DEF
  | TOK_INT_TYPE | TOK_REAL_TYPE | TOK_BOOL_TYPE | TOK_STRING_TYPE
  | TOK_LEFT_CURLY | TOK_RIGHT_CURLY | TOK_LEFT_BRACKET | TOK_RIGHT_BRACKET
  | TOK_COMMA | TOK_SEMICOLON | TOK_COLON | TOK_EOF | TOK_ERROR
  deriving DecidableEq, Repr

/-- Modelled from the spec: a token is a kind, its literal text and its source line. -/
structure Token where
  type : TOKEN
  value : String
  line_number : Nat
  deriving DecidableEq, Repr

/-- Modelled from the spec: the token source. It yields the pending tokens one at a time
and, once they are used up, an end-of-input token for ever. -/
structure Lexer where
  pending : List Token
  eof_value : String
  eof_line : Nat
  deriving DecidableEq, Repr

/-- The call `lex->next_token()`: the token handed out and the lexer afterwards. -/
def Lexer.next_token (lex : Lexer) : Token × Lexer :=
  match lex.pending with
  | t :: ts => (t, { lex with pending := ts })
  | [] => (⟨TOKEN.TOK_EOF, lex.eof_value, lex.eof_line⟩, lex)

/-- The parser object: the lexer and the two live tokens. -/
structure Parser where
  lex : Lexer
  current_token : Token
  next_token : Token
  deriving DecidableEq, Repr

/-- The constructor `Parser::Parser(lex)`. -/
def Parser.new (lex : Lexer) : Parser :=
  { lex := (lex.next_token.2.next_token).2
    current_token := lex.next_token.1
    next_token := (lex.next_token.2.next_token).1 }

/-- The routine `Parser::consume_token`. -/
def consume_token (p : Parser) : Parser :=
  { lex := p.lex.next_token.2
    current_token := p.next_token
    next_token := p.lex.next_token.1 }

/-- The enumeration `parser::TYPE`. -/
inductive TYPE where
  | INT | REAL | BOOL | STRING
  deriving DecidableEq, Repr

/-- A C `float`, identified by its bit pattern. -/
structure CFloat where
  bits : Nat
  deriving DecidableEq, Repr

/-- Expression nodes: `ASTLiteralNode<T>`, `ASTBinaryExprNode`, `ASTUnaryExprNode`,
`ASTIdentifierNode` and `ASTFunctionCallNode`. -/
inductive ASTExprNode where
  | literal_int (val : Int)
  | literal_float (val : CFloat)
  | literal_bool (val : Bool)
  | literal_string (val : String)
  | binary_expr (op : String) (left : ASTExprNode) (right : ASTExprNode)
  | unary_expr (op : String) (operand : ASTExprNode)
  | identifier (name : String)
  | function_call (name : String) (args : List ASTExprNode)

/-- Statement nodes. An `ASTBlockNode` is represented by the list of its statements. -/
inductive ASTStatementNode where
  | declaration (type : TYPE) (identifier : String) (expr : ASTExprNode)
  | assignment (identifier : String) (expr : ASTExprNode)
  | print (expr : ASTExprNode)
  | return_node (expr : ASTExprNode)
  | block (statements : List ASTStatementNode)
  | if_node (condition : ASTExprNode) (if_block : List ASTStatementNode)
      (else_block : Option (List ASTStatementNode))
  | while_node (condition : ASTExprNode) (block : List ASTStatementNode)
  | function_definition (identifier : String) (parameters : List (String × TYPE))
      (type : TYPE) (block : List ASTStatementNode)

/-- The root node `ASTProgramNode`. -/
structure ASTProgramNode where
  statements : List ASTStatementNode

/-- The exceptions that can leave the parser: its own `std::runtime_error`, and the
`std::logic_error` (`invalid_argument`, `out_of_range`) of the library calls it makes. -/
inductive Exception where
  | runtime_error (what : String)
  | logic_error (what : String)
  deriving DecidableEq, Repr

/-- Outcome of a routine: a value, an exception, a null-pointer dereference, or an
exhausted budget of the model. The first three carry the parser object. -/
inductive Result (α : Type) where
  | ok (val : α) (p : Parser)
  | thrown (e : Exception) (p : Parser)
  | null_deref (p : Parser)
  | fuel

/-- Sequencing: run the continuation on a value, pass everything else on. -/
def Result.bind {α β : Type} (r : Result α) (f : α → Parser → Result β) : Result β :=
  match r with
  | Result.ok a p => f a p
  | Result.thrown e p => Result.thrown e p
  | Result.null_deref p => Result.null_deref p
  | Result.fuel => Result.fuel

/-- The four calls `new Node(current_token.value, ..., parse_x())` of the parser: in
`parse_expression`, `parse_simple_expression`, `parse_term` and the unary case of
`parse_factor`. -/
inductive CallSite where
  | relational | additive | multiplicative | unary
  deriving DecidableEq, Repr

/-- The C++ implementation the parser is built with. `stoi` and `stof` are the text
conversions of the standard library: each yields a value or throws with the given
`what()` text. `operator_first site` tells whether, at the call `site`, the argument
`current_token.value` is evaluated before the argument `parse_x()`. -/
structure Toolchain where
  stoi : String → Except String Int
  stof : String → Except String CFloat
  operator_first : CallSite → Bool

/-- The text that `new Node(current_token.value, ..., parse_x())` stores in the node:
`current_token.value` as it is before the call of `parse_x()` when the implementation
evaluates the text first, and as it is after that call otherwise. -/
def operator_text (L : Toolchain) (site : CallSite) (before after : Parser) : String :=
  if L.operator_first site then before.current_token.value
  else after.current_token.value

/-! ## Strings -/

/-- The call `s.substr(pos, n)`. -/
def substr (s : List Char) (pos n : Nat) : Except String (List Char) :=
  if pos > s.length then Except.error "basic_string::substr"
  else Except.ok ((s.drop pos).take n)

/-- First index at or after `i` at which `pat` starts, `cs` being the text from `i` on. -/
def find_from (pat : List Char) : List Char → Nat → Option Nat
  | [], i => if pat = [] then some i else none
  | c :: cs, i => if pat <+: c :: cs then some i else find_from pat cs (i + 1)

/-- The call `s.find(pat, pos)`; `none` is `std::string::npos`. -/
def find (s pat : List Char) (pos : Nat) : Option Nat :=
  if pos > s.length then none else find_from pat (s.drop pos) pos

/-- The call `s.replace(pos, len, t)`, for `pos` within the string. -/
def replace (s : List Char) (pos len : Nat) (t : List Char) : List Char :=
  s.take pos ++ t ++ s.drop (pos + len)

/-- The two-character sequence backslash, double quote. -/
def escaped_quote : List Char := ['\\', '"']

/-- The loop `while (pos != npos)` of the string case of `parse_factor`. -/
def unescape_loop : Nat → List Char → Option Nat → Option (List Char)
  | _, str, none => some str
  | 0, _, some _ => none
  | k + 1, str, some pos =>
    unescape_loop k (replace str pos 2 ['"'])
      (find (replace str pos 2 ['"']) escaped_quote (pos + 2))

/-- The value `size() - 2` in `size_t` arithmetic. -/
def size_minus_two (size : Nat) : Nat := (size + 2 ^ 64 - 2) % 2 ^ 64

/-! ## Expressions -/

mutual

/-- Fuelled `Parser::parse_expression`. -/
def parse_expressionF (L : Toolchain) : Nat → Parser → Result ASTExprNode
  | 0, _ => Result.fuel
  | n + 1, p =>
    (parse_simple_expressionF L n p).bind fun simple_expr p1 =>
      if p1.next_token.type = TOKEN.TOK_RELATIONAL_OP then
        (parse_expressionF L n (consume_token p1)).bind fun rhs p3 =>
          Result.ok (ASTExprNode.binary_expr
            (operator_text L CallSite.relational (consume_token p1) p3) simple_expr rhs) p3
      else Result.ok simple_expr p1

/-- Fuelled `Parser::parse_simple_expression`. -/
def parse_simple_expressionF (L : Toolchain) : Nat → Parser → Result ASTExprNode
  | 0, _ => Result.fuel
  | n + 1, p =>
    (parse_termF L n p).bind fun term p1 =>
      if p1.next_token.type = TOKEN.TOK_ADDITIVE_OP then
        (parse_simple_expressionF L n (consume_token p1)).bind fun rhs p3 =>
          Result.ok (ASTExprNode.binary_expr
            (operator_text L CallSite.additive (consume_token p1) p3) term rhs) p3
      else Result.ok term p1

/-- Fuelled `Parser::parse_term`. -/
def parse_termF (L : Toolchain) : Nat → Parser → Result ASTExprNode
  | 0, _ => Result.fuel
  | n + 1, p =>
    (parse_factorF L n p).bind fun factor p1 =>
      if p1.next_token.type = TOKEN.TOK_MULTIPLICATIVE_OP then
        (parse_termF L n (consume_token p1)).bind fun rhs p3 =>
          Result.ok (ASTExprNode.binary_expr
            (operator_text L CallSite.multiplicative (consume_token p1) p3) factor rhs) p3
      else Result.ok factor p1

/-- Fuelled `Parser::parse_factor`. -/
def parse_factorF (L : Toolchain) : Nat → Parser → Result ASTExprNode
  | 0, _ => Result.fuel
  | n + 1, p0 =>
    let p := consume_token p0
    match p.current_token.type with
    | TOKEN.TOK_INT =>
      match L.stoi p.current_token.value with
      | Except.ok v => Result.ok (ASTExprNode.literal_int v) p
      | Except.error w => Result.thrown (Exception.logic_error w) p
    | TOKEN.TOK_REAL =>
      match L.stof p.current_token.value with
      | Except.ok v => Result.ok (ASTExprNode.literal_float v) p
      | Except.error w => Result.thrown (Exception.logic_error w) p
    | TOKEN.TOK_BOOL =>
      Result.ok (ASTExprNode.literal_bool (decide (p.current_token.value = "true"))) p
    | TOKEN.TOK_STRING =>
      match substr p.current_token.value.data 1
          (size_minus_two p.current_token.value.data.length) with
      | Except.error w => Result.thrown (Exception.logic_error w) p
      | Except.ok str =>
        match unescape_loop str.length str (find str escaped_quote 0) with
        | some s => Result.ok (ASTExprNode.literal_string (String.mk s)) p
        | none => Result.fuel
    | TOKEN.TOK_IDENTIFIER =>
      if p.next_token.type = TOKEN.TOK_LEFT_BRACKET then parse_function_callF L n p
      else Result.ok (ASTExprNode.identifier p.current_token.value) p
    | TOKEN.TOK_LEFT_BRACKET =>
      (parse_expressionF L n p).bind fun sub_expr p1 =>
        if (consume_token p1).current_token.type ≠ TOKEN.TOK_RIGHT_BRACKET then
          Result.thrown (Exception.runtime_error ("Expected ')' after expression on line "
            ++ toString (consume_token p1).current_token.line_number ++ "."))
            (consume_token p1)
        else Result.ok sub_expr (consume_token p1)
    | TOKEN.TOK_ADDITIVE_OP =>
      (parse_expressionF L n p).bind fun operand p1 =>
        Result.ok (ASTExprNode.unary_expr (operator_text L CallSite.unary p p1) operand) p1
    | TOKEN.TOK_NOT =>
      (parse_expressionF L n p).bind fun operand p1 =>
        Result.ok (ASTExprNode.unary_expr (operator_text L CallSite.unary p p1) operand) p1
    | _ =>
      Result.thrown (Exception.runtime_error ("Expected expression on line "
        ++ toString p.current_token.line_number ++ ".")) p

/-- Fuelled `Parser::parse_function_call`; `parameters` is the pointer that starts out
null. -/
def parse_function_callF (L : Toolchain) : Nat → Parser → Result ASTExprNode
  | 0, _ => Result.fuel
  | n + 1, p0 =>
    let p := consume_token p0
    if p.current_token.type ≠ TOKEN.TOK_LEFT_BRACKET then
      Result.thrown (Exception.runtime_error ("Expected '(' on line "
        ++ toString p.current_token.line_number ++ ".")) p
    else
      (if p.next_token.type ≠ TOKEN.TOK_RIGHT_BRACKET then
          (parse_actual_paramsF L n p).bind fun ps p1 => Result.ok (some ps) p1
        else Result.ok none p).bind fun parameters p1 =>
        if p1.current_token.type ≠ TOKEN.TOK_RIGHT_BRACKET then
          Result.thrown (Exception.runtime_error ("Expected ')' on line "
            ++ toString p1.current_token.line_number ++ " after function parameters.")) p1
        else
          match parameters with
          | some ps => Result.ok (ASTExprNode.function_call p0.current_token.value ps) p1
          | none => Result.null_deref p1

/-- Fuelled `Parser::parse_actual_params`. -/
def parse_actual_paramsF (L : Toolchain) : Nat → Parser → Result (List ASTExprNode)
  | 0, _ => Result.fuel
  | n + 1, p =>
    (parse_expressionF L n p).bind fun e p1 =>
      actual_params_loopF L n [e] (consume_token p1)

/-- The loop `while (current_token.type == TOK_COMMA)` of `parse_actual_params`. -/
def actual_params_loopF (L : Toolchain) :
    Nat → List ASTExprNode → Parser → Result (List ASTExprNode)
  | 0, _, _ => Result.fuel
  | n + 1, parameters, p =>
    if p.current_token.type = TOKEN.TOK_COMMA then
      (parse_expressionF L n p).bind fun e p1 =>
        actual_params_loopF L n (parameters ++ [e]) (consume_token p1)
    else Result.ok parameters p

end

/-! ## Budgets and the fuel-free expression routines -/

/-- Number of tokens that have still to become the current token: the lookahead token
and the pending ones, the end-of-input padding not counted. -/
def remaining (p : Parser) : Nat :=
  p.lex.pending.length + (if p.next_token.type = TOKEN.TOK_EOF then 0 else 1)

/-- The same count with the current token included. -/
def size (p : Parser) : Nat :=
  remaining p + (if p.current_token.type = TOKEN.TOK_EOF then 0 else 1)

/-- The routine `Parser::parse_expression`. -/
def parse_expression (L : Toolchain) (p : Parser) : Result ASTExprNode :=
  parse_expressionF L (4 * remaining p + 4) p

/-- The routine `Parser::parse_simple_expression`. -/
def parse_simple_expression (L : Toolchain) (p : Parser) : Result ASTExprNode :=
  parse_simple_expressionF L (4 * remaining p + 3) p

/-- The routine `Parser::parse_term`. -/
def parse_term (L : Toolchain) (p : Parser) : Result ASTExprNode :=
  parse_termF L (4 * remaining p + 2) p

/-- The routine `Parser::parse_factor`. -/
def parse_factor (L : Toolchain) (p : Parser) : Result ASTExprNode :=
  parse_factorF L (4 * remaining p + 1) p

/-- The routine `Parser::parse_function_call`. -/
def parse_function_call (L : Toolchain) (p : Parser) : Result ASTExprNode :=
  parse_function_callF L (4 * remaining p + 2) p

/-- The routine `Parser::parse_actual_params`. -/
def parse_actual_params (L : Toolchain) (p : Parser) : Result (List ASTExprNode) :=
  parse_actual_paramsF L (4 * remaining p + 5) p

/-- The comma loop of `parse_actual_params`, entered with the parameters read so far. -/
def actual_params_loop (L : Toolchain) (parameters : List ASTExprNode) (p : Parser) :
    Result (List ASTExprNode) :=
  actual_params_loopF L (4 * remaining p + 5) parameters p

/-! ## Types and the simple statements -/

/-- The routine `Parser::parse_type`. -/
def parse_type (identifier : String) (p : Parser) : Result TYPE :=
  match p.current_token.type with
  | TOKEN.TOK_INT_TYPE => Result.ok TYPE.INT p
  | TOKEN.TOK_REAL_TYPE => Result.ok TYPE.REAL p
  | TOKEN.TOK_BOOL_TYPE => Result.ok TYPE.BOOL p
  | TOKEN.TOK_STRING_TYPE => Result.ok TYPE.STRING p
  | _ =>
    Result.thrown (Exception.runtime_error ("Expected type for " ++ identifier
      ++ " after ':' on line " ++ toString p.current_token.line_number ++ ".")) p

/-- The routine `Parser::parse_declaration_statement`. -/
def parse_declaration_statement (L : Toolchain) (p0 : Parser) : Result ASTStatementNode :=
  let p1 := consume_token p0
  if p1.current_token.type ≠ TOKEN.TOK_IDENTIFIER then
    Result.thrown (Exception.runtime_error ("Expected variable name after 'var' on line "
      ++ toString p1.current_token.line_number ++ ".")) p1
  else
    let identifier := p1.current_token.value
    let p2 := consume_token p1
    if p2.current_token.type ≠ TOKEN.TOK_COLON then
      Result.thrown (Exception.runtime_error ("Expected ':' after " ++ identifier
        ++ " on line " ++ toString p2.current_token.line_number ++ ".")) p2
    else
      (parse_type identifier (consume_token p2)).bind fun type p3 =>
        let p4 := consume_token p3
        if p4.current_token.type ≠ TOKEN.TOK_EQUALS then
          Result.thrown (Exception.runtime_error ("Expected assignment operator '=' for "
            ++ identifier ++ " on line " ++ toString p4.current_token.line_number ++ "."))
            p4
        else
          (parse_expression L p4).bind fun expr p5 =>
            let p6 := consume_token p5
            if p6.current_token.type ≠ TOKEN.TOK_SEMICOLON then
              Result.thrown (Exception.runtime_error ("Expected ';' after assignment of "
                ++ identifier ++ " on line " ++ toString p6.current_token.line_number
                ++ ".")) p6
            else Result.ok (ASTStatementNode.declaration type identifier expr) p6

/-- The routine `Parser::parse_assignment_statement`. -/
def parse_assignment_statement (L : Toolchain) (p0 : Parser) : Result ASTStatementNode :=
  let p1 := consume_token p0
  if p1.current_token.type ≠ TOKEN.TOK_IDENTIFIER then
    Result.thrown (Exception.runtime_error ("Expected variable name after 'set' on line "
      ++ toString p1.current_token.line_number ++ ".")) p1
  else
    let identifier := p1.current_token.value
    let p2 := consume_token p1
    if p2.current_token.type ≠ TOKEN.TOK_EQUALS then
      Result.thrown (Exception.runtime_error ("Expected assignment operator '=' after "
        ++ identifier ++ " on line " ++ toString p2.current_token.line_number ++ ".")) p2
    else
      (parse_expression L p2).bind fun expr p3 =>
        let p4 := consume_token p3
        if p4.current_token.type ≠ TOKEN.TOK_SEMICOLON then
          Result.thrown (Exception.runtime_error ("Expected ';' after assignment of "
            ++ identifier ++ " on line " ++ toString p4.current_token.line_number ++ "."))
            p4
        else Result.ok (ASTStatementNode.assignment identifier expr) p4

/-- The routine `Parser::parse_print_statement`. -/
def parse_print_statement (L : Toolchain) (p0 : Parser) : Result ASTStatementNode :=
  (parse_expression L p0).bind fun expr p1 =>
    let p2 := consume_token p1
    if p2.current_token.type ≠ TOKEN.TOK_SEMICOLON then
      Result.thrown (Exception.runtime_error ("Expected ';' after print statement on line "
        ++ toString p2.current_token.line_number ++ ".")) p2
    else Result.ok (ASTStatementNode.print expr) p2

/-- The routine `Parser::parse_return_statement`. -/
def parse_return_statement (L : Toolchain) (p0 : Parser) : Result ASTStatementNode :=
  (parse_expression L p0).bind fun expr p1 =>
    let p2 := consume_token p1
    if p2.current_token.type ≠ TOKEN.TOK_SEMICOLON then
      Result.thrown (Exception.runtime_error ("Expected ';' after return statement on line "
        ++ toString p2.current_token.line_number ++ ".")) p2
    else Result.ok (ASTStatementNode.return_node expr) p2

/-! ## Function definitions: the parameter list -/

/-- The routine `Parser::parse_formal_param`. -/
def parse_formal_param (p0 : Parser) : Result (String × TYPE) :=
  if p0.current_token.type ≠ TOKEN.TOK_IDENTIFIER then
    Result.thrown (Exception.runtime_error
      ("Expected variable name in function definition on line "
        ++ toString p0.current_token.line_number ++ ".")) p0
  else
    let identifier := p0.current_token.value
    let p1 := consume_token p0
    if p1.current_token.type ≠ TOKEN.TOK_COLON then
      Result.thrown (Exception.runtime_error ("Expected ':' after '" ++ identifier
        ++ "' on line " ++ toString p1.current_token.line_number ++ ".")) p1
    else
      (parse_type identifier (consume_token p1)).bind fun type p2 =>
        Result.ok (identifier, type) p2

/-- The loop `while (current_token.type == TOK_COMMA)` of `parse_function_definition`,
fuelled. -/
def formal_params_loopF : Nat → List (String × TYPE) → Parser → Result (List (String × TYPE))
  | 0, _, _ => Result.fuel
  | n + 1, parameters, p =>
    if p.current_token.type = TOKEN.TOK_COMMA then
      (parse_formal_param (consume_token p)).bind fun param p1 =>
        formal_params_loopF n (parameters ++ [param]) (consume_token p1)
    else Result.ok parameters p

/-- The comma loop of `parse_function_definition`. -/
def formal_params_loop (parameters : List (String × TYPE)) (p : Parser) :
    Result (List (String × TYPE)) :=
  formal_params_loopF (size p + 1) parameters p

/-- The parameter part of `parse_function_definition`: from the token after `(` up to
the closing `)`. -/
def parse_formal_params (p : Parser) : Result (List (String × TYPE)) :=
  if p.current_token.type ≠ TOKEN.TOK_RIGHT_BRACKET then
    (parse_formal_param p).bind fun param p1 =>
      (formal_params_loop [param] (consume_token p1)).bind fun parameters p2 =>
        if p2.current_token.type ≠ TOKEN.TOK_RIGHT_BRACKET then
          Result.thrown (Exception.runtime_error ("Expected ')' or more parameters on line "
            ++ toString p2.current_token.line_number ++ ".")) p2
        else Result.ok parameters p2
  else Result.ok [] p

/-! ## Compound statements -/

mutual

/-- Fuelled `Parser::parse_statement`. -/
def parse_statementF (L : Toolchain) : Nat → Parser → Result ASTStatementNode
  | 0, _ => Result.fuel
  | n + 1, p =>
    match p.current_token.type with
    | TOKEN.TOK_VAR => parse_declaration_statement L p
    | TOKEN.TOK_SET => parse_assignment_statement L p
    | TOKEN.TOK_PRINT => parse_print_statement L p
    | TOKEN.TOK_IF => parse_if_statementF L n p
    | TOKEN.TOK_WHILE => parse_while_statementF L n p
    | TOKEN.TOK_RETURN => parse_return_statement L p
    | TOKEN.TOK_DEF => parse_function_definitionF L n p
    | TOKEN.TOK_LEFT_CURLY =>
      (parse_blockF L n p).bind fun statements p1 =>
        Result.ok (ASTStatementNode.block statements) p1
    | _ =>
      Result.thrown (Exception.runtime_error ("Invalid statement starting with '"
        ++ p.current_token.value ++ "' encountered on line "
        ++ toString p.current_token.line_number ++ ".")) p

/-- Fuelled `Parser::parse_block`; the value is the statement list of the block node. -/
def parse_blockF (L : Toolchain) : Nat → Parser → Result (List ASTStatementNode)
  | 0, _ => Result.fuel
  | n + 1, p => block_loopF L n [] (consume_token p)

/-- The loop of `parse_block` together with the test that follows it, entered with the
statements read so far. -/
def block_loopF (L : Toolchain) :
    Nat → List ASTStatementNode → Parser → Result (List ASTStatementNode)
  | 0, _, _ => Result.fuel
  | n + 1, statements, p =>
    if p.current_token.type ≠ TOKEN.TOK_RIGHT_CURLY ∧
        p.current_token.type ≠ TOKEN.TOK_ERROR ∧
        p.current_token.type ≠ TOKEN.TOK_EOF then
      (parse_statementF L n p).bind fun statement p1 =>
        block_loopF L n (statements ++ [statement]) (consume_token p1)
    else if p.current_token.type = TOKEN.TOK_RIGHT_CURLY then Result.ok statements p
    else
      Result.thrown (Exception.runtime_error
        "Reached end of file while parsing. Mismatched scopes.") p

/-- Fuelled `Parser::parse_if_statement`. -/
def parse_if_statementF (L : Toolchain) : Nat → Parser → Result ASTStatementNode
  | 0, _ => Result.fuel
  | n + 1, p0 =>
    let p1 := consume_token p0
    if p1.current_token.type ≠ TOKEN.TOK_LEFT_BRACKET then
      Result.thrown (Exception.runtime_error ("Expected '(' after 'if' on line "
        ++ toString p1.current_token.line_number ++ ".")) p1
    else
      (parse_expression L p1).bind fun condition p2 =>
        let p3 := consume_token p2
        if p3.current_token.type ≠ TOKEN.TOK_RIGHT_BRACKET then
          Result.thrown (Exception.runtime_error ("Expected ')' after if-condition on line "
            ++ toString p3.current_token.line_number ++ ".")) p3
        else
          let p4 := consume_token p3
          if p4.current_token.type ≠ TOKEN.TOK_LEFT_CURLY then
            Result.thrown (Exception.runtime_error
              ("Expected '\x7b' after if-condition on line "
                ++ toString p4.current_token.line_number ++ ".")) p4
          else
            (parse_blockF L n p4).bind fun if_block p5 =>
              if p5.next_token.type ≠ TOKEN.TOK_ELSE then
                Result.ok (ASTStatementNode.if_node condition if_block none) p5
              else
                let p7 := consume_token (consume_token p5)
                if p7.current_token.type ≠ TOKEN.TOK_LEFT_CURLY then
                  Result.thrown (Exception.runtime_error
                    ("Expected '\x7b' after else on line "
                      ++ toString p7.current_token.line_number ++ ".")) p7
                else
                  (parse_blockF L n p7).bind fun else_block p8 =>
                    Result.ok (ASTStatementNode.if_node condition if_block
                      (some else_block)) p8

/-- Fuelled `Parser::parse_while_statement`. -/
def parse_while_statementF (L : Toolchain) : Nat → Parser → Result ASTStatementNode
  | 0, _ => Result.fuel
  | n + 1, p0 =>
    let p1 := consume_token p0
    if p1.current_token.type ≠ TOKEN.TOK_LEFT_BRACKET then
      Result.thrown (Exception.runtime_error ("Expected '(' after 'while' on line "
        ++ toString p1.current_token.line_number ++ ".")) p1
    else
      (parse_expression L p1).bind fun condition p2 =>
        let p3 := consume_token p2
        if p3.current_token.type ≠ TOKEN.TOK_RIGHT_BRACKET then
          Result.thrown (Exception.runtime_error
            ("Expected ')' after while-condition on line "
              ++ toString p3.current_token.line_number ++ ".")) p3
        else
          let p4 := consume_token p3
          if p4.current_token.type ≠ TOKEN.TOK_LEFT_CURLY then
            Result.thrown (Exception.runtime_error
              ("Expected '\x7b' after while-condition on line "
                ++ toString p4.current_token.line_number ++ ".")) p4
          else
            (parse_blockF L n p4).bind fun block p5 =>
              Result.ok (ASTStatementNode.while_node condition block) p5

/-- Fuelled `Parser::parse_function_definition`. -/
def parse_function_definitionF (L : Toolchain) : Nat → Parser → Result ASTStatementNode
  | 0, _ => Result.fuel
  | n + 1, p0 =>
    let p1 := consume_token p0
    if p1.current_token.type ≠ TOKEN.TOK_IDENTIFIER then
      Result.thrown (Exception.runtime_error
        ("Expected function identifier after keyword 'def' on line "
          ++ toString p1.current_token.line_number ++ ".")) p1
    else
      let identifier := p1.current_token.value
      let p2 := consume_token p1
      if p2.current_token.type ≠ TOKEN.TOK_LEFT_BRACKET then
        Result.thrown (Exception.runtime_error ("Expected '(' after '" ++ identifier
          ++ "' on line " ++ toString p2.current_token.line_number ++ ".")) p2
      else
        (parse_formal_params (consume_token p2)).bind fun parameters p3 =>
          let p4 := consume_token p3
          if p4.current_token.type ≠ TOKEN.TOK_COLON then
            Result.thrown (Exception.runtime_error ("Expected ':' after ')' on line "
              ++ toString p4.current_token.line_number ++ ".")) p4
          else
            (parse_type identifier (consume_token p4)).bind fun type p5 =>
              let p6 := consume_token p5
              if p6.current_token.type ≠ TOKEN.TOK_LEFT_CURLY then
                Result.thrown (Exception.runtime_error ("Expected '\x7b' after function '"
                  ++ identifier ++ "' definition on line "
                  ++ toString p6.current_token.line_number ++ ".")) p6
              else
                (parse_blockF L n p6).bind fun block p7 =>
                  Result.ok (ASTStatementNode.function_definition identifier parameters
                    type block) p7

end

/-- The routine `Parser::parse_statement`. -/
def parse_statement (L : Toolchain) (p : Parser) : Result ASTStatementNode :=
  parse_statementF L (4 * size p + 1) p

/-- The routine `Parser::parse_block`; the value is the statement list of the block. -/
def parse_block (L : Toolchain) (p : Parser) : Result (List ASTStatementNode) :=
  parse_blockF L (4 * remaining p + 3) p

/-- The loop of `parse_block` with the test that follows it. -/
def block_loop (L : Toolchain) (statements : List ASTStatementNode) (p : Parser) :
    Result (List ASTStatementNode) :=
  block_loopF L (4 * size p + 2) statements p

/-- The routine `Parser::parse_if_statement`. -/
def parse_if_statement (L : Toolchain) (p : Parser) : Result ASTStatementNode :=
  parse_if_statementF L (4 * remaining p + 3) p

/-- The routine `Parser::parse_while_statement`. -/
def parse_while_statement (L : Toolchain) (p : Parser) : Result ASTStatementNode :=
  parse_while_statementF L (4 * remaining p + 3) p

/-- The routine `Parser::parse_function_definition`. -/
def parse_function_definition (L : Toolchain) (p : Parser) : Result ASTStatementNode :=
  parse_function_definitionF L (4 * remaining p + 3) p

/-! ## Programs -/

/-- The loop of `parse_program`, fuelled, entered with the statements read so far. -/
def program_loopF (L : Toolchain) :
    Nat → List ASTStatementNode → Parser → Result ASTProgramNode
  | 0, _, _ => Result.fuel
  | n + 1, statements, p =>
    if p.current_token.type ≠ TOKEN.TOK_EOF then
      (parse_statement L p).bind fun statement p1 =>
        program_loopF L n (statements ++ [statement]) (consume_token p1)
    else Result.ok (ASTProgramNode.mk statements) p

/-- The loop of `parse_program`. -/
def program_loop (L : Toolchain) (statements : List ASTStatementNode) (p : Parser) :
    Result ASTProgramNode :=
  program_loopF L (size p + 1) statements p

/-- The routine `Parser::parse_program`. -/
def parse_program (L : Toolchain) (p : Parser) : Result ASTProgramNode :=
  program_loop L [] p

/-! ## Token streams -/

/-- The parser whose current token is `cur` and whose next tokens are `upcoming`, followed
by the end of the input. -/
def Parser.reading (cur : Token) (upcoming : List Token) (ev : String) (el : Nat) :
    Parser :=
  { lex := { pending := upcoming.tail, eof_value := ev, eof_line := el }
    current_token := cur
    next_token := upcoming.headD ⟨TOKEN.TOK_EOF, ev, el⟩ }

/-! ## Notions used in the statements -/

/-- The token `t` is a primary operand, a literal or an identifier, for which
`parse_factor` builds the node `A` when it reads `t` alone. -/
def IsPrimary (L : Toolchain) (t : Token) (A : ASTExprNode) : Prop :=
  (t.type = TOKEN.TOK_INT ∨ t.type = TOKEN.TOK_REAL ∨ t.type = TOKEN.TOK_BOOL ∨
    t.type = TOKEN.TOK_STRING ∨ t.type = TOKEN.TOK_IDENTIFIER) ∧
  ∀ (c : Token) (ev : String) (el : Nat),
    parse_factor L (Parser.reading c [t] ev el) = Result.ok A (Parser.reading t [] ev el)

/-- The kind of the token that follows the current one does not continue an expression:
it is no binary operator and no opening bracket. -/
def EndsExpression (k : TOKEN) : Prop :=
  k ≠ TOKEN.TOK_RELATIONAL_OP ∧ k ≠ TOKEN.TOK_ADDITIVE_OP ∧
    k ≠ TOKEN.TOK_MULTIPLICATIVE_OP ∧ k ≠ TOKEN.TOK_LEFT_BRACKET

/-- Decimal reading of a digit string, as `std::stoi` does for an `int` of 32 bits:
leading blanks, an optional sign, then digits; it throws when there is no digit or the
value does not fit. -/
def stoi_decimal (s : String) : Except String Int :=
  let cs := s.data.dropWhile Char.isWhitespace
  let neg := cs.head? = some '-'
  let ds := ((if cs.head? = some '-' ∨ cs.head? = some '+' then cs.tail else cs).takeWhile
    Char.isDigit)
  let v : Int := ds.foldl (fun acc d => 10 * acc + ((d.toNat : Int) - 48)) 0
  if ds = [] then Except.error "stoi"
  else if neg then (if v ≤ 2147483648 then Except.ok (-v) else Except.error "stoi")
  else (if v ≤ 2147483647 then Except.ok v else Except.error "stoi")

/-- An implementation for the worked examples: integers are read in decimal; no example
holds a real literal, and `stof` is left rejecting its argument; of the arguments of a
call the later one is evaluated first, as the GNU compiler does. -/
def example_lib : Toolchain :=
  { stoi := stoi_decimal
    stof := fun _ => Except.error "stof"
    operator_first := fun _ => false }

/-- The same implementation with the arguments of a call evaluated as they are written,
from the first to the last. -/
def in_order_lib : Toolchain :=
  { stoi := stoi_decimal
    stof := fun _ => Except.error "stof"
    operator_first := fun _ => true }

/-- The replacement that the comment in `parse_factor` describes: every escaped quote,
found scanning left to right, becomes a quote. -/
def unescape_spec : List Char → List Char
  | '\\' :: '"' :: cs => '"' :: unescape_spec cs
  | c :: cs => c :: unescape_spec cs
  | [] => []

/-- The routine `parse_statement`, started on the first token of the group `s` with
`rest` following it, accepts `s` as one complete statement: it returns `node` and stops
on the last token of `s`. -/
def Accepts (L : Toolchain) (ev : String) (el : Nat) (s rest : List Token)
    (node : ASTStatementNode) : Prop :=
  ∃ last, s.getLast? = some last ∧
    parse_statement L (Parser.new ⟨s ++ rest, ev, el⟩)
      = Result.ok node (Parser.reading last rest ev el)

/-- The tokens of a sequence of groups, concatenated. -/
def tokens_of (groups : List (List Token × ASTStatementNode)) : List Token :=
  (groups.map Prod.fst).flatten

/-- Each group of the sequence, where it stands in the stream (before the later groups
and `tail`), is accepted by `parse_statement` as one complete statement with the node
given for it. -/
def AcceptsAll (L : Toolchain) (ev : String) (el : Nat) :
    List (List Token × ASTStatementNode) → List Token → Prop
  | [], _ => True
  | g :: groups, tail =>
    Accepts L ev el g.1 (tokens_of groups ++ tail) g.2 ∧ AcceptsAll L ev el groups tail

/-- Starting at `q`, `parse_statement` succeeds once for each node of the list, in
order, one `consume_token` after each statement, and that leaves the parser at `q'`. -/
def StmtChain (L : Toolchain) : List ASTStatementNode → Parser → Parser → Prop
  | [], q, q' => q' = q
  | s :: ss, q, q' =>
    ∃ q1, parse_statement L q = Result.ok s q1 ∧ StmtChain L ss (consume_token q1) q'

/-- The text of the error that `parse_block` throws for a block left open. -/
def unterminated_block : String := "Reached end of file while parsing. Mismatched scopes."

/-- The message contains the decimal numeral of `n`. -/
def Mentions (msg : String) (n : Nat) : Prop := (toString n).data <:+: msg.data

/-- The type keyword token kind of each type. -/
def type_keyword : TYPE → TOKEN
  | TYPE.INT => TOKEN.TOK_INT_TYPE
  | TYPE.REAL => TOKEN.TOK_REAL_TYPE
  | TYPE.BOOL => TOKEN.TOK_BOOL_TYPE
  | TYPE.STRING => TOKEN.TOK_STRING_TYPE

/-- The tokens `, x : T` repeated, with the parameters they declare. -/
inductive ParamTail : List Token → List (String × TYPE) → Prop where
  | nil : ParamTail [] []
  | cons (k x c ty : Token) (T : TYPE) (ts : List Token) (ps : List (String × TYPE)) :
      k.type = TOKEN.TOK_COMMA → x.type = TOKEN.TOK_IDENTIFIER →
      c.type = TOKEN.TOK_COLON → ty.type = type_keyword T → ParamTail ts ps →
      ParamTail (k :: x :: c :: ty :: ts) ((x.value, T) :: ps)

/-- The tokens of a parameter list, `x1 : T1 , ... , xn : Tn` with `n ≥ 0`, and the
parameters they declare. -/
inductive Params : List Token → List (String × TYPE) → Prop where
  | empty : Params [] []
  | first (x c ty : Token) (T : TYPE) (ts : List Token) (ps : List (String × TYPE)) :
      x.type = TOKEN.TOK_IDENTIFIER → c.type = TOKEN.TOK_COLON →
      ty.type = type_keyword T → ParamTail ts ps →
      Params (x :: c :: ty :: ts) ((x.value, T) :: ps)

/-- The kind of the last token of a statement: `;` for a declaration, an assignment, a
print or a return statement, `}` for a block, an if, a while or a function definition. -/
def statement_end : ASTStatementNode → TOKEN
  | ASTStatementNode.declaration _ _ _ => TOKEN.TOK_SEMICOLON
  | ASTStatementNode.assignment _ _ => TOKEN.TOK_SEMICOLON
  | ASTStatementNode.print _ => TOKEN.TOK_SEMICOLON
  | ASTStatementNode.return_node _ => TOKEN.TOK_SEMICOLON
  | ASTStatementNode.block _ => TOKEN.TOK_RIGHT_CURLY
  | ASTStatementNode.if_node _ _ _ => TOKEN.TOK_RIGHT_CURLY
  | ASTStatementNode.while_node _ _ => TOKEN.TOK_RIGHT_CURLY
  | ASTStatementNode.function_definition _ _ _ _ => TOKEN.TOK_RIGHT_CURLY

/-- Starting at `q`, whose current token is the `(` of a call or a comma, the argument
expressions of the list are parsed in order by `parse_expression`, a comma following each
but the last, and `q'` is the parser on the token after the last argument, which is no
comma. -/
def ArgChain (L : Toolchain) : List ASTExprNode → Parser → Parser → Prop
  | [], _, _ => False
  | [E], q, q' =>
    ∃ q1, parse_expression L q = Result.ok E q1 ∧ q' = consume_token q1 ∧
      q'.current_token.type ≠ TOKEN.TOK_COMMA
  | E :: E2 :: Es, q, q' =>
    ∃ q1, parse_expression L q = Result.ok E q1 ∧
      (consume_token q1).current_token.type = TOKEN.TOK_COMMA ∧
      ArgChain L (E2 :: Es) (consume_token q1) q'

/-- The text that ends up in the node of the operator token `op` when the operand parsed
by the call of `parse_x()` ends with the token `last`: the text of `op` where the
implementation evaluates `current_token.value` first, the text of `last` where it
parses the operand first. -/
def stored_text (L : Toolchain) (site : CallSite) (op last : Token) : String :=
  if L.operator_first site then op.value else last.value

/-- The call that builds the node of a binary operator token of kind `k`: relational
operators in `parse_expression`, additive ones in `parse_simple_expression`, and
multiplicative ones in `parse_term`. -/
def binary_site (k : TOKEN) : CallSite :=
  match k with
  | TOKEN.TOK_RELATIONAL_OP => CallSite.relational
  | TOKEN.TOK_ADDITIVE_OP => CallSite.additive
  | _ => CallSite.multiplicative

/-! ## Predicates used in the proofs -/

/-- A successful result leaves fewer than `m` tokens to be read. -/
def Below {α : Type} (m : Nat) (r : Result α) : Prop :=
  ∀ v p1, r = Result.ok v p1 → remaining p1 < m

/-- The result `r`, if the budget sufficed for it, is `r'`. -/
def Result.Approx {α : Type} (r r' : Result α) : Prop := r = Result.fuel ∨ r = r'

/-- The token is neither a lexer error token nor the end of the input. -/
def Clean (t : Token) : Prop :=
  t.type ≠ TOKEN.TOK_ERROR ∧ t.type ≠ TOKEN.TOK_EOF

/-- The parser `p'` is `p` after some calls of `consume_token`, each of which made a
clean token the current one. -/
def Steps (p p' : Parser) : Prop :=
  ∃ k, p' = consume_token^[k] p ∧
    ∀ i, 1 ≤ i → i ≤ k → Clean (consume_token^[i] p).current_token

/-- The parser `p1` is one `consume_token` past a parser reached from `p` over clean
tokens: its current token has not been looked at yet. -/
def StepsThenOne (p p1 : Parser) : Prop :=
  ∃ q, Steps p q ∧ p1 = consume_token q

/-- What the routines guarantee of a result: the parser that comes with a value satisfies
`R`; a `std::runtime_error` is the open-block error or has a message built around the line
number of the token current at the throw; no null pointer is dereferenced. -/
def Guarded {α : Type} (R : Parser → Prop) : Result α → Prop
  | Result.ok _ p1 => R p1
  | Result.thrown (Exception.runtime_error msg) p1 =>
    msg = unterminated_block ∨
      ∃ pre post, msg = pre ++ toString p1.current_token.line_number ++ post
  | Result.thrown (Exception.logic_error _) _ => True
  | Result.null_deref _ => False
  | Result.fuel => True

/-- The guarantee of a routine started at `p` that tests every token it makes current. -/
abbrev Sound {α : Type} (p : Parser) (r : Result α) : Prop := Guarded (Steps p) r

/-- The guarantee of a loop entered one token past `p`, before it has tested that
token. -/
abbrev SoundAfter {α : Type} (p : Parser) (r : Result α) : Prop :=
  Guarded (StepsThenOne p) r

/-! ## Token counts -/

theorem remaining_consume_le (p : Parser) : remaining (consume_token p) ≤ remaining p := by
  obtain ⟨⟨pending, ev, el⟩, c, n⟩ := p
  cases pending
  all_goals simp [remaining, consume_token, Lexer.next_token]
  all_goals split
  all_goals omega

theorem remaining_consume_lt (p : Parser)
    (h : (consume_token p).current_token.type ≠ TOKEN.TOK_EOF) :
    remaining (consume_token p) < remaining p := by
  obtain ⟨⟨pending, ev, el⟩, c, n⟩ := p
  have h1 : n.type ≠ TOKEN.TOK_EOF := h
  cases pending <;> simp [remaining, consume_token, Lexer.next_token, h1]
  split <;> omega

theorem size_consume_le (p : Parser) : size (consume_token p) ≤ remaining p := by
  obtain ⟨⟨pending, ev, el⟩, c, n⟩ := p
  cases pending
  all_goals simp [size, remaining, consume_token, Lexer.next_token]
  all_goals split
  all_goals omega

theorem remaining_le_size (p : Parser) : remaining p ≤ size p := by
  unfold size
  omega

theorem size_eq_of_ne_eof {p : Parser} (h : p.current_token.type ≠ TOKEN.TOK_EOF) :
    size p = remaining p + 1 := by
  simp [size, h]

/-! ## Results -/

theorem below_ok {α : Type} {m : Nat} {p1 : Parser} {v : α} (h : remaining p1 < m) :
    Below m (Result.ok v p1) := by
  intro v1 p2 h1
  cases h1
  exact h

theorem below_thrown {α : Type} {m : Nat} {p1 : Parser} {e : Exception} :
    Below m (Result.thrown e p1 : Result α) := by
  intro v1 p2 h1
  cases h1

theorem below_null_deref {α : Type} {m : Nat} {p1 : Parser} :
    Below m (Result.null_deref p1 : Result α) := by
  intro v1 p2 h1
  cases h1

theorem below_fuel {α : Type} {m : Nat} : Below m (Result.fuel : Result α) := by
  intro v1 p2 h1
  cases h1

theorem below_bind {α β : Type} {j m : Nat} {r : Result α} {f : α → Parser → Result β}
    (hr : Below j r) (hf : ∀ a p1, remaining p1 < j → Below m (f a p1)) :
    Below m (r.bind f) := by
  cases r with
  | ok a p1 => exact hf a p1 (hr a p1 rfl)
  | thrown e p1 => exact below_thrown
  | null_deref p1 => exact below_null_deref
  | fuel => exact below_fuel

theorem below_mono {α : Type} {j m : Nat} {r : Result α} (hr : Below j r) (h : j ≤ m) :
    Below m r := by
  intro v p1 h1
  have := hr v p1 h1
  omega

theorem bind_ne_fuel {α β : Type} {r : Result α} {f : α → Parser → Result β}
    (hr : r ≠ Result.fuel) (hf : ∀ a p1, r = Result.ok a p1 → f a p1 ≠ Result.fuel) :
    r.bind f ≠ Result.fuel := by
  cases r with
  | ok a p1 => exact hf a p1 rfl
  | thrown e p1 => simp [Result.bind]
  | null_deref p1 => simp [Result.bind]
  | fuel => exact absurd rfl hr

theorem approx_refl {α : Type} (r : Result α) : r.Approx r := Or.inr rfl

theorem approx_bind {α β : Type} {r r' : Result α} {f f' : α → Parser → Result β}
    (hr : r.Approx r') (hf : ∀ a p1, (f a p1).Approx (f' a p1)) :
    (r.bind f).Approx (r'.bind f') := by
  rcases hr with rfl | rfl
  · exact Or.inl rfl
  · cases r with
    | ok a p1 => exact hf a p1
    | thrown e p1 => exact Or.inr rfl
    | null_deref p1 => exact Or.inr rfl
    | fuel => exact Or.inl rfl

theorem approx_eq {α : Type} {r r' : Result α} (h : r.Approx r')
    (hr : r ≠ Result.fuel) : r = r' :=
  Or.resolve_left h hr

/-- A family that only improves with the budget approximates each of its members that is
not out of budget. -/
theorem approx_of_chain {α : Type} (F : Nat → Result α)
    (h : ∀ n, (F n).Approx (F (n + 1))) (b : Nat) (hb : F b ≠ Result.fuel) (n : Nat) :
    (F n).Approx (F b) := by
  have hle : ∀ k m, (F m).Approx (F (m + k)) := by
    intro k
    induction k with
    | zero => intro m; exact approx_refl _
    | succ k ih =>
      intro m
      rcases ih m with h1 | h1
      · exact Or.inl h1
      · rcases h (m + k) with h2 | h2
        · exact Or.inl (h1.trans h2)
        · exact Or.inr (h1.trans h2)
  rcases Nat.le_total n b with hnb | hbn
  · obtain ⟨k, rfl⟩ := Nat.exists_eq_add_of_le hnb
    exact hle k n
  · obtain ⟨k, rfl⟩ := Nat.exists_eq_add_of_le hbn
    exact Or.inr (approx_eq (hle k b) hb).symm

/-! ## The unescape loop never exhausts its budget -/

theorem find_from_bounds (pat : List Char) : ∀ (cs : List Char) (i j : Nat),
    find_from pat cs i = some j → i ≤ j ∧ j + pat.length ≤ i + cs.length := by
  intro cs
  induction cs with
  | nil =>
    intro i j h
    simp only [find_from] at h
    split at h
    · rename_i hp
      simp at h
      subst hp
      simp [h]
    · simp at h
  | cons c cs ih =>
    intro i j h
    simp only [find_from] at h
    split at h
    · rename_i hp
      simp at h
      have := hp.length_le
      omega
    · have := ih _ _ h
      simp only [List.length_cons]
      omega

theorem find_bounds {s pat : List Char} {pos j : Nat} (h : find s pat pos = some j) :
    pos ≤ j ∧ j + pat.length ≤ s.length := by
  unfold find at h
  split at h
  · simp at h
  · have := find_from_bounds pat _ _ _ h
    simp only [List.length_drop] at this
    omega

theorem replace_length {s : List Char} {pos : Nat} (h : pos + 2 ≤ s.length) :
    (replace s pos 2 ['"']).length + 1 = s.length := by
  simp only [replace, List.length_append, List.length_take, List.length_drop,
    List.length_singleton]
  omega

theorem unescape_loop_isSome : ∀ (k : Nat) (str : List Char) (pos : Option Nat),
    (∀ i, pos = some i → i + 2 ≤ str.length ∧ str.length ≤ k + i) →
    ∃ s, unescape_loop k str pos = some s := by
  intro k
  induction k with
  | zero =>
    intro str pos h
    cases pos with
    | none => exact ⟨str, rfl⟩
    | some i => have := h i rfl; omega
  | succ k ih =>
    intro str pos h
    cases pos with
    | none => exact ⟨str, rfl⟩
    | some i =>
      have hi := h i rfl
      have hl := replace_length hi.1
      simp only [unescape_loop]
      apply ih
      intro j hj
      have hb := find_bounds hj
      simp only [escaped_quote, List.length_cons, List.length_nil] at hb
      omega

theorem unescape_total (str : List Char) :
    ∃ s, unescape_loop str.length str (find str escaped_quote 0) = some s := by
  apply unescape_loop_isSome
  intro i hi
  have hb := find_bounds hi
  simp only [escaped_quote, List.length_cons, List.length_nil] at hb
  omega

/-! ## Expression routines: progress, budget, stability -/

theorem expr_below (L : Toolchain) : ∀ n,
    (∀ p, Below (remaining p) (parse_expressionF L n p)) ∧
    (∀ p, Below (remaining p) (parse_simple_expressionF L n p)) ∧
    (∀ p, Below (remaining p) (parse_termF L n p)) ∧
    (∀ p, Below (remaining p) (parse_factorF L n p)) ∧
    (∀ p, Below (remaining p) (parse_function_callF L n p)) ∧
    (∀ p, Below (remaining p) (parse_actual_paramsF L n p)) ∧
    (∀ ps p, Below (remaining p + 1) (actual_params_loopF L n ps p)) := by
  intro n
  induction n with
  | zero =>
    refine ⟨?_, ?_, ?_, ?_, ?_, ?_, ?_⟩ <;> intros <;> exact below_fuel
  | succ n ih =>
    obtain ⟨ihe, ihs, iht, ihf, ihc, iha, ihl⟩ := ih
    refine ⟨?_, ?_, ?_, ?_, ?_, ?_, ?_⟩
    · intro p
      rw [parse_expressionF]
      refine below_bind (ihs p) fun a p1 h1 => ?_
      have := remaining_consume_le p1
      split
      · exact below_mono (below_bind (ihe _) fun b p3 h3 => below_ok h3) (by omega)
      · exact below_ok h1
    · intro p
      rw [parse_simple_expressionF]
      refine below_bind (iht p) fun a p1 h1 => ?_
      have := remaining_consume_le p1
      split
      · exact below_mono (below_bind (ihs _) fun b p3 h3 => below_ok h3) (by omega)
      · exact below_ok h1
    · intro p
      rw [parse_termF]
      refine below_bind (ihf p) fun a p1 h1 => ?_
      have := remaining_consume_le p1
      split
      · exact below_mono (below_bind (iht _) fun b p3 h3 => below_ok h3) (by omega)
      · exact below_ok h1
    · intro p
      rw [parse_factorF]
      have hlt := remaining_consume_lt p
      split
      all_goals first
        | exact below_thrown
        | skip
      all_goals rename_i heq
      all_goals have hq := hlt (by rw [heq]; decide)
      · split
        · exact below_ok hq
        · exact below_thrown
      · split
        · exact below_ok hq
        · exact below_thrown
      · exact below_ok hq
      · split
        · exact below_thrown
        · split
          · exact below_ok hq
          · exact below_fuel
      · split
        · exact below_mono (ihc _) (by omega)
        · exact below_ok hq
      · refine below_bind (ihe _) fun b p3 h3 => ?_
        have := remaining_consume_le p3
        split
        · exact below_thrown
        · exact below_ok (by omega)
      · exact below_bind (ihe _) fun b p3 h3 => below_ok (by omega)
      · exact below_bind (ihe _) fun b p3 h3 => below_ok (by omega)
    · intro p
      rw [parse_function_callF]
      have hlt := remaining_consume_lt p
      split
      · exact below_thrown
      · rename_i heq
        have hq := hlt (by simp at heq; rw [heq]; decide)
        refine below_bind (j := remaining p) ?_ fun b p3 h3 => ?_
        · split
          · exact below_bind (iha _) fun b p3 h3 => below_ok (by omega)
          · exact below_ok (by omega)
        · split
          · exact below_thrown
          · split
            · exact below_ok (by omega)
            · exact below_null_deref
    · intro p
      rw [parse_actual_paramsF]
      refine below_bind (ihe _) fun b p3 h3 => ?_
      have := remaining_consume_le p3
      exact below_mono (ihl _ _) (by omega)
    · intro ps p
      rw [actual_params_loopF]
      split
      · refine below_bind (ihe _) fun b p3 h3 => ?_
        have := remaining_consume_le p3
        exact below_mono (ihl _ _) (by omega)
      · exact below_ok (by omega)

theorem expr_fuel_suffices (L : Toolchain) : ∀ n,
    (∀ p, 4 * remaining p + 4 ≤ n → parse_expressionF L n p ≠ Result.fuel) ∧
    (∀ p, 4 * remaining p + 3 ≤ n → parse_simple_expressionF L n p ≠ Result.fuel) ∧
    (∀ p, 4 * remaining p + 2 ≤ n → parse_termF L n p ≠ Result.fuel) ∧
    (∀ p, 4 * remaining p + 1 ≤ n → parse_factorF L n p ≠ Result.fuel) ∧
    (∀ p, 4 * remaining p + 2 ≤ n → parse_function_callF L n p ≠ Result.fuel) ∧
    (∀ p, 4 * remaining p + 5 ≤ n → parse_actual_paramsF L n p ≠ Result.fuel) ∧
    (∀ ps p, 4 * remaining p + 5 ≤ n → actual_params_loopF L n ps p ≠ Result.fuel) := by
  intro n
  induction n with
  | zero =>
    refine ⟨?_, ?_, ?_, ?_, ?_, ?_, ?_⟩ <;> intros <;> omega
  | succ n ih =>
    obtain ⟨ihe, ihs, iht, ihf, ihc, iha, ihl⟩ := ih
    obtain ⟨de, ds, dt, df, -, -, -⟩ := expr_below L n
    refine ⟨?_, ?_, ?_, ?_, ?_, ?_, ?_⟩
    · intro p hn
      rw [parse_expressionF]
      refine bind_ne_fuel (ihs p (by omega)) fun a p1 h1 => ?_
      have := ds p a p1 h1
      have := remaining_consume_le p1
      split
      · exact bind_ne_fuel (ihe _ (by omega)) fun b p3 h3 => by simp
      · simp
    · intro p hn
      rw [parse_simple_expressionF]
      refine bind_ne_fuel (iht p (by omega)) fun a p1 h1 => ?_
      have := dt p a p1 h1
      have := remaining_consume_le p1
      split
      · exact bind_ne_fuel (ihs _ (by omega)) fun b p3 h3 => by simp
      · simp
    · intro p hn
      rw [parse_termF]
      refine bind_ne_fuel (ihf p (by omega)) fun a p1 h1 => ?_
      have := df p a p1 h1
      have := remaining_consume_le p1
      split
      · exact bind_ne_fuel (iht _ (by omega)) fun b p3 h3 => by simp
      · simp
    · intro p hn
      rw [parse_factorF]
      have hlt := remaining_consume_lt p
      split
      all_goals first
        | (simp; done)
        | skip
      all_goals rename_i heq
      all_goals have hq := hlt (by rw [heq]; decide)
      · split <;> simp
      · split <;> simp
      · split
        · simp
        · rename_i str _
          obtain ⟨s, hs⟩ := unescape_total str
          rw [hs]
          simp
      · split
        · exact ihc _ (by omega)
        · simp
      · refine bind_ne_fuel (ihe _ (by omega)) fun b p3 h3 => ?_
        split <;> simp
      · exact bind_ne_fuel (ihe _ (by omega)) fun b p3 h3 => by simp
      · exact bind_ne_fuel (ihe _ (by omega)) fun b p3 h3 => by simp
    · intro p hn
      rw [parse_function_callF]
      have hlt := remaining_consume_lt p
      split
      · simp
      · rename_i heq
        have hq := hlt (by simp at heq; rw [heq]; decide)
        refine bind_ne_fuel ?_ fun b p3 h3 => ?_
        · split
          · exact bind_ne_fuel (iha _ (by omega)) fun b p3 h3 => by simp
          · simp
        · split
          · simp
          · split <;> simp
    · intro p hn
      rw [parse_actual_paramsF]
      refine bind_ne_fuel (ihe _ (by omega)) fun b p3 h3 => ?_
      have := de p b p3 h3
      have := remaining_consume_le p3
      exact ihl _ _ (by omega)
    · intro ps p hn
      rw [actual_params_loopF]
      split
      · refine bind_ne_fuel (ihe _ (by omega)) fun b p3 h3 => ?_
        have := de p b p3 h3
        have := remaining_consume_le p3
        exact ihl _ _ (by omega)
      · simp

theorem expr_mono_step (L : Toolchain) : ∀ n,
    (∀ p, (parse_expressionF L n p).Approx (parse_expressionF L (n + 1) p)) ∧
    (∀ p, (parse_simple_expressionF L n p).Approx (parse_simple_expressionF L (n + 1) p)) ∧
    (∀ p, (parse_termF L n p).Approx (parse_termF L (n + 1) p)) ∧
    (∀ p, (parse_factorF L n p).Approx (parse_factorF L (n + 1) p)) ∧
    (∀ p, (parse_function_callF L n p).Approx (parse_function_callF L (n + 1) p)) ∧
    (∀ p, (parse_actual_paramsF L n p).Approx (parse_actual_paramsF L (n + 1) p)) ∧
    (∀ ps p, (actual_params_loopF L n ps p).Approx (actual_params_loopF L (n + 1) ps p)) := by
  intro n
  induction n with
  | zero =>
    refine ⟨?_, ?_, ?_, ?_, ?_, ?_, ?_⟩ <;> intros <;> exact Or.inl rfl
  | succ n ih =>
    obtain ⟨ihe, ihs, iht, ihf, ihc, iha, ihl⟩ := ih
    refine ⟨?_, ?_, ?_, ?_, ?_, ?_, ?_⟩
    · intro p
      rw [parse_expressionF, parse_expressionF]
      refine approx_bind (ihs p) fun a p1 => ?_
      split
      · exact approx_bind (ihe _) fun b p3 => approx_refl _
      · exact approx_refl _
    · intro p
      rw [parse_simple_expressionF, parse_simple_expressionF]
      refine approx_bind (iht p) fun a p1 => ?_
      split
      · exact approx_bind (ihs _) fun b p3 => approx_refl _
      · exact approx_refl _
    · intro p
      rw [parse_termF, parse_termF]
      refine approx_bind (ihf p) fun a p1 => ?_
      split
      · exact approx_bind (iht _) fun b p3 => approx_refl _
      · exact approx_refl _
    · intro p
      rw [parse_factorF, parse_factorF]
      generalize (consume_token p).current_token.type = t
      cases t <;> dsimp only
      all_goals first
        | exact approx_refl _
        | exact approx_bind (ihe _) fun b p3 => approx_refl _
        | skip
      split
      · exact ihc _
      · exact approx_refl _
    · intro p
      rw [parse_function_callF, parse_function_callF]
      split
      · exact approx_refl _
      · refine approx_bind ?_ fun b p3 => approx_refl _
        split
        · exact approx_bind (iha _) fun b p3 => approx_refl _
        · exact approx_refl _
    · intro p
      rw [parse_actual_paramsF, parse_actual_paramsF]
      exact approx_bind (ihe _) fun b p3 => ihl _ _
    · intro ps p
      rw [actual_params_loopF, actual_params_loopF]
      split
      · exact approx_bind (ihe _) fun b p3 => ihl _ _
      · exact approx_refl _

/-! ## Expression routines: every budget agrees with the fuel-free routine -/

theorem parse_expressionF_approx (L : Toolchain) (n : Nat) (p : Parser) :
    (parse_expressionF L n p).Approx (parse_expression L p) :=
  approx_of_chain (fun k => parse_expressionF L k p)
    (fun k => (expr_mono_step L k).1 p) _ ((expr_fuel_suffices L _).1 p (le_refl _)) n

theorem parse_simple_expressionF_approx (L : Toolchain) (n : Nat) (p : Parser) :
    (parse_simple_expressionF L n p).Approx (parse_simple_expression L p) :=
  approx_of_chain (fun k => parse_simple_expressionF L k p)
    (fun k => (expr_mono_step L k).2.1 p) _
    ((expr_fuel_suffices L _).2.1 p (le_refl _)) n

theorem parse_termF_approx (L : Toolchain) (n : Nat) (p : Parser) :
    (parse_termF L n p).Approx (parse_term L p) :=
  approx_of_chain (fun k => parse_termF L k p)
    (fun k => (expr_mono_step L k).2.2.1 p) _
    ((expr_fuel_suffices L _).2.2.1 p (le_refl _)) n

theorem parse_factorF_approx (L : Toolchain) (n : Nat) (p : Parser) :
    (parse_factorF L n p).Approx (parse_factor L p) :=
  approx_of_chain (fun k => parse_factorF L k p)
    (fun k => (expr_mono_step L k).2.2.2.1 p) _
    ((expr_fuel_suffices L _).2.2.2.1 p (le_refl _)) n

theorem parse_function_callF_approx (L : Toolchain) (n : Nat) (p : Parser) :
    (parse_function_callF L n p).Approx (parse_function_call L p) :=
  approx_of_chain (fun k => parse_function_callF L k p)
    (fun k => (expr_mono_step L k).2.2.2.2.1 p) _
    ((expr_fuel_suffices L _).2.2.2.2.1 p (le_refl _)) n

theorem parse_actual_paramsF_approx (L : Toolchain) (n : Nat) (p : Parser) :
    (parse_actual_paramsF L n p).Approx (parse_actual_params L p) :=
  approx_of_chain (fun k => parse_actual_paramsF L k p)
    (fun k => (expr_mono_step L k).2.2.2.2.2.1 p) _
    ((expr_fuel_suffices L _).2.2.2.2.2.1 p (le_refl _)) n

theorem actual_params_loopF_approx (L : Toolchain) (n : Nat) (ps : List ASTExprNode)
    (p : Parser) : (actual_params_loopF L n ps p).Approx (actual_params_loop L ps p) :=
  approx_of_chain (fun k => actual_params_loopF L k ps p)
    (fun k => (expr_mono_step L k).2.2.2.2.2.2 ps p) _
    ((expr_fuel_suffices L _).2.2.2.2.2.2 ps p (le_refl _)) n

/-! ## Expression routines: the defining equations -/

theorem parse_expression_eq (L : Toolchain) (p : Parser) :
    parse_expression L p =
      (parse_simple_expression L p).bind fun simple_expr p1 =>
        if p1.next_token.type = TOKEN.TOK_RELATIONAL_OP then
          (parse_expression L (consume_token p1)).bind fun rhs p3 =>
            Result.ok (ASTExprNode.binary_expr
              (operator_text L CallSite.relational (consume_token p1) p3) simple_expr rhs) p3
        else Result.ok simple_expr p1 := by
  refine approx_eq ?_ ((expr_fuel_suffices L _).1 p (le_refl _))
  show (parse_expressionF L (4 * remaining p + 3 + 1) p).Approx _
  rw [parse_expressionF]
  refine approx_bind (parse_simple_expressionF_approx L _ p) fun a p1 => ?_
  split
  · exact approx_bind (parse_expressionF_approx L _ _) fun b p3 =>
      approx_refl _
  · exact approx_refl _

theorem parse_simple_expression_eq (L : Toolchain) (p : Parser) :
    parse_simple_expression L p =
      (parse_term L p).bind fun term p1 =>
        if p1.next_token.type = TOKEN.TOK_ADDITIVE_OP then
          (parse_simple_expression L (consume_token p1)).bind fun rhs p3 =>
            Result.ok (ASTExprNode.binary_expr
              (operator_text L CallSite.additive (consume_token p1) p3) term rhs) p3
        else Result.ok term p1 := by
  refine approx_eq ?_ ((expr_fuel_suffices L _).2.1 p (le_refl _))
  show (parse_simple_expressionF L (4 * remaining p + 2 + 1) p).Approx _
  rw [parse_simple_expressionF]
  refine approx_bind (parse_termF_approx L _ p) fun a p1 => ?_
  split
  · exact approx_bind (parse_simple_expressionF_approx L _ _) fun b p3 =>
      approx_refl _
  · exact approx_refl _

theorem parse_term_eq (L : Toolchain) (p : Parser) :
    parse_term L p =
      (parse_factor L p).bind fun factor p1 =>
        if p1.next_token.type = TOKEN.TOK_MULTIPLICATIVE_OP then
          (parse_term L (consume_token p1)).bind fun rhs p3 =>
            Result.ok (ASTExprNode.binary_expr
              (operator_text L CallSite.multiplicative (consume_token p1) p3) factor rhs) p3
        else Result.ok factor p1 := by
  refine approx_eq ?_ ((expr_fuel_suffices L _).2.2.1 p (le_refl _))
  show (parse_termF L (4 * remaining p + 1 + 1) p).Approx _
  rw [parse_termF]
  refine approx_bind (parse_factorF_approx L _ p) fun a p1 => ?_
  split
  · exact approx_bind (parse_termF_approx L _ _) fun b p3 => approx_refl _
  · exact approx_refl _

theorem parse_factor_eq (L : Toolchain) (p0 : Parser) :
    parse_factor L p0 =
      match (consume_token p0).current_token.type with
      | TOKEN.TOK_INT =>
        match L.stoi (consume_token p0).current_token.value with
        | Except.ok v => Result.ok (ASTExprNode.literal_int v) (consume_token p0)
        | Except.error w => Result.thrown (Exception.logic_error w) (consume_token p0)
      | TOKEN.TOK_REAL =>
        match L.stof (consume_token p0).current_token.value with
        | Except.ok v => Result.ok (ASTExprNode.literal_float v) (consume_token p0)
        | Except.error w => Result.thrown (Exception.logic_error w) (consume_token p0)
      | TOKEN.TOK_BOOL =>
        Result.ok (ASTExprNode.literal_bool
          (decide ((consume_token p0).current_token.value = "true"))) (consume_token p0)
      | TOKEN.TOK_STRING =>
        match substr (consume_token p0).current_token.value.data 1
            (size_minus_two (consume_token p0).current_token.value.data.length) with
        | Except.error w => Result.thrown (Exception.logic_error w) (consume_token p0)
        | Except.ok str =>
          match unescape_loop str.length str (find str escaped_quote 0) with
          | some s => Result.ok (ASTExprNode.literal_string (String.mk s)) (consume_token p0)
          | none => Result.fuel
      | TOKEN.TOK_IDENTIFIER =>
        if (consume_token p0).next_token.type = TOKEN.TOK_LEFT_BRACKET then
          parse_function_call L (consume_token p0)
        else
          Result.ok (ASTExprNode.identifier (consume_token p0).current_token.value)
            (consume_token p0)
      | TOKEN.TOK_LEFT_BRACKET =>
        (parse_expression L (consume_token p0)).bind fun sub_expr p1 =>
          if (consume_token p1).current_token.type ≠ TOKEN.TOK_RIGHT_BRACKET then
            Result.thrown (Exception.runtime_error
              ("Expected ')' after expression on line "
                ++ toString (consume_token p1).current_token.line_number ++ "."))
              (consume_token p1)
          else Result.ok sub_expr (consume_token p1)
      | TOKEN.TOK_ADDITIVE_OP =>
        (parse_expression L (consume_token p0)).bind fun operand p1 =>
          Result.ok (ASTExprNode.unary_expr
            (operator_text L CallSite.unary (consume_token p0) p1) operand) p1
      | TOKEN.TOK_NOT =>
        (parse_expression L (consume_token p0)).bind fun operand p1 =>
          Result.ok (ASTExprNode.unary_expr
            (operator_text L CallSite.unary (consume_token p0) p1) operand) p1
      | _ =>
        Result.thrown (Exception.runtime_error ("Expected expression on line "
          ++ toString (consume_token p0).current_token.line_number ++ "."))
          (consume_token p0) := by
  refine approx_eq ?_ ((expr_fuel_suffices L _).2.2.2.1 p0 (le_refl _))
  show (parse_factorF L (4 * remaining p0 + 1) p0).Approx _
  rw [parse_factorF]
  generalize (consume_token p0).current_token.type = t
  cases t <;> dsimp only
  all_goals first
    | exact approx_refl _
    | exact approx_bind (parse_expressionF_approx L _ _) fun b p3 =>
        approx_refl _
    | skip
  split
  · exact parse_function_callF_approx L _ _
  · exact approx_refl _

theorem parse_function_call_eq (L : Toolchain) (p0 : Parser) :
    parse_function_call L p0 =
      if (consume_token p0).current_token.type ≠ TOKEN.TOK_LEFT_BRACKET then
        Result.thrown (Exception.runtime_error ("Expected '(' on line "
          ++ toString (consume_token p0).current_token.line_number ++ "."))
          (consume_token p0)
      else
        (if (consume_token p0).next_token.type ≠ TOKEN.TOK_RIGHT_BRACKET then
            (parse_actual_params L (consume_token p0)).bind fun ps p1 =>
              Result.ok (some ps) p1
          else Result.ok none (consume_token p0)).bind fun parameters p1 =>
          if p1.current_token.type ≠ TOKEN.TOK_RIGHT_BRACKET then
            Result.thrown (Exception.runtime_error ("Expected ')' on line "
              ++ toString p1.current_token.line_number ++ " after function parameters."))
              p1
          else
            match parameters with
            | some ps =>
              Result.ok (ASTExprNode.function_call p0.current_token.value ps) p1
            | none => Result.null_deref p1 := by
  refine approx_eq ?_ ((expr_fuel_suffices L _).2.2.2.2.1 p0 (le_refl _))
  show (parse_function_callF L (4 * remaining p0 + 1 + 1) p0).Approx _
  rw [parse_function_callF]
  split
  · exact approx_refl _
  · refine approx_bind ?_ fun b p3 => approx_refl _
    split
    · exact approx_bind (parse_actual_paramsF_approx L _ _) fun b p3 =>
        approx_refl _
    · exact approx_refl _

theorem parse_actual_params_eq (L : Toolchain) (p : Parser) :
    parse_actual_params L p =
      (parse_expression L p).bind fun e p1 =>
        actual_params_loop L [e] (consume_token p1) := by
  refine approx_eq ?_ ((expr_fuel_suffices L _).2.2.2.2.2.1 p (le_refl _))
  show (parse_actual_paramsF L (4 * remaining p + 4 + 1) p).Approx _
  rw [parse_actual_paramsF]
  exact approx_bind (parse_expressionF_approx L _ _) fun b p3 =>
    actual_params_loopF_approx L _ _ _

theorem actual_params_loop_eq (L : Toolchain) (parameters : List ASTExprNode) (p : Parser) :
    actual_params_loop L parameters p =
      if p.current_token.type = TOKEN.TOK_COMMA then
        (parse_expression L p).bind fun e p1 =>
          actual_params_loop L (parameters ++ [e]) (consume_token p1)
      else Result.ok parameters p := by
  refine approx_eq ?_ ((expr_fuel_suffices L _).2.2.2.2.2.2 parameters p (le_refl _))
  show (actual_params_loopF L (4 * remaining p + 4 + 1) parameters p).Approx _
  rw [actual_params_loopF]
  split
  · exact approx_bind (parse_expressionF_approx L _ _) fun b p3 =>
      actual_params_loopF_approx L _ _ _
  · exact approx_refl _

/-! ## The parameter loop of function definitions -/

theorem parse_type_state {identifier : String} {p p1 : Parser} {t : TYPE}
    (h : parse_type identifier p = Result.ok t p1) : p1 = p := by
  unfold parse_type at h
  split at h <;> simp at h <;> exact h.2.symm

theorem parse_type_ne_fuel (identifier : String) (p : Parser) :
    parse_type identifier p ≠ Result.fuel := by
  unfold parse_type
  split <;> simp

theorem parse_formal_param_ne_fuel (p : Parser) : parse_formal_param p ≠ Result.fuel := by
  unfold parse_formal_param
  split
  · simp
  · dsimp only
    split
    · simp
    · exact bind_ne_fuel (parse_type_ne_fuel _ _) fun a p1 h => by simp

theorem parse_formal_param_below (p : Parser) :
    Below (remaining p) (parse_formal_param p) := by
  unfold parse_formal_param
  split
  · exact below_thrown
  · dsimp only
    split
    · exact below_thrown
    · rename_i h1
      have h2 := remaining_consume_lt p (by simp at h1; rw [h1]; decide)
      have h3 := remaining_consume_le (consume_token p)
      intro v p1 hv
      cases hr : parse_type p.current_token.value (consume_token (consume_token p)) with
      | ok t q =>
        rw [hr] at hv
        have := parse_type_state hr
        simp [Result.bind] at hv
        obtain ⟨-, rfl⟩ := hv
        subst this
        omega
      | thrown e q => rw [hr] at hv; simp [Result.bind] at hv
      | null_deref q => rw [hr] at hv; simp [Result.bind] at hv
      | fuel => rw [hr] at hv; simp [Result.bind] at hv

theorem formal_params_loopF_ne_fuel : ∀ (n : Nat) (ps : List (String × TYPE)) (p : Parser),
    size p + 1 ≤ n → formal_params_loopF n ps p ≠ Result.fuel := by
  intro n
  induction n with
  | zero => intro ps p h; omega
  | succ n ih =>
    intro ps p h
    rw [formal_params_loopF]
    split
    · rename_i hc
      have h1 : size p = remaining p + 1 := size_eq_of_ne_eof (by rw [hc]; decide)
      refine bind_ne_fuel (parse_formal_param_ne_fuel _) fun a p1 ha => ih _ _ ?_
      have h2 := parse_formal_param_below _ a p1 ha
      have h3 := size_consume_le p1
      have h4 := remaining_consume_le p
      omega
    · simp

theorem formal_params_loopF_mono : ∀ (n : Nat) (ps : List (String × TYPE)) (p : Parser),
    (formal_params_loopF n ps p).Approx (formal_params_loopF (n + 1) ps p) := by
  intro n
  induction n with
  | zero => intro ps p; exact Or.inl rfl
  | succ n ih =>
    intro ps p
    rw [formal_params_loopF, formal_params_loopF]
    split
    · exact approx_bind (approx_refl _) fun a p1 => ih _ _
    · exact approx_refl _

theorem formal_params_loopF_approx (n : Nat) (ps : List (String × TYPE)) (p : Parser) :
    (formal_params_loopF n ps p).Approx (formal_params_loop ps p) :=
  approx_of_chain (fun k => formal_params_loopF k ps p)
    (fun k => formal_params_loopF_mono k ps p) _
    (formal_params_loopF_ne_fuel _ ps p (le_refl _)) n

theorem formal_params_loop_eq (parameters : List (String × TYPE)) (p : Parser) :
    formal_params_loop parameters p =
      if p.current_token.type = TOKEN.TOK_COMMA then
        (parse_formal_param (consume_token p)).bind fun param p1 =>
          formal_params_loop (parameters ++ [param]) (consume_token p1)
      else Result.ok parameters p := by
  refine approx_eq ?_ (formal_params_loopF_ne_fuel _ parameters p (le_refl _))
  show (formal_params_loopF (size p + 1) parameters p).Approx _
  rw [formal_params_loopF]
  split
  · exact approx_bind (approx_refl _) fun b p3 =>
      formal_params_loopF_approx _ _ _
  · exact approx_refl _

theorem formal_params_loopF_below : ∀ (n : Nat) (ps : List (String × TYPE)) (p : Parser),
    Below (remaining p + 1) (formal_params_loopF n ps p) := by
  intro n
  induction n with
  | zero => intro ps p; exact below_fuel
  | succ n ih =>
    intro ps p
    rw [formal_params_loopF]
    split
    · refine below_bind (parse_formal_param_below _) fun a p1 h1 => ?_
      have h2 := remaining_consume_le p1
      have h3 := remaining_consume_le p
      exact below_mono (ih _ _) (by omega)
    · exact below_ok (by omega)

theorem parse_formal_params_below (p : Parser) :
    Below (remaining p + 1) (parse_formal_params p) := by
  unfold parse_formal_params
  split
  · refine below_bind (parse_formal_param_below p) fun a p1 h1 => ?_
    have h2 := remaining_consume_le p1
    refine below_bind (formal_params_loopF_below _ _ _) fun b p2 h3 => ?_
    split
    · exact below_thrown
    · exact below_ok (by omega)
  · exact below_ok (by omega)

theorem parse_formal_params_ne_fuel (p : Parser) : parse_formal_params p ≠ Result.fuel := by
  unfold parse_formal_params
  split
  · refine bind_ne_fuel (parse_formal_param_ne_fuel p) fun a p1 h1 => ?_
    refine bind_ne_fuel (formal_params_loopF_ne_fuel _ _ _ (le_refl _))
      fun b p2 h2 => ?_
    split <;> simp
  · simp

/-! ## Simple statements: progress and budget -/

theorem parse_expression_below (L : Toolchain) (p : Parser) :
    Below (remaining p) (parse_expression L p) :=
  (expr_below L _).1 p

theorem parse_expression_ne_fuel (L : Toolchain) (p : Parser) :
    parse_expression L p ≠ Result.fuel :=
  (expr_fuel_suffices L _).1 p (le_refl _)

theorem parse_type_below {identifier : String} {p : Parser} {m : Nat}
    (h : remaining p < m) : Below m (parse_type identifier p) := by
  intro v p1 h1
  rw [parse_type_state h1]
  exact h

theorem parse_declaration_statement_below (L : Toolchain) (p : Parser) :
    Below (remaining p) (parse_declaration_statement L p) := by
  unfold parse_declaration_statement
  have h1 := remaining_consume_le p
  have h2 := remaining_consume_le (consume_token p)
  have h3 := remaining_consume_le (consume_token (consume_token p))
  dsimp only
  split
  · exact below_thrown
  · split
    · exact below_thrown
    · refine below_bind (j := remaining p + 1) (parse_type_below (by omega)) fun t p3 h4 => ?_
      have h5 := remaining_consume_le p3
      split
      · exact below_thrown
      · refine below_bind (parse_expression_below L _) fun e p5 h6 => ?_
        have h7 := remaining_consume_le p5
        split
        · exact below_thrown
        · exact below_ok (by omega)

theorem parse_assignment_statement_below (L : Toolchain) (p : Parser) :
    Below (remaining p) (parse_assignment_statement L p) := by
  unfold parse_assignment_statement
  have h1 := remaining_consume_le p
  have h2 := remaining_consume_le (consume_token p)
  dsimp only
  split
  · exact below_thrown
  · split
    · exact below_thrown
    · refine below_bind (parse_expression_below L _) fun e p5 h6 => ?_
      have h7 := remaining_consume_le p5
      split
      · exact below_thrown
      · exact below_ok (by omega)

theorem parse_print_statement_below (L : Toolchain) (p : Parser) :
    Below (remaining p) (parse_print_statement L p) := by
  unfold parse_print_statement
  refine below_bind (parse_expression_below L _) fun e p5 h6 => ?_
  have h7 := remaining_consume_le p5
  dsimp only
  split
  · exact below_thrown
  · exact below_ok (by omega)

theorem parse_return_statement_below (L : Toolchain) (p : Parser) :
    Below (remaining p) (parse_return_statement L p) := by
  unfold parse_return_statement
  refine below_bind (parse_expression_below L _) fun e p5 h6 => ?_
  have h7 := remaining_consume_le p5
  dsimp only
  split
  · exact below_thrown
  · exact below_ok (by omega)

theorem parse_declaration_statement_ne_fuel (L : Toolchain) (p : Parser) :
    parse_declaration_statement L p ≠ Result.fuel := by
  unfold parse_declaration_statement
  dsimp only
  split
  · simp
  · split
    · simp
    · refine bind_ne_fuel (parse_type_ne_fuel _ _) fun t p3 h3 => ?_
      split
      · simp
      · refine bind_ne_fuel (parse_expression_ne_fuel L _) fun e p5 h5 => ?_
        split <;> simp

theorem parse_assignment_statement_ne_fuel (L : Toolchain) (p : Parser) :
    parse_assignment_statement L p ≠ Result.fuel := by
  unfold parse_assignment_statement
  dsimp only
  split
  · simp
  · split
    · simp
    · refine bind_ne_fuel (parse_expression_ne_fuel L _) fun e p5 h5 => ?_
      split <;> simp

theorem parse_print_statement_ne_fuel (L : Toolchain) (p : Parser) :
    parse_print_statement L p ≠ Result.fuel := by
  unfold parse_print_statement
  refine bind_ne_fuel (parse_expression_ne_fuel L _) fun e p5 h5 => ?_
  dsimp only
  split <;> simp

theorem parse_return_statement_ne_fuel (L : Toolchain) (p : Parser) :
    parse_return_statement L p ≠ Result.fuel := by
  unfold parse_return_statement
  refine bind_ne_fuel (parse_expression_ne_fuel L _) fun e p5 h5 => ?_
  dsimp only
  split <;> simp

/-! ## Compound statements: progress, budget, stability -/

theorem stmt_below (L : Toolchain) : ∀ n,
    (∀ p, Below (remaining p) (parse_statementF L n p)) ∧
    (∀ p, Below (remaining p) (parse_blockF L n p)) ∧
    (∀ ss p, Below (size p) (block_loopF L n ss p)) ∧
    (∀ p, Below (remaining p) (parse_if_statementF L n p)) ∧
    (∀ p, Below (remaining p) (parse_while_statementF L n p)) ∧
    (∀ p, Below (remaining p) (parse_function_definitionF L n p)) := by
  intro n
  induction n with
  | zero =>
    refine ⟨?_, ?_, ?_, ?_, ?_, ?_⟩ <;> intros <;> exact below_fuel
  | succ n ih =>
    obtain ⟨ihs, ihb, ihl, ihi, ihw, ihd⟩ := ih
    refine ⟨?_, ?_, ?_, ?_, ?_, ?_⟩
    · intro p
      rw [parse_statementF]
      split
      · exact parse_declaration_statement_below L p
      · exact parse_assignment_statement_below L p
      · exact parse_print_statement_below L p
      · exact ihi p
      · exact ihw p
      · exact parse_return_statement_below L p
      · exact ihd p
      · exact below_bind (ihb p) fun b p1 h1 => below_ok h1
      · exact below_thrown
    · intro p
      rw [parse_blockF]
      exact below_mono (ihl _ _) (size_consume_le p)
    · intro ss p
      rw [block_loopF]
      split
      · refine below_bind (ihs p) fun a p1 h1 => ?_
        have h2 := size_consume_le p1
        have h3 := remaining_le_size p
        exact below_mono (ihl _ _) (by omega)
      · split
        · rename_i hc
          have := size_eq_of_ne_eof (p := p) (by rw [hc]; decide)
          exact below_ok (by omega)
        · exact below_thrown
    · intro p
      rw [parse_if_statementF]
      have h1 := remaining_consume_le p
      dsimp only
      split
      · exact below_thrown
      · refine below_bind (parse_expression_below L _) fun c p2 h2 => ?_
        have h3 := remaining_consume_le p2
        have h4 := remaining_consume_le (consume_token p2)
        split
        · exact below_thrown
        · split
          · exact below_thrown
          · refine below_bind (ihb _) fun b p5 h5 => ?_
            have h6 := remaining_consume_le p5
            have h7 := remaining_consume_le (consume_token p5)
            split
            · exact below_ok (by omega)
            · split
              · exact below_thrown
              · exact below_bind (ihb _) fun b p8 h8 => below_ok (by omega)
    · intro p
      rw [parse_while_statementF]
      have h1 := remaining_consume_le p
      dsimp only
      split
      · exact below_thrown
      · refine below_bind (parse_expression_below L _) fun c p2 h2 => ?_
        have h3 := remaining_consume_le p2
        have h4 := remaining_consume_le (consume_token p2)
        split
        · exact below_thrown
        · split
          · exact below_thrown
          · exact below_bind (ihb _) fun b p5 h5 => below_ok (by omega)
    · intro p
      rw [parse_function_definitionF]
      have h1 := remaining_consume_le p
      have h2 := remaining_consume_le (consume_token p)
      have h3 := remaining_consume_le (consume_token (consume_token p))
      dsimp only
      split
      · exact below_thrown
      · rename_i hi
        have h0 := remaining_consume_lt p (by simp at hi; rw [hi]; decide)
        split
        · exact below_thrown
        · refine below_bind (parse_formal_params_below _) fun ps p3 h4 => ?_
          have h5 := remaining_consume_le p3
          have h6 := remaining_consume_le (consume_token p3)
          split
          · exact below_thrown
          · refine below_bind (j := remaining p) (parse_type_below (by omega))
              fun t p5 h7 => ?_
            have h8 := remaining_consume_le p5
            split
            · exact below_thrown
            · exact below_bind (ihb _) fun b p7 h9 => below_ok (by omega)

theorem stmt_fuel_suffices (L : Toolchain) : ∀ n,
    (∀ p, 4 * size p + 1 ≤ n → parse_statementF L n p ≠ Result.fuel) ∧
    (∀ p, 4 * remaining p + 3 ≤ n → parse_blockF L n p ≠ Result.fuel) ∧
    (∀ ss p, 4 * size p + 2 ≤ n → block_loopF L n ss p ≠ Result.fuel) ∧
    (∀ p, 4 * remaining p + 3 ≤ n → parse_if_statementF L n p ≠ Result.fuel) ∧
    (∀ p, 4 * remaining p + 3 ≤ n → parse_while_statementF L n p ≠ Result.fuel) ∧
    (∀ p, 4 * remaining p + 3 ≤ n → parse_function_definitionF L n p ≠ Result.fuel) := by
  intro n
  induction n with
  | zero =>
    refine ⟨?_, ?_, ?_, ?_, ?_, ?_⟩ <;> intros <;> omega
  | succ n ih =>
    obtain ⟨ihs, ihb, ihl, ihi, ihw, ihd⟩ := ih
    obtain ⟨ds, db, -, -, -, -⟩ := stmt_below L n
    refine ⟨?_, ?_, ?_, ?_, ?_, ?_⟩
    · intro p hn
      rw [parse_statementF]
      split
      all_goals rename_i heq
      all_goals first
        | exact parse_declaration_statement_ne_fuel L p
        | exact parse_assignment_statement_ne_fuel L p
        | exact parse_print_statement_ne_fuel L p
        | exact parse_return_statement_ne_fuel L p
        | (simp; done)
        | skip
      all_goals have hsz := size_eq_of_ne_eof (p := p) (by rw [heq]; decide)
      · exact ihi p (by omega)
      · exact ihw p (by omega)
      · exact ihd p (by omega)
      · exact bind_ne_fuel (ihb p (by omega)) fun b p1 h1 => by simp
    · intro p hn
      rw [parse_blockF]
      have := size_consume_le p
      exact ihl _ _ (by omega)
    · intro ss p hn
      rw [block_loopF]
      split
      · refine bind_ne_fuel (ihs p (by omega)) fun a p1 h1 => ?_
        have h2 := ds p a p1 h1
        have h3 := size_consume_le p1
        have h4 := remaining_le_size p
        exact ihl _ _ (by omega)
      · split <;> simp
    · intro p hn
      rw [parse_if_statementF]
      have h1 := remaining_consume_le p
      dsimp only
      split
      · simp
      · refine bind_ne_fuel (parse_expression_ne_fuel L _) fun c p2 hc => ?_
        have h2 := parse_expression_below L _ c p2 hc
        have h3 := remaining_consume_le p2
        have h4 := remaining_consume_le (consume_token p2)
        split
        · simp
        · split
          · simp
          · refine bind_ne_fuel (ihb _ (by omega)) fun b p5 hb => ?_
            have h5 := db _ b p5 hb
            have h6 := remaining_consume_le p5
            have h7 := remaining_consume_le (consume_token p5)
            split
            · simp
            · split
              · simp
              · exact bind_ne_fuel (ihb _ (by omega)) fun b p8 h8 => by simp
    · intro p hn
      rw [parse_while_statementF]
      have h1 := remaining_consume_le p
      dsimp only
      split
      · simp
      · refine bind_ne_fuel (parse_expression_ne_fuel L _) fun c p2 hc => ?_
        have h2 := parse_expression_below L _ c p2 hc
        have h3 := remaining_consume_le p2
        have h4 := remaining_consume_le (consume_token p2)
        split
        · simp
        · split
          · simp
          · exact bind_ne_fuel (ihb _ (by omega)) fun b p5 hb => by simp
    · intro p hn
      rw [parse_function_definitionF]
      have h1 := remaining_consume_le p
      have h2 := remaining_consume_le (consume_token p)
      have h3 := remaining_consume_le (consume_token (consume_token p))
      dsimp only
      split
      · simp
      · rename_i hi
        have h0 := remaining_consume_lt p (by simp at hi; rw [hi]; decide)
        split
        · simp
        · refine bind_ne_fuel (parse_formal_params_ne_fuel _) fun ps p3 hp => ?_
          have h4 := parse_formal_params_below _ ps p3 hp
          have h5 := remaining_consume_le p3
          have h6 := remaining_consume_le (consume_token p3)
          split
          · simp
          · refine bind_ne_fuel (parse_type_ne_fuel _ _) fun t p5 ht => ?_
            have h7 := parse_type_state ht
            subst h7
            have h8 := remaining_consume_le (consume_token (consume_token p3))
            split
            · simp
            · exact bind_ne_fuel (ihb _ (by omega)) fun b p7 h9 => by simp

theorem stmt_mono_step (L : Toolchain) : ∀ n,
    (∀ p, (parse_statementF L n p).Approx (parse_statementF L (n + 1) p)) ∧
    (∀ p, (parse_blockF L n p).Approx (parse_blockF L (n + 1) p)) ∧
    (∀ ss p, (block_loopF L n ss p).Approx (block_loopF L (n + 1) ss p)) ∧
    (∀ p, (parse_if_statementF L n p).Approx (parse_if_statementF L (n + 1) p)) ∧
    (∀ p, (parse_while_statementF L n p).Approx (parse_while_statementF L (n + 1) p)) ∧
    (∀ p, (parse_function_definitionF L n p).Approx
      (parse_function_definitionF L (n + 1) p)) := by
  intro n
  induction n with
  | zero =>
    refine ⟨?_, ?_, ?_, ?_, ?_, ?_⟩ <;> intros <;> exact Or.inl rfl
  | succ n ih =>
    obtain ⟨ihs, ihb, ihl, ihi, ihw, ihd⟩ := ih
    refine ⟨?_, ?_, ?_, ?_, ?_, ?_⟩
    · intro p
      rw [parse_statementF, parse_statementF]
      generalize p.current_token.type = t
      cases t <;> dsimp only
      all_goals first
        | exact approx_refl _
        | exact ihi p
        | exact ihw p
        | exact ihd p
        | exact approx_bind (ihb p) fun b p1 => approx_refl _
    · intro p
      rw [parse_blockF, parse_blockF]
      exact ihl _ _
    · intro ss p
      rw [block_loopF, block_loopF]
      split
      · exact approx_bind (ihs p) fun a p1 => ihl _ _
      · exact approx_refl _
    · intro p
      rw [parse_if_statementF, parse_if_statementF]
      dsimp only
      split
      · exact approx_refl _
      · refine approx_bind (approx_refl _) fun c p2 => ?_
        split
        · exact approx_refl _
        · split
          · exact approx_refl _
          · refine approx_bind (ihb _) fun b p5 => ?_
            split
            · exact approx_refl _
            · split
              · exact approx_refl _
              · exact approx_bind (ihb _) fun b p8 => approx_refl _
    · intro p
      rw [parse_while_statementF, parse_while_statementF]
      dsimp only
      split
      · exact approx_refl _
      · refine approx_bind (approx_refl _) fun c p2 => ?_
        split
        · exact approx_refl _
        · split
          · exact approx_refl _
          · exact approx_bind (ihb _) fun b p5 => approx_refl _
    · intro p
      rw [parse_function_definitionF, parse_function_definitionF]
      dsimp only
      split
      · exact approx_refl _
      · split
        · exact approx_refl _
        · refine approx_bind (approx_refl _) fun ps p3 => ?_
          split
          · exact approx_refl _
          · refine approx_bind (approx_refl _) fun t p5 => ?_
            split
            · exact approx_refl _
            · exact approx_bind (ihb _) fun b p7 => approx_refl _

theorem parse_statementF_approx (L : Toolchain) (n : Nat) (p : Parser) :
    (parse_statementF L n p).Approx (parse_statement L p) :=
  approx_of_chain (fun k => parse_statementF L k p)
    (fun k => (stmt_mono_step L k).1 p) _ ((stmt_fuel_suffices L _).1 p (le_refl _)) n

theorem parse_blockF_approx (L : Toolchain) (n : Nat) (p : Parser) :
    (parse_blockF L n p).Approx (parse_block L p) :=
  approx_of_chain (fun k => parse_blockF L k p)
    (fun k => (stmt_mono_step L k).2.1 p) _ ((stmt_fuel_suffices L _).2.1 p (le_refl _)) n

theorem block_loopF_approx (L : Toolchain) (n : Nat) (ss : List ASTStatementNode)
    (p : Parser) : (block_loopF L n ss p).Approx (block_loop L ss p) :=
  approx_of_chain (fun k => block_loopF L k ss p)
    (fun k => (stmt_mono_step L k).2.2.1 ss p) _
    ((stmt_fuel_suffices L _).2.2.1 ss p (le_refl _)) n

theorem parse_if_statementF_approx (L : Toolchain) (n : Nat) (p : Parser) :
    (parse_if_statementF L n p).Approx (parse_if_statement L p) :=
  approx_of_chain (fun k => parse_if_statementF L k p)
    (fun k => (stmt_mono_step L k).2.2.2.1 p) _
    ((stmt_fuel_suffices L _).2.2.2.1 p (le_refl _)) n

theorem parse_while_statementF_approx (L : Toolchain) (n : Nat) (p : Parser) :
    (parse_while_statementF L n p).Approx (parse_while_statement L p) :=
  approx_of_chain (fun k => parse_while_statementF L k p)
    (fun k => (stmt_mono_step L k).2.2.2.2.1 p) _
    ((stmt_fuel_suffices L _).2.2.2.2.1 p (le_refl _)) n

theorem parse_function_definitionF_approx (L : Toolchain) (n : Nat) (p : Parser) :
    (parse_function_definitionF L n p).Approx (parse_function_definition L p) :=
  approx_of_chain (fun k => parse_function_definitionF L k p)
    (fun k => (stmt_mono_step L k).2.2.2.2.2 p) _
    ((stmt_fuel_suffices L _).2.2.2.2.2 p (le_refl _)) n

/-! ## Compound statements: the defining equations -/

theorem parse_statement_eq (L : Toolchain) (p : Parser) :
    parse_statement L p =
      match p.current_token.type with
      | TOKEN.TOK_VAR => parse_declaration_statement L p
      | TOKEN.TOK_SET => parse_assignment_statement L p
      | TOKEN.TOK_PRINT => parse_print_statement L p
      | TOKEN.TOK_IF => parse_if_statement L p
      | TOKEN.TOK_WHILE => parse_while_statement L p
      | TOKEN.TOK_RETURN => parse_return_statement L p
      | TOKEN.TOK_DEF => parse_function_definition L p
      | TOKEN.TOK_LEFT_CURLY =>
        (parse_block L p).bind fun statements p1 =>
          Result.ok (ASTStatementNode.block statements) p1
      | _ =>
        Result.thrown (Exception.runtime_error ("Invalid statement starting with '"
          ++ p.current_token.value ++ "' encountered on line "
          ++ toString p.current_token.line_number ++ ".")) p := by
  refine approx_eq ?_ ((stmt_fuel_suffices L _).1 p (le_refl _))
  show (parse_statementF L (4 * size p + 1) p).Approx _
  rw [parse_statementF]
  generalize p.current_token.type = t
  cases t <;> dsimp only
  all_goals first
    | exact approx_refl _
    | exact parse_if_statementF_approx L _ p
    | exact parse_while_statementF_approx L _ p
    | exact parse_function_definitionF_approx L _ p
    | exact approx_bind (parse_blockF_approx L _ p) fun b p1 => approx_refl _

theorem parse_block_eq (L : Toolchain) (p : Parser) :
    parse_block L p = block_loop L [] (consume_token p) := by
  refine approx_eq ?_ ((stmt_fuel_suffices L _).2.1 p (le_refl _))
  show (parse_blockF L (4 * remaining p + 2 + 1) p).Approx _
  rw [parse_blockF]
  exact block_loopF_approx L _ _ _

theorem block_loop_eq (L : Toolchain) (statements : List ASTStatementNode) (p : Parser) :
    block_loop L statements p =
      if p.current_token.type ≠ TOKEN.TOK_RIGHT_CURLY ∧
          p.current_token.type ≠ TOKEN.TOK_ERROR ∧
          p.current_token.type ≠ TOKEN.TOK_EOF then
        (parse_statement L p).bind fun statement p1 =>
          block_loop L (statements ++ [statement]) (consume_token p1)
      else if p.current_token.type = TOKEN.TOK_RIGHT_CURLY then Result.ok statements p
      else
        Result.thrown (Exception.runtime_error
          "Reached end of file while parsing. Mismatched scopes.") p := by
  refine approx_eq ?_ ((stmt_fuel_suffices L _).2.2.1 statements p (le_refl _))
  show (block_loopF L (4 * size p + 1 + 1) statements p).Approx _
  rw [block_loopF]
  split
  · exact approx_bind (parse_statementF_approx L _ p) fun a p1 =>
      block_loopF_approx L _ _ _
  · exact approx_refl _

theorem parse_if_statement_eq (L : Toolchain) (p0 : Parser) :
    parse_if_statement L p0 =
      if (consume_token p0).current_token.type ≠ TOKEN.TOK_LEFT_BRACKET then
        Result.thrown (Exception.runtime_error ("Expected '(' after 'if' on line "
          ++ toString (consume_token p0).current_token.line_number ++ "."))
          (consume_token p0)
      else
        (parse_expression L (consume_token p0)).bind fun condition p2 =>
          if (consume_token p2).current_token.type ≠ TOKEN.TOK_RIGHT_BRACKET then
            Result.thrown (Exception.runtime_error
              ("Expected ')' after if-condition on line "
                ++ toString (consume_token p2).current_token.line_number ++ "."))
              (consume_token p2)
          else if (consume_token (consume_token p2)).current_token.type
              ≠ TOKEN.TOK_LEFT_CURLY then
            Result.thrown (Exception.runtime_error
              ("Expected '\x7b' after if-condition on line "
                ++ toString (consume_token (consume_token p2)).current_token.line_number
                ++ ".")) (consume_token (consume_token p2))
          else
            (parse_block L (consume_token (consume_token p2))).bind fun if_block p5 =>
              if p5.next_token.type ≠ TOKEN.TOK_ELSE then
                Result.ok (ASTStatementNode.if_node condition if_block none) p5
              else if (consume_token (consume_token p5)).current_token.type
                  ≠ TOKEN.TOK_LEFT_CURLY then
                Result.thrown (Exception.runtime_error
                  ("Expected '\x7b' after else on line "
                    ++ toString
                      (consume_token (consume_token p5)).current_token.line_number
                    ++ ".")) (consume_token (consume_token p5))
              else
                (parse_block L (consume_token (consume_token p5))).bind
                  fun else_block p8 =>
                    Result.ok (ASTStatementNode.if_node condition if_block
                      (some else_block)) p8 := by
  refine approx_eq ?_ ((stmt_fuel_suffices L _).2.2.2.1 p0 (le_refl _))
  show (parse_if_statementF L (4 * remaining p0 + 2 + 1) p0).Approx _
  rw [parse_if_statementF]
  dsimp only
  split
  · exact approx_refl _
  · refine approx_bind (approx_refl _) fun c p2 => ?_
    split
    · exact approx_refl _
    · split
      · exact approx_refl _
      · refine approx_bind (parse_blockF_approx L _ _) fun b p5 => ?_
        split
        · exact approx_refl _
        · split
          · exact approx_refl _
          · exact approx_bind (parse_blockF_approx L _ _) fun b p8 =>
              approx_refl _

theorem parse_while_statement_eq (L : Toolchain) (p0 : Parser) :
    parse_while_statement L p0 =
      if (consume_token p0).current_token.type ≠ TOKEN.TOK_LEFT_BRACKET then
        Result.thrown (Exception.runtime_error ("Expected '(' after 'while' on line "
          ++ toString (consume_token p0).current_token.line_number ++ "."))
          (consume_token p0)
      else
        (parse_expression L (consume_token p0)).bind fun condition p2 =>
          if (consume_token p2).current_token.type ≠ TOKEN.TOK_RIGHT_BRACKET then
            Result.thrown (Exception.runtime_error
              ("Expected ')' after while-condition on line "
                ++ toString (consume_token p2).current_token.line_number ++ "."))
              (consume_token p2)
          else if (consume_token (consume_token p2)).current_token.type
              ≠ TOKEN.TOK_LEFT_CURLY then
            Result.thrown (Exception.runtime_error
              ("Expected '\x7b' after while-condition on line "
                ++ toString (consume_token (consume_token p2)).current_token.line_number
                ++ ".")) (consume_token (consume_token p2))
          else
            (parse_block L (consume_token (consume_token p2))).bind fun block p5 =>
              Result.ok (ASTStatementNode.while_node condition block) p5 := by
  refine approx_eq ?_ ((stmt_fuel_suffices L _).2.2.2.2.1 p0 (le_refl _))
  show (parse_while_statementF L (4 * remaining p0 + 2 + 1) p0).Approx _
  rw [parse_while_statementF]
  dsimp only
  split
  · exact approx_refl _
  · refine approx_bind (approx_refl _) fun c p2 => ?_
    split
    · exact approx_refl _
    · split
      · exact approx_refl _
      · exact approx_bind (parse_blockF_approx L _ _) fun b p5 =>
          approx_refl _

theorem parse_function_definition_eq (L : Toolchain) (p0 : Parser) :
    parse_function_definition L p0 =
      if (consume_token p0).current_token.type ≠ TOKEN.TOK_IDENTIFIER then
        Result.thrown (Exception.runtime_error
          ("Expected function identifier after keyword 'def' on line "
            ++ toString (consume_token p0).current_token.line_number ++ "."))
          (consume_token p0)
      else if (consume_token (consume_token p0)).current_token.type
          ≠ TOKEN.TOK_LEFT_BRACKET then
        Result.thrown (Exception.runtime_error ("Expected '(' after '"
          ++ (consume_token p0).current_token.value ++ "' on line "
          ++ toString (consume_token (consume_token p0)).current_token.line_number
          ++ ".")) (consume_token (consume_token p0))
      else
        (parse_formal_params (consume_token (consume_token (consume_token p0)))).bind
          fun parameters p3 =>
            if (consume_token p3).current_token.type ≠ TOKEN.TOK_COLON then
              Result.thrown (Exception.runtime_error ("Expected ':' after ')' on line "
                ++ toString (consume_token p3).current_token.line_number ++ "."))
                (consume_token p3)
            else
              (parse_type (consume_token p0).current_token.value
                (consume_token (consume_token p3))).bind fun type p5 =>
                if (consume_token p5).current_token.type ≠ TOKEN.TOK_LEFT_CURLY then
                  Result.thrown (Exception.runtime_error
                    ("Expected '\x7b' after function '"
                      ++ (consume_token p0).current_token.value ++ "' definition on line "
                      ++ toString (consume_token p5).current_token.line_number ++ "."))
                    (consume_token p5)
                else
                  (parse_block L (consume_token p5)).bind fun block p7 =>
                    Result.ok (ASTStatementNode.function_definition
                      (consume_token p0).current_token.value parameters type block) p7 := by
  refine approx_eq ?_ ((stmt_fuel_suffices L _).2.2.2.2.2 p0 (le_refl _))
  show (parse_function_definitionF L (4 * remaining p0 + 2 + 1) p0).Approx _
  rw [parse_function_definitionF]
  dsimp only
  split
  · exact approx_refl _
  · split
    · exact approx_refl _
    · refine approx_bind (approx_refl _) fun ps p3 => ?_
      split
      · exact approx_refl _
      · refine approx_bind (approx_refl _) fun t p5 => ?_
        split
        · exact approx_refl _
        · exact approx_bind (parse_blockF_approx L _ _) fun b p7 =>
            approx_refl _

/-! ## Programs: progress, budget, defining equation -/

theorem parse_statement_below (L : Toolchain) (p : Parser) :
    Below (remaining p) (parse_statement L p) :=
  (stmt_below L _).1 p

theorem parse_statement_ne_fuel (L : Toolchain) (p : Parser) :
    parse_statement L p ≠ Result.fuel :=
  (stmt_fuel_suffices L _).1 p (le_refl _)

theorem program_loopF_ne_fuel (L : Toolchain) :
    ∀ (n : Nat) (ss : List ASTStatementNode) (p : Parser),
      size p + 1 ≤ n → program_loopF L n ss p ≠ Result.fuel := by
  intro n
  induction n with
  | zero => intro ss p h; omega
  | succ n ih =>
    intro ss p h
    rw [program_loopF]
    split
    · refine bind_ne_fuel (parse_statement_ne_fuel L p) fun a p1 ha => ih _ _ ?_
      have h2 := parse_statement_below L p a p1 ha
      have h3 := size_consume_le p1
      have h4 := remaining_le_size p
      omega
    · simp

theorem program_loopF_mono (L : Toolchain) :
    ∀ (n : Nat) (ss : List ASTStatementNode) (p : Parser),
      (program_loopF L n ss p).Approx (program_loopF L (n + 1) ss p) := by
  intro n
  induction n with
  | zero => intro ss p; exact Or.inl rfl
  | succ n ih =>
    intro ss p
    rw [program_loopF, program_loopF]
    split
    · exact approx_bind (approx_refl _) fun a p1 => ih _ _
    · exact approx_refl _

theorem program_loopF_approx (L : Toolchain) (n : Nat) (ss : List ASTStatementNode)
    (p : Parser) : (program_loopF L n ss p).Approx (program_loop L ss p) :=
  approx_of_chain (fun k => program_loopF L k ss p)
    (fun k => program_loopF_mono L k ss p) _
    (program_loopF_ne_fuel L _ ss p (le_refl _)) n

theorem program_loop_eq (L : Toolchain) (statements : List ASTStatementNode) (p : Parser) :
    program_loop L statements p =
      if p.current_token.type ≠ TOKEN.TOK_EOF then
        (parse_statement L p).bind fun statement p1 =>
          program_loop L (statements ++ [statement]) (consume_token p1)
      else Result.ok (ASTProgramNode.mk statements) p := by
  refine approx_eq ?_ (program_loopF_ne_fuel L _ statements p (le_refl _))
  show (program_loopF L (size p + 1) statements p).Approx _
  rw [program_loopF]
  split
  · exact approx_bind (approx_refl _) fun a p1 =>
      program_loopF_approx L _ _ _
  · exact approx_refl _

/-! ## Token streams -/

@[simp] theorem consume_reading_cons (c t : Token) (ts : List Token) (ev : String)
    (el : Nat) :
    consume_token (Parser.reading c (t :: ts) ev el) = Parser.reading t ts ev el := by
  cases ts <;> rfl

@[simp] theorem consume_reading_nil (c : Token) (ev : String) (el : Nat) :
    consume_token (Parser.reading c [] ev el)
      = Parser.reading ⟨TOKEN.TOK_EOF, ev, el⟩ [] ev el := rfl

@[simp] theorem reading_current (c : Token) (ts : List Token) (ev : String) (el : Nat) :
    (Parser.reading c ts ev el).current_token = c := rfl

theorem operator_text_eq (L : Toolchain) (site : CallSite) (p q : Parser) :
    operator_text L site p q = stored_text L site p.current_token q.current_token := rfl

@[simp] theorem reading_next_cons (c t : Token) (ts : List Token) (ev : String)
    (el : Nat) : (Parser.reading c (t :: ts) ev el).next_token = t := rfl

@[simp] theorem reading_next_nil (c : Token) (ev : String) (el : Nat) :
    (Parser.reading c [] ev el).next_token = ⟨TOKEN.TOK_EOF, ev, el⟩ := rfl

theorem new_cons (t : Token) (ts : List Token) (ev : String) (el : Nat) :
    Parser.new ⟨t :: ts, ev, el⟩ = Parser.reading t ts ev el := by
  cases ts <;> rfl

theorem new_nil (ev : String) (el : Nat) :
    Parser.new ⟨[], ev, el⟩ = Parser.reading ⟨TOKEN.TOK_EOF, ev, el⟩ [] ev el := rfl

@[simp] theorem ok_bind {α β : Type} (a : α) (p : Parser)
    (f : α → Parser → Result β) : (Result.ok a p).bind f = f a p := rfl

@[simp] theorem thrown_bind {α β : Type} (e : Exception) (p : Parser)
    (f : α → Parser → Result β) :
    (Result.thrown e p : Result α).bind f = Result.thrown e p := rfl

@[simp] theorem null_deref_bind {α β : Type} (p : Parser)
    (f : α → Parser → Result β) :
    (Result.null_deref p : Result α).bind f = Result.null_deref p := rfl

/-! ## Claims -/

/-- C1: for every identifier `f`, `parse_factor` and with it `parse_expression`, reading
the tokens `f ( )`, do not return a function call with an empty argument sequence:
`parse_function_call` skips the parameters, is still on `(` when it tests for `)`, and
throws "Expected ')' on line <line of (> after function parameters.". -/
theorem zero_argument_call_is_rejected (L : Toolchain) (c : Token) (name v2 v3 : String)
    (l1 l2 l3 : Nat) (rest : List Token) (ev : String) (el : Nat) :
    parse_factor L (Parser.reading c
        (⟨TOKEN.TOK_IDENTIFIER, name, l1⟩ :: ⟨TOKEN.TOK_LEFT_BRACKET, v2, l2⟩
          :: ⟨TOKEN.TOK_RIGHT_BRACKET, v3, l3⟩ :: rest) ev el)
      = Result.thrown (Exception.runtime_error
          ("Expected ')' on line " ++ toString l2 ++ " after function parameters."))
          (Parser.reading ⟨TOKEN.TOK_LEFT_BRACKET, v2, l2⟩
            (⟨TOKEN.TOK_RIGHT_BRACKET, v3, l3⟩ :: rest) ev el) ∧
    parse_expression L (Parser.reading c
        (⟨TOKEN.TOK_IDENTIFIER, name, l1⟩ :: ⟨TOKEN.TOK_LEFT_BRACKET, v2, l2⟩
          :: ⟨TOKEN.TOK_RIGHT_BRACKET, v3, l3⟩ :: rest) ev el)
      = Result.thrown (Exception.runtime_error
          ("Expected ')' on line " ++ toString l2 ++ " after function parameters."))
          (Parser.reading ⟨TOKEN.TOK_LEFT_BRACKET, v2, l2⟩
            (⟨TOKEN.TOK_RIGHT_BRACKET, v3, l3⟩ :: rest) ev el) := by
  have h : parse_factor L (Parser.reading c
        (⟨TOKEN.TOK_IDENTIFIER, name, l1⟩ :: ⟨TOKEN.TOK_LEFT_BRACKET, v2, l2⟩
          :: ⟨TOKEN.TOK_RIGHT_BRACKET, v3, l3⟩ :: rest) ev el)
      = Result.thrown (Exception.runtime_error
          ("Expected ')' on line " ++ toString l2 ++ " after function parameters."))
          (Parser.reading ⟨TOKEN.TOK_LEFT_BRACKET, v2, l2⟩
            (⟨TOKEN.TOK_RIGHT_BRACKET, v3, l3⟩ :: rest) ev el) := by
    rw [parse_factor_eq]
    simp [parse_function_call_eq]
  refine ⟨h, ?_⟩
  rw [parse_expression_eq, parse_simple_expression_eq, parse_term_eq, h]
  rfl

theorem primary_factor {L : Toolchain} {t : Token} {A : ASTExprNode} (h : IsPrimary L t A)
    (c : Token) (rest : List Token) (ev : String) (el : Nat)
    (hn : (Parser.reading t rest ev el).next_token.type ≠ TOKEN.TOK_LEFT_BRACKET) :
    parse_factor L (Parser.reading c (t :: rest) ev el)
      = Result.ok A (Parser.reading t rest ev el) := by
  obtain ⟨hk, hf⟩ := h
  have h0 := hf c ev el
  rw [parse_factor_eq] at h0 ⊢
  simp only [consume_reading_cons, reading_current] at h0 ⊢
  rcases hk with hk | hk | hk | hk | hk
  all_goals simp only [hk] at h0 ⊢
  · cases hs : L.stoi t.value
    all_goals rw [hs] at h0
    all_goals simp at h0 ⊢
    exact h0
  · cases hs : L.stof t.value
    all_goals rw [hs] at h0
    all_goals simp at h0 ⊢
    exact h0
  · simp at h0 ⊢
    exact h0
  · cases hs : substr t.value.data 1 (size_minus_two t.value.data.length) with
    | error w => rw [hs] at h0; simp at h0
    | ok str =>
      rw [hs] at h0
      dsimp only at h0 ⊢
      cases hu : unescape_loop str.length str (find str escaped_quote 0) with
      | none => rw [hu] at h0; simp at h0
      | some u =>
        rw [hu] at h0
        simp at h0 ⊢
        exact h0
  · simp [hn] at h0 ⊢
    exact h0


theorem term_stop {L : Toolchain} {p p1 : Parser} {A : ASTExprNode}
    (h : parse_factor L p = Result.ok A p1)
    (hn : p1.next_token.type ≠ TOKEN.TOK_MULTIPLICATIVE_OP) :
    parse_term L p = Result.ok A p1 := by
  rw [parse_term_eq, h]
  simp [hn]

theorem term_step {L : Toolchain} {p p1 p3 : Parser} {A R : ASTExprNode}
    (h : parse_factor L p = Result.ok A p1)
    (hn : p1.next_token.type = TOKEN.TOK_MULTIPLICATIVE_OP)
    (hr : parse_term L (consume_token p1) = Result.ok R p3) :
    parse_term L p
      = Result.ok (ASTExprNode.binary_expr
          (stored_text L CallSite.multiplicative (consume_token p1).current_token p3.current_token)
          A R) p3 := by
  rw [parse_term_eq, h]
  simp [hn, hr, operator_text_eq]

theorem simple_stop {L : Toolchain} {p p1 : Parser} {A : ASTExprNode}
    (h : parse_term L p = Result.ok A p1)
    (hn : p1.next_token.type ≠ TOKEN.TOK_ADDITIVE_OP) :
    parse_simple_expression L p = Result.ok A p1 := by
  rw [parse_simple_expression_eq, h]
  simp [hn]

theorem simple_step {L : Toolchain} {p p1 p3 : Parser} {A R : ASTExprNode}
    (h : parse_term L p = Result.ok A p1)
    (hn : p1.next_token.type = TOKEN.TOK_ADDITIVE_OP)
    (hr : parse_simple_expression L (consume_token p1) = Result.ok R p3) :
    parse_simple_expression L p
      = Result.ok (ASTExprNode.binary_expr
          (stored_text L CallSite.additive (consume_token p1).current_token p3.current_token)
          A R) p3 := by
  rw [parse_simple_expression_eq, h]
  simp [hn, hr, operator_text_eq]

theorem expression_stop {L : Toolchain} {p p1 : Parser} {A : ASTExprNode}
    (h : parse_simple_expression L p = Result.ok A p1)
    (hn : p1.next_token.type ≠ TOKEN.TOK_RELATIONAL_OP) :
    parse_expression L p = Result.ok A p1 := by
  rw [parse_expression_eq, h]
  simp [hn]

theorem expression_step {L : Toolchain} {p p1 p3 : Parser} {A R : ASTExprNode}
    (h : parse_simple_expression L p = Result.ok A p1)
    (hn : p1.next_token.type = TOKEN.TOK_RELATIONAL_OP)
    (hr : parse_expression L (consume_token p1) = Result.ok R p3) :
    parse_expression L p
      = Result.ok (ASTExprNode.binary_expr
          (stored_text L CallSite.relational (consume_token p1).current_token p3.current_token)
          A R) p3 := by
  rw [parse_expression_eq, h]
  simp [hn, hr, operator_text_eq]

/-- C2: binary operators nest to the right at every level, but the operator text of a
node depends on the order in which the implementation evaluates the arguments of
`new ASTBinaryExprNode(current_token.value, left, parse_x())`. For primary operands `a`,
`b`, `d` (literals or identifiers, with nodes `A`, `B`, `D`) and operators `op1`, `op2` of
one class (both relational, both additive or both multiplicative), `parse_expression`
reading `a op1 b op2 d`, followed by the end of the input or by any token that does not
continue the expression, returns `BinaryExpr(t1, A, BinaryExpr(t2, B, D))` and stops on
`d`; `t1` and `t2` are the texts of `op1` and `op2` where `current_token.value` is
evaluated first, and both are the text of `d` where the right operand is parsed first. -/
theorem right_associative_nodes_stored_text (L : Toolchain) (c a op1 b op2 d : Token)
    (rest : List Token) (ev : String) (el : Nat) (A B D : ASTExprNode)
    (hA : IsPrimary L a A) (hB : IsPrimary L b B) (hD : IsPrimary L d D)
    (hop : (op1.type = TOKEN.TOK_RELATIONAL_OP ∧ op2.type = TOKEN.TOK_RELATIONAL_OP) ∨
      (op1.type = TOKEN.TOK_ADDITIVE_OP ∧ op2.type = TOKEN.TOK_ADDITIVE_OP) ∨
      (op1.type = TOKEN.TOK_MULTIPLICATIVE_OP ∧ op2.type = TOKEN.TOK_MULTIPLICATIVE_OP))
    (hend : EndsExpression (Parser.reading d rest ev el).next_token.type) :
    parse_expression L (Parser.reading c (a :: op1 :: b :: op2 :: d :: rest) ev el)
      = Result.ok (ASTExprNode.binary_expr (stored_text L (binary_site op1.type) op1 d) A
          (ASTExprNode.binary_expr (stored_text L (binary_site op2.type) op2 d) B D))
          (Parser.reading d rest ev el) := by
  obtain ⟨e1, e2, e3, e4⟩ := hend
  have fa := fun h => primary_factor hA c (op1 :: b :: op2 :: d :: rest) ev el h
  have fb := fun h => primary_factor hB op1 (op2 :: d :: rest) ev el h
  have fd := primary_factor hD op2 rest ev el e4
  simp only [reading_next_cons] at fa fb
  rcases hop with ⟨h1, h2⟩ | ⟨h1, h2⟩ | ⟨h1, h2⟩
  · have fa := fa (by rw [h1]; decide)
    have fb := fb (by rw [h2]; decide)
    have sa := simple_stop (term_stop fa (by simp [h1])) (by simp [h1])
    have sb := simple_stop (term_stop fb (by simp [h2])) (by simp [h2])
    have sd := expression_stop (simple_stop (term_stop fd e3) e2) e1
    have := expression_step sb (by simp [h2]) (by simpa using sd)
    have := expression_step sa (by simp [h1]) (by simpa using this)
    simpa [binary_site, h1, h2] using this
  · have fa := fa (by rw [h1]; decide)
    have fb := fb (by rw [h2]; decide)
    have ta := term_stop fa (by simp [h1])
    have tb := term_stop fb (by simp [h2])
    have sd := simple_stop (term_stop fd e3) e2
    have := simple_step tb (by simp [h2]) (by simpa using sd)
    have := simple_step ta (by simp [h1]) (by simpa using this)
    simpa [binary_site, h1, h2] using expression_stop this e1
  · have fa := fa (by rw [h1]; decide)
    have fb := fb (by rw [h2]; decide)
    have td := term_stop fd e3
    have := term_step fb (by simp [h2]) (by simpa using td)
    have := term_step fa (by simp [h1]) (by simpa using this)
    simpa [binary_site, h1, h2] using expression_stop (simple_stop this e2) e1

/-- C2, at the failing input `1 - 2 - 3`, where the right operand is parsed before the
operator text is read: the nodes nest to the right, and both store `3` instead of `-`. -/
theorem right_associative_nodes_stored_text_witness :
    parse_expression example_lib (Parser.reading ⟨TOKEN.TOK_PRINT, "print", 1⟩
        [⟨TOKEN.TOK_INT, "1", 1⟩, ⟨TOKEN.TOK_ADDITIVE_OP, "-", 1⟩, ⟨TOKEN.TOK_INT, "2", 1⟩,
          ⟨TOKEN.TOK_ADDITIVE_OP, "-", 1⟩, ⟨TOKEN.TOK_INT, "3", 1⟩] "" 1)
      = Result.ok (ASTExprNode.binary_expr "3" (ASTExprNode.literal_int 1)
          (ASTExprNode.binary_expr "3" (ASTExprNode.literal_int 2)
            (ASTExprNode.literal_int 3)))
          (Parser.reading ⟨TOKEN.TOK_INT, "3", 1⟩ [] "" 1) :=
  right_associative_nodes_stored_text example_lib ⟨TOKEN.TOK_PRINT, "print", 1⟩
    ⟨TOKEN.TOK_INT, "1", 1⟩ ⟨TOKEN.TOK_ADDITIVE_OP, "-", 1⟩ ⟨TOKEN.TOK_INT, "2", 1⟩
    ⟨TOKEN.TOK_ADDITIVE_OP, "-", 1⟩ ⟨TOKEN.TOK_INT, "3", 1⟩ [] "" 1
    (ASTExprNode.literal_int 1) (ASTExprNode.literal_int 2) (ASTExprNode.literal_int 3)
    ⟨Or.inl rfl, fun _ _ _ => rfl⟩ ⟨Or.inl rfl, fun _ _ _ => rfl⟩
    ⟨Or.inl rfl, fun _ _ _ => rfl⟩ (Or.inr (Or.inl ⟨rfl, rfl⟩))
    ⟨by decide, by decide, by decide, by decide⟩

/-- C10: the binary levels nest in the order multiplicative, additive, relational, but
the operator text of a node depends on the order in which the implementation evaluates
the arguments of `new ASTBinaryExprNode(current_token.value, left, parse_x())`. For
primary operands `a`, `b`, `d` with nodes `A`, `B`, `D`, an additive operator `p`, a
multiplicative operator `m` and a relational operator `r`, `parse_expression` maps
`a p b m d` to `BinaryExpr(t, A, BinaryExpr(s, B, D))`, `a m b p d` to
`BinaryExpr(t, BinaryExpr(s, A, B), D)` and `a p b r d` to
`BinaryExpr(t, BinaryExpr(s, A, B), D)`, the operands being followed by the end of the
input or by a token that does not continue the expression. Each text `t`, `s` is the text
of the operator of its node where `current_token.value` is evaluated first, and the text
of the last token of the right operand of that node where that operand is parsed
first. -/
theorem precedence_nodes_stored_text (L : Toolchain) (c a b d p m r : Token)
    (rest : List Token) (ev : String) (el : Nat) (A B D : ASTExprNode)
    (hA : IsPrimary L a A) (hB : IsPrimary L b B) (hD : IsPrimary L d D)
    (hp : p.type = TOKEN.TOK_ADDITIVE_OP) (hm : m.type = TOKEN.TOK_MULTIPLICATIVE_OP)
    (hr : r.type = TOKEN.TOK_RELATIONAL_OP)
    (hend : EndsExpression (Parser.reading d rest ev el).next_token.type) :
    parse_expression L (Parser.reading c (a :: p :: b :: m :: d :: rest) ev el)
      = Result.ok (ASTExprNode.binary_expr (stored_text L CallSite.additive p d) A
          (ASTExprNode.binary_expr (stored_text L CallSite.multiplicative m d) B D))
          (Parser.reading d rest ev el) ∧
    parse_expression L (Parser.reading c (a :: m :: b :: p :: d :: rest) ev el)
      = Result.ok (ASTExprNode.binary_expr (stored_text L CallSite.additive p d)
          (ASTExprNode.binary_expr (stored_text L CallSite.multiplicative m b) A B) D)
          (Parser.reading d rest ev el) ∧
    parse_expression L (Parser.reading c (a :: p :: b :: r :: d :: rest) ev el)
      = Result.ok (ASTExprNode.binary_expr (stored_text L CallSite.relational r d)
          (ASTExprNode.binary_expr (stored_text L CallSite.additive p b) A B) D)
          (Parser.reading d rest ev el) := by
  obtain ⟨e1, e2, e3, e4⟩ := hend
  have fd : ∀ x, parse_factor L (Parser.reading x (d :: rest) ev el)
      = Result.ok D (Parser.reading d rest ev el) :=
    fun x => primary_factor hD x rest ev el e4
  have td := fun x => term_stop (fd x) e3
  have sd := fun x => simple_stop (td x) e2
  have ed := fun x => expression_stop (sd x) e1
  refine ⟨?_, ?_, ?_⟩
  · have fa := primary_factor hA c (p :: b :: m :: d :: rest) ev el (by simp [hp])
    have fb := primary_factor hB p (m :: d :: rest) ev el (by simp [hm])
    have tb := term_step fb (by simp [hm]) (by simpa using td m)
    have sb := simple_stop tb e2
    have := simple_step (term_stop fa (by simp [hp])) (by simp [hp]) (by simpa using sb)
    simpa using expression_stop this e1
  · have fa := primary_factor hA c (m :: b :: p :: d :: rest) ev el (by simp [hm])
    have fb := primary_factor hB m (p :: d :: rest) ev el (by simp [hp])
    have tb := term_stop fb (by simp [hp])
    have ta := term_step fa (by simp [hm]) (by simpa using tb)
    have := simple_step ta (by simp [hp]) (by simpa using sd p)
    simpa using expression_stop this e1
  · have fa := primary_factor hA c (p :: b :: r :: d :: rest) ev el (by simp [hp])
    have fb := primary_factor hB p (r :: d :: rest) ev el (by simp [hr])
    have sb := simple_stop (term_stop fb (by simp [hr])) (by simp [hr])
    have sa := simple_step (term_stop fa (by simp [hp])) (by simp [hp]) (by simpa using sb)
    have := expression_step sa (by simp [hr]) (by simpa using ed r)
    simpa using this

/-- C10, at the failing inputs `x + y * z`, `x * y + z` and `x + y < z`, where the right
operand is parsed before the operator text is read: the nodes nest as the levels demand,
and each stores the text of the last token of its right operand, `z` or `y`, instead of
its operator. -/
theorem precedence_nodes_stored_text_witness :
    parse_expression example_lib (Parser.reading ⟨TOKEN.TOK_PRINT, "print", 1⟩
        [⟨TOKEN.TOK_IDENTIFIER, "x", 1⟩, ⟨TOKEN.TOK_ADDITIVE_OP, "+", 1⟩,
          ⟨TOKEN.TOK_IDENTIFIER, "y", 1⟩, ⟨TOKEN.TOK_MULTIPLICATIVE_OP, "*", 1⟩,
          ⟨TOKEN.TOK_IDENTIFIER, "z", 1⟩, ⟨TOKEN.TOK_SEMICOLON, ";", 1⟩] "" 2)
      = Result.ok (ASTExprNode.binary_expr "z" (ASTExprNode.identifier "x")
          (ASTExprNode.binary_expr "z" (ASTExprNode.identifier "y")
            (ASTExprNode.identifier "z")))
          (Parser.reading ⟨TOKEN.TOK_IDENTIFIER, "z", 1⟩ [⟨TOKEN.TOK_SEMICOLON, ";", 1⟩]
            "" 2) ∧
    parse_expression example_lib (Parser.reading ⟨TOKEN.TOK_PRINT, "print", 1⟩
        [⟨TOKEN.TOK_IDENTIFIER, "x", 1⟩, ⟨TOKEN.TOK_MULTIPLICATIVE_OP, "*", 1⟩,
          ⟨TOKEN.TOK_IDENTIFIER, "y", 1⟩, ⟨TOKEN.TOK_ADDITIVE_OP, "+", 1⟩,
          ⟨TOKEN.TOK_IDENTIFIER, "z", 1⟩, ⟨TOKEN.TOK_SEMICOLON, ";", 1⟩] "" 2)
      = Result.ok (ASTExprNode.binary_expr "z"
          (ASTExprNode.binary_expr "y" (ASTExprNode.identifier "x")
            (ASTExprNode.identifier "y")) (ASTExprNode.identifier "z"))
          (Parser.reading ⟨TOKEN.TOK_IDENTIFIER, "z", 1⟩ [⟨TOKEN.TOK_SEMICOLON, ";", 1⟩]
            "" 2) ∧
    parse_expression example_lib (Parser.reading ⟨TOKEN.TOK_PRINT, "print", 1⟩
        [⟨TOKEN.TOK_IDENTIFIER, "x", 1⟩, ⟨TOKEN.TOK_ADDITIVE_OP, "+", 1⟩,
          ⟨TOKEN.TOK_IDENTIFIER, "y", 1⟩, ⟨TOKEN.TOK_RELATIONAL_OP, "<", 1⟩,
          ⟨TOKEN.TOK_IDENTIFIER, "z", 1⟩, ⟨TOKEN.TOK_SEMICOLON, ";", 1⟩] "" 2)
      = Result.ok (ASTExprNode.binary_expr "z"
          (ASTExprNode.binary_expr "y" (ASTExprNode.identifier "x")
            (ASTExprNode.identifier "y")) (ASTExprNode.identifier "z"))
          (Parser.reading ⟨TOKEN.TOK_IDENTIFIER, "z", 1⟩ [⟨TOKEN.TOK_SEMICOLON, ";", 1⟩]
            "" 2) :=
  precedence_nodes_stored_text example_lib ⟨TOKEN.TOK_PRINT, "print", 1⟩
    ⟨TOKEN.TOK_IDENTIFIER, "x", 1⟩ ⟨TOKEN.TOK_IDENTIFIER, "y", 1⟩
    ⟨TOKEN.TOK_IDENTIFIER, "z", 1⟩ ⟨TOKEN.TOK_ADDITIVE_OP, "+", 1⟩
    ⟨TOKEN.TOK_MULTIPLICATIVE_OP, "*", 1⟩ ⟨TOKEN.TOK_RELATIONAL_OP, "<", 1⟩
    [⟨TOKEN.TOK_SEMICOLON, ";", 1⟩] "" 2
    (ASTExprNode.identifier "x") (ASTExprNode.identifier "y") (ASTExprNode.identifier "z")
    ⟨Or.inr (Or.inr (Or.inr (Or.inr rfl))), fun _ _ _ => rfl⟩
    ⟨Or.inr (Or.inr (Or.inr (Or.inr rfl))), fun _ _ _ => rfl⟩
    ⟨Or.inr (Or.inr (Or.inr (Or.inr rfl))), fun _ _ _ => rfl⟩ rfl rfl rfl
    ⟨by decide, by decide, by decide, by decide⟩

theorem parse_factor_string (L : Toolchain) (c t : Token) (rest : List Token) (ev : String)
    (el : Nat) (str s : List Char) (ht : t.type = TOKEN.TOK_STRING)
    (h1 : substr t.value.data 1 (size_minus_two t.value.data.length) = Except.ok str)
    (h2 : unescape_loop str.length str (find str escaped_quote 0) = some s) :
    parse_factor L (Parser.reading c (t :: rest) ev el)
      = Result.ok (ASTExprNode.literal_string (String.mk s))
          (Parser.reading t rest ev el) := by
  rw [parse_factor_eq, consume_reading_cons]
  simp only [reading_current, ht]
  rw [h1]
  dsimp only
  rw [h2]

/-- C3: on the string-literal token whose text is `"\"\""` (a quote, the body `\"\"` of
two escaped quotes, a quote) `parse_factor` returns the three-character value `"\"`
(quote, backslash, quote): after the first replacement the search resumes two
characters further on, past the backslash of the second escaped quote. Replacing every
escaped quote of the body gives the two-character value `""`. -/
theorem adjacent_escaped_quotes_left_in_place (L : Toolchain) (c : Token) (line : Nat)
    (rest : List Token) (ev : String) (el : Nat) :
    parse_factor L (Parser.reading c (⟨TOKEN.TOK_STRING, "\"\\\"\\\"\"", line⟩ :: rest)
        ev el)
      = Result.ok (ASTExprNode.literal_string "\"\\\"")
          (Parser.reading ⟨TOKEN.TOK_STRING, "\"\\\"\\\"\"", line⟩ rest ev el) ∧
    String.mk (unescape_spec ['\\', '"', '\\', '"']) = "\"\"" ∧
    "\"\\\"".length = 3 := by
  have h1 : substr "\"\\\"\\\"\"".data 1 (size_minus_two "\"\\\"\\\"\"".data.length)
      = Except.ok ['\\', '"', '\\', '"'] := by rfl
  have h2 : unescape_loop ['\\', '"', '\\', '"'].length ['\\', '"', '\\', '"']
      (find ['\\', '"', '\\', '"'] escaped_quote 0) = some ['"', '\\', '"'] := by decide
  exact ⟨parse_factor_string L c ⟨TOKEN.TOK_STRING, "\"\\\"\\\"\"", line⟩ rest ev el
    ['\\', '"', '\\', '"'] ['"', '\\', '"'] rfl h1 h2, by decide, by decide⟩

theorem statement_start_ne_eof {L : Toolchain} {p p1 : Parser} {s : ASTStatementNode}
    (h : parse_statement L p = Result.ok s p1) :
    p.current_token.type ≠ TOKEN.TOK_RIGHT_CURLY ∧
      p.current_token.type ≠ TOKEN.TOK_ERROR ∧ p.current_token.type ≠ TOKEN.TOK_EOF := by
  rw [parse_statement_eq] at h
  refine ⟨?_, ?_, ?_⟩
  all_goals intro hc
  all_goals rw [hc] at h
  all_goals simp at h

theorem consume_reading (c : Token) (ts : List Token) (ev : String) (el : Nat) :
    consume_token (Parser.reading c ts ev el) = Parser.new ⟨ts, ev, el⟩ := by
  cases ts with
  | nil => rfl
  | cons t ts => rw [consume_reading_cons, new_cons]

theorem program_loop_groups (L : Toolchain) (ev : String) (el : Nat) (tail : List Token)
    (htail : (Parser.new ⟨tail, ev, el⟩).current_token.type = TOKEN.TOK_EOF) :
    ∀ (groups : List (List Token × ASTStatementNode)) (acc : List ASTStatementNode),
      AcceptsAll L ev el groups tail →
      program_loop L acc (Parser.new ⟨tokens_of groups ++ tail, ev, el⟩)
        = Result.ok ⟨acc ++ groups.map Prod.snd⟩ (Parser.new ⟨tail, ev, el⟩) := by
  intro groups
  induction groups with
  | nil =>
    intro acc _
    rw [program_loop_eq]
    simp [tokens_of, htail]
  | cons g groups ih =>
    intro acc h
    obtain ⟨⟨last, _, hs⟩, hrest⟩ := h
    have hne := (statement_start_ne_eof hs).2.2
    have heq : tokens_of (g :: groups) ++ tail = g.1 ++ (tokens_of groups ++ tail) := by
      simp [tokens_of]
    rw [program_loop_eq, heq, if_pos hne, hs, ok_bind, consume_reading, ih _ hrest]
    simp

/-- C4: for every sequence of token groups, each of which `parse_statement` accepts as one
complete statement where it stands, `parse_program` on their concatenation followed by the
end of the input returns the program whose statements are the nodes built for the groups,
one for each group, in source order; no group gives the empty program. -/
theorem program_has_one_statement_per_group (L : Toolchain) (ev : String) (el : Nat)
    (groups : List (List Token × ASTStatementNode)) (tail : List Token)
    (htail : (Parser.new ⟨tail, ev, el⟩).current_token.type = TOKEN.TOK_EOF)
    (h : AcceptsAll L ev el groups tail) :
    parse_program L (Parser.new ⟨tokens_of groups ++ tail, ev, el⟩)
        = Result.ok ⟨groups.map Prod.snd⟩ (Parser.new ⟨tail, ev, el⟩) ∧
      (groups.map Prod.snd).length = groups.length := by
  refine ⟨?_, by simp⟩
  have := program_loop_groups L ev el tail htail groups [] h
  simpa [parse_program] using this

/-- C4, at a concrete input: `print x; return 1;` gives a program of two statements. -/
theorem program_has_one_statement_per_group_witness :
    parse_program example_lib (Parser.new ⟨
        [⟨TOKEN.TOK_PRINT, "print", 1⟩, ⟨TOKEN.TOK_IDENTIFIER, "x", 1⟩,
          ⟨TOKEN.TOK_SEMICOLON, ";", 1⟩, ⟨TOKEN.TOK_RETURN, "return", 2⟩,
          ⟨TOKEN.TOK_INT, "1", 2⟩, ⟨TOKEN.TOK_SEMICOLON, ";", 2⟩], "", 3⟩)
      = Result.ok ⟨[ASTStatementNode.print (ASTExprNode.identifier "x"),
          ASTStatementNode.return_node (ASTExprNode.literal_int 1)]⟩
          (Parser.new ⟨[], "", 3⟩) :=
  (program_has_one_statement_per_group example_lib "" 3
    [([⟨TOKEN.TOK_PRINT, "print", 1⟩, ⟨TOKEN.TOK_IDENTIFIER, "x", 1⟩,
        ⟨TOKEN.TOK_SEMICOLON, ";", 1⟩], ASTStatementNode.print (ASTExprNode.identifier "x")),
      ([⟨TOKEN.TOK_RETURN, "return", 2⟩, ⟨TOKEN.TOK_INT, "1", 2⟩,
        ⟨TOKEN.TOK_SEMICOLON, ";", 2⟩],
        ASTStatementNode.return_node (ASTExprNode.literal_int 1))] [] rfl
    ⟨⟨_, rfl, rfl⟩, ⟨_, rfl, rfl⟩, trivial⟩).1

theorem block_loop_of_chain (L : Toolchain) : ∀ (ss acc : List ASTStatementNode) (q q' : Parser),
    StmtChain L ss q q' →
    (q'.current_token.type = TOKEN.TOK_RIGHT_CURLY →
      block_loop L acc q = Result.ok (acc ++ ss) q') ∧
    (q'.current_token.type = TOKEN.TOK_EOF ∨ q'.current_token.type = TOKEN.TOK_ERROR →
      block_loop L acc q
        = Result.thrown (Exception.runtime_error unterminated_block) q') := by
  intro ss
  induction ss with
  | nil =>
    intro acc q q' h
    have hq : q' = q := h
    subst hq
    refine ⟨fun hc => ?_, fun hc => ?_⟩
    · rw [block_loop_eq]
      simp [hc]
    · rw [block_loop_eq]
      rcases hc with hc | hc <;> simp [hc, unterminated_block]
  | cons s ss ih =>
    intro acc q q' h
    obtain ⟨q1, hs, hrest⟩ := h
    obtain ⟨n1, n2, n3⟩ := statement_start_ne_eof hs
    have hstep : block_loop L acc q = block_loop L (acc ++ [s]) (consume_token q1) := by
      rw [block_loop_eq, if_pos ⟨n1, n2, n3⟩, hs, ok_bind]
    have := ih (acc ++ [s]) (consume_token q1) q' hrest
    rw [hstep]
    simpa using this

theorem chain_of_block_loop (L : Toolchain) : ∀ (n : Nat) (q : Parser)
    (acc ss : List ASTStatementNode) (p' : Parser), size q ≤ n →
    block_loop L acc q = Result.ok ss p' →
    ∃ ss', ss = acc ++ ss' ∧ StmtChain L ss' q p' ∧
      p'.current_token.type = TOKEN.TOK_RIGHT_CURLY := by
  intro n
  induction n with
  | zero =>
    intro q acc ss p' hn h
    rw [block_loop_eq] at h
    have hz : size q = 0 := by omega
    have hc : q.current_token.type = TOKEN.TOK_EOF := by
      by_contra hne
      have := size_eq_of_ne_eof hne
      omega
    simp [hc] at h
  | succ n ih =>
    intro q acc ss p' hn h
    rw [block_loop_eq] at h
    split at h
    · cases hs : parse_statement L q with
      | ok s q1 =>
        rw [hs, ok_bind] at h
        have h1 := parse_statement_below L q s q1 hs
        have h2 := size_consume_le q1
        have h3 := remaining_le_size q
        obtain ⟨ss', e1, e2, e3⟩ := ih (consume_token q1) (acc ++ [s]) ss p' (by omega) h
        exact ⟨s :: ss', by simp [e1], ⟨q1, hs, e2⟩, e3⟩
      | thrown e q1 => rw [hs] at h; simp at h
      | null_deref q1 => rw [hs] at h; simp at h
      | fuel => rw [hs] at h; simp [Result.bind] at h
    · split at h
      · rename_i hc
        simp at h
        obtain ⟨rfl, rfl⟩ := h
        exact ⟨[], by simp, rfl, hc⟩
      · simp at h

/-- C8: `parse_block` returns the statements of the block, in order, exactly when,
from the token after `{` on, a sequence of zero or more complete statements (each parsed
by `parse_statement` and followed by one `consume_token`) leads to a current token `}`,
on which it stops; if the sequence leads instead to a current token that is the end of
the input or a lexer error token, it throws "Reached end of file while parsing.
Mismatched scopes.". -/
theorem block_is_statements_then_closing_brace (L : Toolchain) (p : Parser) :
    (∀ ss p', parse_block L p = Result.ok ss p' ↔
      (StmtChain L ss (consume_token p) p' ∧
        p'.current_token.type = TOKEN.TOK_RIGHT_CURLY)) ∧
    (∀ ss q', StmtChain L ss (consume_token p) q' →
      (q'.current_token.type = TOKEN.TOK_EOF ∨ q'.current_token.type = TOKEN.TOK_ERROR) →
      parse_block L p
        = Result.thrown (Exception.runtime_error
            "Reached end of file while parsing. Mismatched scopes.") q') := by
  refine ⟨fun ss p' => ⟨fun h => ?_, fun h => ?_⟩, fun ss q' h hc => ?_⟩
  · rw [parse_block_eq] at h
    obtain ⟨ss', e1, e2, e3⟩ := chain_of_block_loop L _ _ _ _ _ (le_refl _) h
    simp at e1
    subst e1
    exact ⟨e2, e3⟩
  · rw [parse_block_eq]
    simpa using (block_loop_of_chain L ss [] _ _ h.1).1 h.2
  · rw [parse_block_eq]
    exact (block_loop_of_chain L ss [] _ _ h).2 hc

/-- C8, at a concrete input: the block `{ var x : int = 1 ;` left open at the end of the
input. -/
theorem block_is_statements_then_closing_brace_witness :
    parse_block example_lib (Parser.reading ⟨TOKEN.TOK_LEFT_CURLY, "\x7b", 1⟩
        [⟨TOKEN.TOK_VAR, "var", 1⟩, ⟨TOKEN.TOK_IDENTIFIER, "x", 1⟩,
          ⟨TOKEN.TOK_COLON, ":", 1⟩, ⟨TOKEN.TOK_INT_TYPE, "int", 1⟩,
          ⟨TOKEN.TOK_EQUALS, "=", 1⟩, ⟨TOKEN.TOK_INT, "1", 1⟩,
          ⟨TOKEN.TOK_SEMICOLON, ";", 1⟩] "" 2)
      = Result.thrown (Exception.runtime_error
          "Reached end of file while parsing. Mismatched scopes.")
          (Parser.reading ⟨TOKEN.TOK_EOF, "", 2⟩ [] "" 2) :=
  (block_is_statements_then_closing_brace example_lib _).2
    [ASTStatementNode.declaration TYPE.INT "x" (ASTExprNode.literal_int 1)] _
    ⟨_, rfl, rfl⟩ (Or.inl rfl)

theorem parse_block_ends_on_brace {L : Toolchain} {p p' : Parser}
    {ss : List ASTStatementNode} (h : parse_block L p = Result.ok ss p') :
    p'.current_token.type = TOKEN.TOK_RIGHT_CURLY := by
  rw [parse_block_eq] at h
  obtain ⟨_, _, _, e3⟩ := chain_of_block_loop L _ _ _ _ _ (le_refl _) h
  exact e3

/-- C5: let `parse_if_statement` be entered on `if` with `(` next, let `parse_expression`
build `X` from the condition, let `)` and `{` follow and let `parse_block` build the
statements `A`, stopping at `p5` on the closing `}`. If the token after that `}` is
`else`, followed by `{` and a block for which `parse_block` builds `B`, the result is
`If(X, Block A, some (Block B))`. If the token after the `}` is anything else, the result
is `If(X, Block A, none)` and the parser is left exactly where the if-block ended, on its
closing `}`, with nothing after it consumed; `parse_program` then parses what follows as
the next top-level statement. -/
theorem if_statement_with_and_without_else (L : Toolchain) (p p2 p5 : Parser)
    (X : ASTExprNode) (A : List ASTStatementNode)
    (h1 : (consume_token p).current_token.type = TOKEN.TOK_LEFT_BRACKET)
    (hx : parse_expression L (consume_token p) = Result.ok X p2)
    (h2 : (consume_token p2).current_token.type = TOKEN.TOK_RIGHT_BRACKET)
    (h3 : (consume_token (consume_token p2)).current_token.type = TOKEN.TOK_LEFT_CURLY)
    (hA : parse_block L (consume_token (consume_token p2)) = Result.ok A p5) :
    (∀ (B : List ASTStatementNode) (p8 : Parser),
      p5.next_token.type = TOKEN.TOK_ELSE →
      (consume_token (consume_token p5)).current_token.type = TOKEN.TOK_LEFT_CURLY →
      parse_block L (consume_token (consume_token p5)) = Result.ok B p8 →
      parse_if_statement L p = Result.ok (ASTStatementNode.if_node X A (some B)) p8) ∧
    (p5.next_token.type ≠ TOKEN.TOK_ELSE →
      parse_if_statement L p = Result.ok (ASTStatementNode.if_node X A none) p5 ∧
      p5.current_token.type = TOKEN.TOK_RIGHT_CURLY ∧
      (p.current_token.type = TOKEN.TOK_IF →
        ∀ acc, program_loop L acc p
          = program_loop L (acc ++ [ASTStatementNode.if_node X A none])
              (consume_token p5))) := by
  refine ⟨fun B p8 e1 e2 hB => ?_, fun e1 => ?_⟩
  · rw [parse_if_statement_eq]
    simp [h1, hx, h2, h3, hA, e1, e2, hB]
  · have hif : parse_if_statement L p
        = Result.ok (ASTStatementNode.if_node X A none) p5 := by
      rw [parse_if_statement_eq]
      simp [h1, hx, h2, h3, hA, e1]
    refine ⟨hif, parse_block_ends_on_brace hA, fun hp acc => ?_⟩
    have hs : parse_statement L p = Result.ok (ASTStatementNode.if_node X A none) p5 := by
      rw [parse_statement_eq, hp]
      exact hif
    rw [program_loop_eq, if_pos (by rw [hp]; decide), hs, ok_bind]

/-- C5, at a concrete input: `if ( x ) { print a ; } print b ;`. The if-statement has no
else-branch and stops on its `}`; the print statement is a statement of its own. -/
theorem if_statement_with_and_without_else_witness :
    parse_if_statement example_lib (Parser.reading ⟨TOKEN.TOK_IF, "if", 1⟩
        [⟨TOKEN.TOK_LEFT_BRACKET, "(", 1⟩, ⟨TOKEN.TOK_IDENTIFIER, "x", 1⟩,
          ⟨TOKEN.TOK_RIGHT_BRACKET, ")", 1⟩, ⟨TOKEN.TOK_LEFT_CURLY, "\x7b", 1⟩,
          ⟨TOKEN.TOK_PRINT, "print", 1⟩, ⟨TOKEN.TOK_IDENTIFIER, "a", 1⟩,
          ⟨TOKEN.TOK_SEMICOLON, ";", 1⟩, ⟨TOKEN.TOK_RIGHT_CURLY, "\x7d", 1⟩,
          ⟨TOKEN.TOK_PRINT, "print", 2⟩, ⟨TOKEN.TOK_IDENTIFIER, "b", 2⟩,
          ⟨TOKEN.TOK_SEMICOLON, ";", 2⟩] "" 3)
      = Result.ok (ASTStatementNode.if_node (ASTExprNode.identifier "x")
          [ASTStatementNode.print (ASTExprNode.identifier "a")] none)
          (Parser.reading ⟨TOKEN.TOK_RIGHT_CURLY, "\x7d", 1⟩
            [⟨TOKEN.TOK_PRINT, "print", 2⟩, ⟨TOKEN.TOK_IDENTIFIER, "b", 2⟩,
              ⟨TOKEN.TOK_SEMICOLON, ";", 2⟩] "" 3) :=
  ((if_statement_with_and_without_else example_lib
    (Parser.reading ⟨TOKEN.TOK_IF, "if", 1⟩
        [⟨TOKEN.TOK_LEFT_BRACKET, "(", 1⟩, ⟨TOKEN.TOK_IDENTIFIER, "x", 1⟩,
          ⟨TOKEN.TOK_RIGHT_BRACKET, ")", 1⟩, ⟨TOKEN.TOK_LEFT_CURLY, "\x7b", 1⟩,
          ⟨TOKEN.TOK_PRINT, "print", 1⟩, ⟨TOKEN.TOK_IDENTIFIER, "a", 1⟩,
          ⟨TOKEN.TOK_SEMICOLON, ";", 1⟩, ⟨TOKEN.TOK_RIGHT_CURLY, "\x7d", 1⟩,
          ⟨TOKEN.TOK_PRINT, "print", 2⟩, ⟨TOKEN.TOK_IDENTIFIER, "b", 2⟩,
          ⟨TOKEN.TOK_SEMICOLON, ";", 2⟩] "" 3)
    _ _ (ASTExprNode.identifier "x") [ASTStatementNode.print (ASTExprNode.identifier "a")]
    rfl rfl rfl rfl rfl).2 (by decide)).1

theorem parse_type_keyword (identifier : String) (p : Parser) (T : TYPE)
    (h : p.current_token.type = type_keyword T) :
    parse_type identifier p = Result.ok T p := by
  unfold parse_type
  cases T <;> simp [type_keyword] at h <;> simp [h]

/-- C7: a missing statement terminator is reported as a missing `;` on the line of the
token found in its place. If the expression of a declaration, assignment, print or return
statement has been parsed (ending at `p2`) and the token `t` after it is not `;`, the
statement routine throws the error that names `';'` and carries the line number of `t`,
with `t` as the current token. -/
theorem missing_semicolon_is_reported (L : Toolchain) (E : ASTExprNode) (p2 : Parser)
    (hsemi : (consume_token p2).current_token.type ≠ TOKEN.TOK_SEMICOLON) :
    (∀ (v x c ty eq : Token) (T : TYPE) (u : List Token) (ev : String) (el : Nat),
      x.type = TOKEN.TOK_IDENTIFIER → c.type = TOKEN.TOK_COLON →
      ty.type = type_keyword T → eq.type = TOKEN.TOK_EQUALS →
      parse_expression L (Parser.reading eq u ev el) = Result.ok E p2 →
      parse_declaration_statement L (Parser.reading v (x :: c :: ty :: eq :: u) ev el)
        = Result.thrown (Exception.runtime_error ("Expected ';' after assignment of "
            ++ x.value ++ " on line "
            ++ toString (consume_token p2).current_token.line_number ++ "."))
            (consume_token p2)) ∧
    (∀ (v x eq : Token) (u : List Token) (ev : String) (el : Nat),
      x.type = TOKEN.TOK_IDENTIFIER → eq.type = TOKEN.TOK_EQUALS →
      parse_expression L (Parser.reading eq u ev el) = Result.ok E p2 →
      parse_assignment_statement L (Parser.reading v (x :: eq :: u) ev el)
        = Result.thrown (Exception.runtime_error ("Expected ';' after assignment of "
            ++ x.value ++ " on line "
            ++ toString (consume_token p2).current_token.line_number ++ "."))
            (consume_token p2)) ∧
    (∀ p, parse_expression L p = Result.ok E p2 →
      parse_print_statement L p
        = Result.thrown (Exception.runtime_error
            ("Expected ';' after print statement on line "
              ++ toString (consume_token p2).current_token.line_number ++ "."))
            (consume_token p2)) ∧
    (∀ p, parse_expression L p = Result.ok E p2 →
      parse_return_statement L p
        = Result.thrown (Exception.runtime_error
            ("Expected ';' after return statement on line "
              ++ toString (consume_token p2).current_token.line_number ++ "."))
            (consume_token p2)) := by
  refine ⟨?_, ?_, ?_, ?_⟩
  · intro v x c ty eq T u ev el hx hc hty heq hE
    have ht := parse_type_keyword x.value (Parser.reading ty (eq :: u) ev el) T hty
    unfold parse_declaration_statement
    simp [hx, hc, heq, hE, hsemi, ht]
  · intro v x eq u ev el hx heq hE
    unfold parse_assignment_statement
    simp [hx, heq, hE, hsemi]
  · intro p hE
    unfold parse_print_statement
    simp [hE, hsemi]
  · intro p hE
    unfold parse_return_statement
    simp [hE, hsemi]

/-- C7, at a concrete input: `var x : int = 1` followed by the end of the input, which
the lexer reports on line 4. -/
theorem missing_semicolon_is_reported_witness :
    parse_declaration_statement example_lib (Parser.reading ⟨TOKEN.TOK_VAR, "var", 1⟩
        [⟨TOKEN.TOK_IDENTIFIER, "x", 1⟩, ⟨TOKEN.TOK_COLON, ":", 1⟩,
          ⟨TOKEN.TOK_INT_TYPE, "int", 1⟩, ⟨TOKEN.TOK_EQUALS, "=", 1⟩,
          ⟨TOKEN.TOK_INT, "1", 1⟩] "" 4)
      = Result.thrown (Exception.runtime_error
          "Expected ';' after assignment of x on line 4.")
          (Parser.reading ⟨TOKEN.TOK_EOF, "", 4⟩ [] "" 4) :=
  (missing_semicolon_is_reported example_lib (ASTExprNode.literal_int 1)
    (Parser.reading ⟨TOKEN.TOK_INT, "1", 1⟩ [] "" 4) (by decide)).1
    ⟨TOKEN.TOK_VAR, "var", 1⟩ ⟨TOKEN.TOK_IDENTIFIER, "x", 1⟩ ⟨TOKEN.TOK_COLON, ":", 1⟩
    ⟨TOKEN.TOK_INT_TYPE, "int", 1⟩ ⟨TOKEN.TOK_EQUALS, "=", 1⟩ TYPE.INT
    [⟨TOKEN.TOK_INT, "1", 1⟩] "" 4 rfl rfl rfl rfl rfl

theorem parse_type_not_keyword (identifier : String) (p : Parser)
    (h : ∀ T, p.current_token.type ≠ type_keyword T) :
    parse_type identifier p
      = Result.thrown (Exception.runtime_error ("Expected type for " ++ identifier
          ++ " after ':' on line " ++ toString p.current_token.line_number ++ ".")) p := by
  have h1 := h TYPE.INT
  have h2 := h TYPE.REAL
  have h3 := h TYPE.BOOL
  have h4 := h TYPE.STRING
  simp only [type_keyword] at h1 h2 h3 h4
  unfold parse_type
  split <;> simp_all

/-- C15: `parse_declaration_statement` on `var x : T = e ;`, where `T` is a type keyword
and `parse_expression` builds `E` from `e`, returns `Declaration(type of T, x, E)` and
stops on `;`; `parse_assignment_statement` on `set x = e ;` returns `Assignment(x, E)`
and stops on `;`. A token that is not the required identifier, `:`, type keyword or `=`
at its position makes the routine throw the error for that position. -/
theorem declaration_and_assignment_shapes (L : Toolchain) (v x c ty eq : Token)
    (u : List Token) (ev : String) (el : Nat) :
    (∀ (T : TYPE) (E : ASTExprNode) (p2 : Parser),
      x.type = TOKEN.TOK_IDENTIFIER → c.type = TOKEN.TOK_COLON →
      ty.type = type_keyword T → eq.type = TOKEN.TOK_EQUALS →
      parse_expression L (Parser.reading eq u ev el) = Result.ok E p2 →
      (consume_token p2).current_token.type = TOKEN.TOK_SEMICOLON →
      parse_declaration_statement L (Parser.reading v (x :: c :: ty :: eq :: u) ev el)
        = Result.ok (ASTStatementNode.declaration T x.value E) (consume_token p2)) ∧
    (∀ (E : ASTExprNode) (p2 : Parser),
      x.type = TOKEN.TOK_IDENTIFIER → eq.type = TOKEN.TOK_EQUALS →
      parse_expression L (Parser.reading eq u ev el) = Result.ok E p2 →
      (consume_token p2).current_token.type = TOKEN.TOK_SEMICOLON →
      parse_assignment_statement L (Parser.reading v (x :: eq :: u) ev el)
        = Result.ok (ASTStatementNode.assignment x.value E) (consume_token p2)) ∧
    (x.type ≠ TOKEN.TOK_IDENTIFIER →
      parse_declaration_statement L (Parser.reading v (x :: c :: ty :: eq :: u) ev el)
        = Result.thrown (Exception.runtime_error
            ("Expected variable name after 'var' on line " ++ toString x.line_number
              ++ ".")) (Parser.reading x (c :: ty :: eq :: u) ev el) ∧
      parse_assignment_statement L (Parser.reading v (x :: eq :: u) ev el)
        = Result.thrown (Exception.runtime_error
            ("Expected variable name after 'set' on line " ++ toString x.line_number
              ++ ".")) (Parser.reading x (eq :: u) ev el)) ∧
    (x.type = TOKEN.TOK_IDENTIFIER → c.type ≠ TOKEN.TOK_COLON →
      parse_declaration_statement L (Parser.reading v (x :: c :: ty :: eq :: u) ev el)
        = Result.thrown (Exception.runtime_error ("Expected ':' after " ++ x.value
            ++ " on line " ++ toString c.line_number ++ "."))
            (Parser.reading c (ty :: eq :: u) ev el)) ∧
    (x.type = TOKEN.TOK_IDENTIFIER → c.type = TOKEN.TOK_COLON →
      (∀ T, ty.type ≠ type_keyword T) →
      parse_declaration_statement L (Parser.reading v (x :: c :: ty :: eq :: u) ev el)
        = Result.thrown (Exception.runtime_error ("Expected type for " ++ x.value
            ++ " after ':' on line " ++ toString ty.line_number ++ "."))
            (Parser.reading ty (eq :: u) ev el)) ∧
    (x.type = TOKEN.TOK_IDENTIFIER → eq.type ≠ TOKEN.TOK_EQUALS →
      (∀ T, c.type = TOKEN.TOK_COLON → ty.type = type_keyword T →
        parse_declaration_statement L (Parser.reading v (x :: c :: ty :: eq :: u) ev el)
          = Result.thrown (Exception.runtime_error
              ("Expected assignment operator '=' for " ++ x.value ++ " on line "
                ++ toString eq.line_number ++ ".")) (Parser.reading eq u ev el)) ∧
      parse_assignment_statement L (Parser.reading v (x :: eq :: u) ev el)
        = Result.thrown (Exception.runtime_error
            ("Expected assignment operator '=' after " ++ x.value ++ " on line "
              ++ toString eq.line_number ++ ".")) (Parser.reading eq u ev el)) := by
  refine ⟨?_, ?_, ?_, ?_, ?_, ?_⟩
  · intro T E p2 hx hc hty heq hE hs
    have ht := parse_type_keyword x.value (Parser.reading ty (eq :: u) ev el) T hty
    unfold parse_declaration_statement
    simp [hx, hc, heq, hE, hs, ht]
  · intro E p2 hx heq hE hs
    unfold parse_assignment_statement
    simp [hx, heq, hE, hs]
  · intro hx
    unfold parse_declaration_statement parse_assignment_statement
    simp [hx]
  · intro hx hc
    unfold parse_declaration_statement
    simp [hx, hc]
  · intro hx hc hty
    have ht := parse_type_not_keyword x.value (Parser.reading ty (eq :: u) ev el) hty
    unfold parse_declaration_statement
    simp [hx, hc, ht]
  · intro hx heq
    refine ⟨fun T hc hty => ?_, ?_⟩
    · have ht := parse_type_keyword x.value (Parser.reading ty (eq :: u) ev el) T hty
      unfold parse_declaration_statement
      simp [hx, hc, heq, ht]
    · unfold parse_assignment_statement
      simp [hx, heq]

/-- C15, at a concrete input: `var x : int = 1 ;`. -/
theorem declaration_and_assignment_shapes_witness :
    parse_declaration_statement example_lib (Parser.reading ⟨TOKEN.TOK_VAR, "var", 1⟩
        [⟨TOKEN.TOK_IDENTIFIER, "x", 1⟩, ⟨TOKEN.TOK_COLON, ":", 1⟩,
          ⟨TOKEN.TOK_INT_TYPE, "int", 1⟩, ⟨TOKEN.TOK_EQUALS, "=", 1⟩,
          ⟨TOKEN.TOK_INT, "1", 1⟩, ⟨TOKEN.TOK_SEMICOLON, ";", 1⟩] "" 2)
      = Result.ok (ASTStatementNode.declaration TYPE.INT "x" (ASTExprNode.literal_int 1))
          (Parser.reading ⟨TOKEN.TOK_SEMICOLON, ";", 1⟩ [] "" 2) :=
  (declaration_and_assignment_shapes example_lib ⟨TOKEN.TOK_VAR, "var", 1⟩
    ⟨TOKEN.TOK_IDENTIFIER, "x", 1⟩ ⟨TOKEN.TOK_COLON, ":", 1⟩
    ⟨TOKEN.TOK_INT_TYPE, "int", 1⟩ ⟨TOKEN.TOK_EQUALS, "=", 1⟩
    [⟨TOKEN.TOK_INT, "1", 1⟩, ⟨TOKEN.TOK_SEMICOLON, ";", 1⟩] "" 2).1
    TYPE.INT (ASTExprNode.literal_int 1)
    (Parser.reading ⟨TOKEN.TOK_INT, "1", 1⟩ [⟨TOKEN.TOK_SEMICOLON, ";", 1⟩] "" 2)
    rfl rfl rfl rfl rfl rfl

theorem parse_formal_param_ok (x c ty : Token) (T : TYPE) (rest : List Token)
    (ev : String) (el : Nat) (hx : x.type = TOKEN.TOK_IDENTIFIER)
    (hc : c.type = TOKEN.TOK_COLON) (hty : ty.type = type_keyword T) :
    parse_formal_param (Parser.reading x (c :: ty :: rest) ev el)
      = Result.ok (x.value, T) (Parser.reading ty rest ev el) := by
  have ht := parse_type_keyword x.value (Parser.reading ty rest ev el) T hty
  unfold parse_formal_param
  simp [hx, hc, ht]

theorem formal_params_loop_tail (rp : Token) (rest : List Token) (ev : String) (el : Nat)
    (hrp : rp.type = TOKEN.TOK_RIGHT_BRACKET) :
    ∀ (ts : List Token) (ps : List (String × TYPE)), ParamTail ts ps →
      ∀ acc, formal_params_loop acc (Parser.new ⟨ts ++ rp :: rest, ev, el⟩)
        = Result.ok (acc ++ ps) (Parser.reading rp rest ev el) := by
  intro ts ps h
  induction h with
  | nil =>
    intro acc
    rw [formal_params_loop_eq]
    simp [new_cons, hrp]
  | cons k x c ty T ts ps hk hx hc hty _ ih =>
    intro acc
    rw [formal_params_loop_eq]
    have hp := parse_formal_param_ok x c ty T (ts ++ rp :: rest) ev el hx hc hty
    simp only [List.cons_append, new_cons, reading_current, hk, if_true,
      consume_reading_cons, hp, ok_bind, consume_reading]
    rw [ih]
    simp

theorem parse_formal_params_ok (rp : Token) (rest : List Token) (ev : String) (el : Nat)
    (hrp : rp.type = TOKEN.TOK_RIGHT_BRACKET) (pts : List Token)
    (ps : List (String × TYPE)) (h : Params pts ps) :
    parse_formal_params (Parser.new ⟨pts ++ rp :: rest, ev, el⟩)
      = Result.ok ps (Parser.reading rp rest ev el) := by
  cases h with
  | empty =>
    unfold parse_formal_params
    simp [new_cons, hrp]
  | first x c ty T ts ps hx hc hty ht =>
    have hp := parse_formal_param_ok x c ty T (ts ++ rp :: rest) ev el hx hc hty
    have hl := formal_params_loop_tail rp rest ev el hrp ts ps ht [(x.value, T)]
    unfold parse_formal_params
    simp only [List.cons_append, new_cons, reading_current, hx]
    rw [if_pos (by decide), hp, ok_bind, consume_reading, hl, ok_bind]
    simp [hrp]

/-- C9: function definitions accept zero or more parameters. For an identifier `f`, the
tokens of a parameter list `x1 : T1 , ... , xn : Tn` (`n ≥ 0`) declaring the parameters
`ps`, a return type keyword `T` and a body for which `parse_block` builds the statements
`S`, `parse_function_definition` on `def f ( x1 : T1 , ... , xn : Tn ) : T { S }` returns
`FunctionDefinition(f, ps, T, Block S)` and stops where the body stopped. -/
theorem function_definition_shape (L : Toolchain) (d f lp rp c ty lc : Token)
    (pts u : List Token) (ps : List (String × TYPE)) (T : TYPE) (ev : String) (el : Nat)
    (S : List ASTStatementNode) (p7 : Parser)
    (hf : f.type = TOKEN.TOK_IDENTIFIER) (hlp : lp.type = TOKEN.TOK_LEFT_BRACKET)
    (hps : Params pts ps) (hrp : rp.type = TOKEN.TOK_RIGHT_BRACKET)
    (hc : c.type = TOKEN.TOK_COLON) (hty : ty.type = type_keyword T)
    (hlc : lc.type = TOKEN.TOK_LEFT_CURLY)
    (hbody : parse_block L (Parser.reading lc u ev el) = Result.ok S p7) :
    parse_function_definition L
        (Parser.reading d (f :: lp :: (pts ++ rp :: c :: ty :: lc :: u)) ev el)
      = Result.ok (ASTStatementNode.function_definition f.value ps T S) p7 := by
  have hp := parse_formal_params_ok rp (c :: ty :: lc :: u) ev el hrp pts ps hps
  have ht := parse_type_keyword f.value (Parser.reading ty (lc :: u) ev el) T hty
  rw [parse_function_definition_eq]
  rw [consume_reading_cons, consume_reading_cons, consume_reading, hp, ok_bind]
  simp [hf, hlp, hc, ht, hlc, hbody]

/-- C9, at a concrete input: `def f ( ) : int { return 1 ; }` has no parameter, return
type `int` and a body of one return statement. -/
theorem function_definition_shape_witness :
    parse_function_definition example_lib (Parser.reading ⟨TOKEN.TOK_DEF, "def", 1⟩
        [⟨TOKEN.TOK_IDENTIFIER, "f", 1⟩, ⟨TOKEN.TOK_LEFT_BRACKET, "(", 1⟩,
          ⟨TOKEN.TOK_RIGHT_BRACKET, ")", 1⟩, ⟨TOKEN.TOK_COLON, ":", 1⟩,
          ⟨TOKEN.TOK_INT_TYPE, "int", 1⟩, ⟨TOKEN.TOK_LEFT_CURLY, "\x7b", 1⟩,
          ⟨TOKEN.TOK_RETURN, "return", 1⟩, ⟨TOKEN.TOK_INT, "1", 1⟩,
          ⟨TOKEN.TOK_SEMICOLON, ";", 1⟩, ⟨TOKEN.TOK_RIGHT_CURLY, "\x7d", 1⟩] "" 2)
      = Result.ok (ASTStatementNode.function_definition "f" [] TYPE.INT
          [ASTStatementNode.return_node (ASTExprNode.literal_int 1)])
          (Parser.reading ⟨TOKEN.TOK_RIGHT_CURLY, "\x7d", 1⟩ [] "" 2) :=
  function_definition_shape example_lib ⟨TOKEN.TOK_DEF, "def", 1⟩
    ⟨TOKEN.TOK_IDENTIFIER, "f", 1⟩ ⟨TOKEN.TOK_LEFT_BRACKET, "(", 1⟩
    ⟨TOKEN.TOK_RIGHT_BRACKET, ")", 1⟩ ⟨TOKEN.TOK_COLON, ":", 1⟩
    ⟨TOKEN.TOK_INT_TYPE, "int", 1⟩ ⟨TOKEN.TOK_LEFT_CURLY, "\x7b", 1⟩ []
    [⟨TOKEN.TOK_RETURN, "return", 1⟩, ⟨TOKEN.TOK_INT, "1", 1⟩,
      ⟨TOKEN.TOK_SEMICOLON, ";", 1⟩, ⟨TOKEN.TOK_RIGHT_CURLY, "\x7d", 1⟩]
    [] TYPE.INT "" 2 [ASTStatementNode.return_node (ASTExprNode.literal_int 1)]
    (Parser.reading ⟨TOKEN.TOK_RIGHT_CURLY, "\x7d", 1⟩ [] "" 2)
    rfl rfl Params.empty rfl rfl rfl rfl rfl

theorem steps_refl (p : Parser) : Steps p p :=
  ⟨0, rfl, fun i h1 h2 => by omega⟩

theorem steps_consume {p : Parser} (h : Clean (consume_token p).current_token) :
    Steps p (consume_token p) := by
  refine ⟨1, rfl, fun i h1 h2 => ?_⟩
  have : i = 1 := by omega
  subst this
  exact h

theorem steps_trans {p q r : Parser} (h1 : Steps p q) (h2 : Steps q r) : Steps p r := by
  obtain ⟨k1, e1, c1⟩ := h1
  obtain ⟨k2, e2, c2⟩ := h2
  refine ⟨k2 + k1, ?_, fun i hi1 hi2 => ?_⟩
  · rw [Function.iterate_add_apply, ← e1, e2]
  · by_cases hle : i ≤ k1
    · exact c1 i hi1 hle
    · obtain ⟨j, rfl⟩ := Nat.exists_eq_add_of_le (Nat.le_of_lt (Nat.lt_of_not_le hle))
      have := c2 j (by omega) (by omega)
      rw [e1] at this
      rw [Nat.add_comm, Function.iterate_add_apply]
      exact this

theorem clean_of_type {t : Token} {k : TOKEN} (h : t.type = k)
    (h1 : k ≠ TOKEN.TOK_ERROR) (h2 : k ≠ TOKEN.TOK_EOF) : Clean t := by
  subst h
  exact ⟨h1, h2⟩

theorem guarded_thrown_line {α : Type} (R : Parser → Prop) (p1 : Parser)
    (pre post : String) :
    Guarded (α := α) R (Result.thrown (Exception.runtime_error
      (pre ++ toString p1.current_token.line_number ++ post)) p1) :=
  Or.inr ⟨pre, post, rfl⟩

theorem guarded_bind {α β : Type} {R R' : Parser → Prop} {r : Result α}
    {f : α → Parser → Result β} (hr : Guarded R r)
    (hf : ∀ a p1, R p1 → Guarded R' (f a p1)) : Guarded R' (r.bind f) := by
  cases r with
  | ok a p1 => exact hf a p1 hr
  | thrown e p1 => cases e <;> exact hr
  | null_deref p1 => exact hr
  | fuel => exact hr

theorem guarded_mono {α : Type} {R R' : Parser → Prop} {r : Result α}
    (h : ∀ p1, R p1 → R' p1) (hr : Guarded R r) : Guarded R' r := by
  cases r with
  | ok a p1 => exact h p1 hr
  | thrown e p1 => cases e <;> exact hr
  | null_deref p1 => exact hr
  | fuel => exact hr

theorem sound_rebase {α : Type} {p q : Parser} {r : Result α} (h : Steps p q)
    (hr : Sound q r) : Sound p r :=
  guarded_mono (fun _ h1 => steps_trans h h1) hr

theorem sound_after_rebase {α : Type} {p q : Parser} {r : Result α} (h : Steps p q)
    (hr : SoundAfter q r) : SoundAfter p r :=
  guarded_mono (fun _ h1 => ⟨h1.choose, steps_trans h h1.choose_spec.1,
    h1.choose_spec.2⟩) hr

theorem expr_sound (L : Toolchain) : ∀ n,
    (∀ p, Sound p (parse_expressionF L n p)) ∧
    (∀ p, Sound p (parse_simple_expressionF L n p)) ∧
    (∀ p, Sound p (parse_termF L n p)) ∧
    (∀ p, Sound p (parse_factorF L n p)) ∧
    (∀ p, Sound p (parse_function_callF L n p)) ∧
    (∀ p, SoundAfter p (parse_actual_paramsF L n p)) ∧
    (∀ ps p, SoundAfter p (actual_params_loopF L n ps (consume_token p))) := by
  intro n
  induction n with
  | zero =>
    refine ⟨?_, ?_, ?_, ?_, ?_, ?_, ?_⟩ <;> intros <;> exact trivial
  | succ n ih =>
    obtain ⟨ihe, ihs, iht, ihf, ihc, iha, ihl⟩ := ih
    refine ⟨?_, ?_, ?_, ?_, ?_, ?_, ?_⟩
    · intro p
      rw [parse_expressionF]
      refine guarded_bind (ihs p) fun a p1 h1 => ?_
      split
      · rename_i hc
        have h2 := steps_trans h1 (steps_consume
          (clean_of_type (t := (consume_token p1).current_token) hc (by decide)
            (by decide)))
        exact guarded_bind (sound_rebase h2 (ihe _)) fun b p3 h3 => h3
      · exact h1
    · intro p
      rw [parse_simple_expressionF]
      refine guarded_bind (iht p) fun a p1 h1 => ?_
      split
      · rename_i hc
        have h2 := steps_trans h1 (steps_consume
          (clean_of_type (t := (consume_token p1).current_token) hc (by decide)
            (by decide)))
        exact guarded_bind (sound_rebase h2 (ihs _)) fun b p3 h3 => h3
      · exact h1
    · intro p
      rw [parse_termF]
      refine guarded_bind (ihf p) fun a p1 h1 => ?_
      split
      · rename_i hc
        have h2 := steps_trans h1 (steps_consume
          (clean_of_type (t := (consume_token p1).current_token) hc (by decide)
            (by decide)))
        exact guarded_bind (sound_rebase h2 (iht _)) fun b p3 h3 => h3
      · exact h1
    · intro p
      rw [parse_factorF]
      split
      all_goals first
        | exact guarded_thrown_line _ _ _ _
        | skip
      all_goals rename_i heq
      all_goals have hs := steps_consume (clean_of_type heq (by decide) (by decide))
      · split
        · exact hs
        · exact trivial
      · split
        · exact hs
        · exact trivial
      · exact hs
      · split
        · exact trivial
        · split
          · exact hs
          · exact trivial
      · split
        · exact sound_rebase hs (ihc _)
        · exact hs
      · refine guarded_bind (sound_rebase hs (ihe _)) fun b p3 h3 => ?_
        split
        · exact guarded_thrown_line _ _ _ _
        · rename_i hc
          simp only [ne_eq, not_not] at hc
          exact steps_trans h3 (steps_consume (clean_of_type hc (by decide) (by decide)))
      · exact guarded_bind (sound_rebase hs (ihe _)) fun b p3 h3 => h3
      · exact guarded_bind (sound_rebase hs (ihe _)) fun b p3 h3 => h3
    · intro p
      rw [parse_function_callF]
      split
      · exact guarded_thrown_line _ _ _ _
      · rename_i hlb
        simp only [ne_eq, not_not] at hlb
        have hs := steps_consume (clean_of_type hlb (by decide) (by decide))
        split
        · have ha := sound_after_rebase hs (iha (consume_token p))
          cases hr : parse_actual_paramsF L n (consume_token p) with
          | ok ps p1 =>
            rw [hr] at ha
            obtain ⟨q, hq, rfl⟩ := ha
            simp only [ok_bind]
            split
            · exact guarded_thrown_line _ _ _ _
            · rename_i hc
              simp only [ne_eq, not_not] at hc
              exact steps_trans hq (steps_consume (clean_of_type hc (by decide)
                (by decide)))
          | thrown e p1 =>
            rw [hr] at ha
            cases e <;> exact ha
          | null_deref p1 => rw [hr] at ha; exact ha
          | fuel => exact trivial
        · simp only [ok_bind]
          rw [if_pos (by rw [hlb]; decide)]
          exact guarded_thrown_line _ _ _ _
    · intro p
      rw [parse_actual_paramsF]
      refine guarded_bind (ihe _) fun b p3 h3 => ?_
      exact sound_after_rebase h3 (ihl _ _)
    · intro ps p
      rw [actual_params_loopF]
      split
      · rename_i hc
        have hs := steps_consume (clean_of_type hc (by decide) (by decide))
        refine guarded_bind (sound_rebase hs (ihe _)) fun b p3 h3 => ?_
        exact sound_after_rebase h3 (ihl _ _)
      · exact ⟨p, steps_refl p, rfl⟩

theorem parse_expression_sound (L : Toolchain) (p : Parser) :
    Sound p (parse_expression L p) :=
  (expr_sound L _).1 p

theorem parse_type_sound (identifier : String) (p : Parser) :
    Sound p (parse_type identifier (consume_token p)) := by
  unfold parse_type
  split
  all_goals first
    | exact guarded_thrown_line _ _ _ _
    | skip
  all_goals rename_i heq
  all_goals exact steps_consume (clean_of_type heq (by decide) (by decide))

theorem parse_formal_param_sound (p : Parser) :
    Sound p (parse_formal_param (consume_token p)) := by
  unfold parse_formal_param
  split
  · exact guarded_thrown_line _ _ _ _
  · rename_i hi
    simp only [ne_eq, not_not] at hi
    have h1 := steps_consume (clean_of_type hi (by decide) (by decide))
    dsimp only
    split
    · exact guarded_thrown_line _ _ _ _
    · rename_i hc
      simp only [ne_eq, not_not] at hc
      have h2 := steps_trans h1 (steps_consume (clean_of_type hc (by decide) (by decide)))
      exact guarded_bind (sound_rebase h2 (parse_type_sound _ _)) fun t p2 h3 => h3

theorem formal_params_loopF_sound : ∀ (n : Nat) (ps : List (String × TYPE)) (p : Parser),
    SoundAfter p (formal_params_loopF n ps (consume_token p)) := by
  intro n
  induction n with
  | zero => intro ps p; exact trivial
  | succ n ih =>
    intro ps p
    rw [formal_params_loopF]
    split
    · rename_i hc
      have hs := steps_consume (clean_of_type hc (by decide) (by decide))
      refine guarded_bind (sound_rebase hs (parse_formal_param_sound _)) fun a p1 h1 => ?_
      exact sound_after_rebase h1 (ih _ _)
    · exact ⟨p, steps_refl p, rfl⟩

theorem parse_formal_params_sound (p : Parser) :
    Sound p (parse_formal_params (consume_token p)) := by
  unfold parse_formal_params
  split
  · refine guarded_bind (parse_formal_param_sound p) fun a p1 h1 => ?_
    refine guarded_bind (sound_after_rebase h1 (formal_params_loopF_sound _ _ _))
      fun b p2 h2 => ?_
    obtain ⟨q, hq, rfl⟩ := h2
    split
    · exact guarded_thrown_line _ _ _ _
    · rename_i hc
      simp only [ne_eq, not_not] at hc
      exact steps_trans hq (steps_consume (clean_of_type hc (by decide) (by decide)))
  · rename_i hc
    simp only [ne_eq, not_not] at hc
    exact steps_consume (clean_of_type hc (by decide) (by decide))

theorem parse_declaration_statement_sound (L : Toolchain) (p : Parser) :
    Sound p (parse_declaration_statement L p) := by
  unfold parse_declaration_statement
  dsimp only
  split
  · exact guarded_thrown_line _ _ _ _
  · rename_i h1
    simp only [ne_eq, not_not] at h1
    have s1 := steps_consume (clean_of_type h1 (by decide) (by decide))
    split
    · exact guarded_thrown_line _ _ _ _
    · rename_i h2
      simp only [ne_eq, not_not] at h2
      have s2 := steps_trans s1 (steps_consume (clean_of_type h2 (by decide) (by decide)))
      refine guarded_bind (sound_rebase s2 (parse_type_sound _ _)) fun t p3 s3 => ?_
      split
      · exact guarded_thrown_line _ _ _ _
      · rename_i h4
        simp only [ne_eq, not_not] at h4
        have s4 := steps_trans s3 (steps_consume (clean_of_type h4 (by decide)
          (by decide)))
        refine guarded_bind (sound_rebase s4 (parse_expression_sound L _))
          fun e p5 s5 => ?_
        split
        · exact guarded_thrown_line _ _ _ _
        · rename_i h6
          simp only [ne_eq, not_not] at h6
          exact steps_trans s5 (steps_consume (clean_of_type h6 (by decide) (by decide)))

theorem parse_assignment_statement_sound (L : Toolchain) (p : Parser) :
    Sound p (parse_assignment_statement L p) := by
  unfold parse_assignment_statement
  dsimp only
  split
  · exact guarded_thrown_line _ _ _ _
  · rename_i h1
    simp only [ne_eq, not_not] at h1
    have s1 := steps_consume (clean_of_type h1 (by decide) (by decide))
    split
    · exact guarded_thrown_line _ _ _ _
    · rename_i h2
      simp only [ne_eq, not_not] at h2
      have s2 := steps_trans s1 (steps_consume (clean_of_type h2 (by decide) (by decide)))
      refine guarded_bind (sound_rebase s2 (parse_expression_sound L _))
        fun e p5 s5 => ?_
      split
      · exact guarded_thrown_line _ _ _ _
      · rename_i h6
        simp only [ne_eq, not_not] at h6
        exact steps_trans s5 (steps_consume (clean_of_type h6 (by decide) (by decide)))

theorem parse_print_statement_sound (L : Toolchain) (p : Parser) :
    Sound p (parse_print_statement L p) := by
  unfold parse_print_statement
  refine guarded_bind (parse_expression_sound L _) fun e p5 s5 => ?_
  dsimp only
  split
  · exact guarded_thrown_line _ _ _ _
  · rename_i h6
    simp only [ne_eq, not_not] at h6
    exact steps_trans s5 (steps_consume (clean_of_type h6 (by decide) (by decide)))

theorem parse_return_statement_sound (L : Toolchain) (p : Parser) :
    Sound p (parse_return_statement L p) := by
  unfold parse_return_statement
  refine guarded_bind (parse_expression_sound L _) fun e p5 s5 => ?_
  dsimp only
  split
  · exact guarded_thrown_line _ _ _ _
  · rename_i h6
    simp only [ne_eq, not_not] at h6
    exact steps_trans s5 (steps_consume (clean_of_type h6 (by decide) (by decide)))

theorem stmt_sound (L : Toolchain) : ∀ n,
    (∀ p, Sound p (parse_statementF L n p)) ∧
    (∀ p, Sound p (parse_blockF L n p)) ∧
    (∀ ss p, Sound p (block_loopF L n ss (consume_token p))) ∧
    (∀ p, Sound p (parse_if_statementF L n p)) ∧
    (∀ p, Sound p (parse_while_statementF L n p)) ∧
    (∀ p, Sound p (parse_function_definitionF L n p)) := by
  intro n
  induction n with
  | zero =>
    refine ⟨?_, ?_, ?_, ?_, ?_, ?_⟩ <;> intros <;> exact trivial
  | succ n ih =>
    obtain ⟨ihs, ihb, ihl, ihi, ihw, ihd⟩ := ih
    refine ⟨?_, ?_, ?_, ?_, ?_, ?_⟩
    · intro p
      rw [parse_statementF]
      split
      · exact parse_declaration_statement_sound L p
      · exact parse_assignment_statement_sound L p
      · exact parse_print_statement_sound L p
      · exact ihi p
      · exact ihw p
      · exact parse_return_statement_sound L p
      · exact ihd p
      · exact guarded_bind (ihb p) fun b p1 h1 => h1
      · exact guarded_thrown_line _ _ _ _
    · intro p
      rw [parse_blockF]
      exact ihl _ _
    · intro ss p
      rw [block_loopF]
      split
      · rename_i hc
        have hs : Steps p (consume_token p) := steps_consume ⟨hc.2.1, hc.2.2⟩
        refine guarded_bind (sound_rebase hs (ihs _)) fun a p1 h1 => ?_
        exact sound_rebase h1 (ihl _ _)
      · split
        · rename_i hc
          exact steps_consume (clean_of_type hc (by decide) (by decide))
        · exact Or.inl rfl
    · intro p
      rw [parse_if_statementF]
      dsimp only
      split
      · exact guarded_thrown_line _ _ _ _
      · rename_i h1
        simp only [ne_eq, not_not] at h1
        have s1 := steps_consume (clean_of_type h1 (by decide) (by decide))
        refine guarded_bind (sound_rebase s1 (parse_expression_sound L _))
          fun c p2 s2 => ?_
        split
        · exact guarded_thrown_line _ _ _ _
        · rename_i h3
          simp only [ne_eq, not_not] at h3
          have s3 := steps_trans s2 (steps_consume (clean_of_type h3 (by decide)
            (by decide)))
          split
          · exact guarded_thrown_line _ _ _ _
          · rename_i h4
            simp only [ne_eq, not_not] at h4
            have s4 := steps_trans s3 (steps_consume (clean_of_type h4 (by decide)
              (by decide)))
            refine guarded_bind (sound_rebase s4 (ihb _)) fun b p5 s5 => ?_
            split
            · exact s5
            · rename_i h6
              simp only [ne_eq, not_not] at h6
              have s6 := steps_trans s5 (steps_consume
                (clean_of_type (t := (consume_token p5).current_token) h6 (by decide)
                  (by decide)))
              split
              · exact guarded_thrown_line _ _ _ _
              · rename_i h7
                simp only [ne_eq, not_not] at h7
                have s7 := steps_trans s6 (steps_consume (clean_of_type h7 (by decide)
                  (by decide)))
                exact guarded_bind (sound_rebase s7 (ihb _)) fun b p8 s8 => s8
    · intro p
      rw [parse_while_statementF]
      dsimp only
      split
      · exact guarded_thrown_line _ _ _ _
      · rename_i h1
        simp only [ne_eq, not_not] at h1
        have s1 := steps_consume (clean_of_type h1 (by decide) (by decide))
        refine guarded_bind (sound_rebase s1 (parse_expression_sound L _))
          fun c p2 s2 => ?_
        split
        · exact guarded_thrown_line _ _ _ _
        · rename_i h3
          simp only [ne_eq, not_not] at h3
          have s3 := steps_trans s2 (steps_consume (clean_of_type h3 (by decide)
            (by decide)))
          split
          · exact guarded_thrown_line _ _ _ _
          · rename_i h4
            simp only [ne_eq, not_not] at h4
            have s4 := steps_trans s3 (steps_consume (clean_of_type h4 (by decide)
              (by decide)))
            exact guarded_bind (sound_rebase s4 (ihb _)) fun b p5 s5 => s5
    · intro p
      rw [parse_function_definitionF]
      dsimp only
      split
      · exact guarded_thrown_line _ _ _ _
      · rename_i h1
        simp only [ne_eq, not_not] at h1
        have s1 := steps_consume (clean_of_type h1 (by decide) (by decide))
        split
        · exact guarded_thrown_line _ _ _ _
        · rename_i h2
          simp only [ne_eq, not_not] at h2
          have s2 := steps_trans s1 (steps_consume (clean_of_type h2 (by decide)
            (by decide)))
          refine guarded_bind (sound_rebase s2 (parse_formal_params_sound _))
            fun ps p3 s3 => ?_
          split
          · exact guarded_thrown_line _ _ _ _
          · rename_i h4
            simp only [ne_eq, not_not] at h4
            have s4 := steps_trans s3 (steps_consume (clean_of_type h4 (by decide)
              (by decide)))
            refine guarded_bind (sound_rebase s4 (parse_type_sound _ _))
              fun t p5 s5 => ?_
            split
            · exact guarded_thrown_line _ _ _ _
            · rename_i h6
              simp only [ne_eq, not_not] at h6
              have s6 := steps_trans s5 (steps_consume (clean_of_type h6 (by decide)
                (by decide)))
              exact guarded_bind (sound_rebase s6 (ihb _)) fun b p7 s7 => s7

theorem parse_statement_sound (L : Toolchain) (p : Parser) :
    Sound p (parse_statement L p) :=
  (stmt_sound L _).1 p

theorem program_loopF_sound (L : Toolchain) :
    ∀ (n : Nat) (ss : List ASTStatementNode) (p : Parser),
      Guarded (fun p1 => StepsThenOne p p1 ∧ p1.current_token.type = TOKEN.TOK_EOF)
        (program_loopF L n ss (consume_token p)) := by
  intro n
  induction n with
  | zero => intro ss p; exact trivial
  | succ n ih =>
    intro ss p
    rw [program_loopF]
    split
    · rename_i hc
      cases hr : parse_statement L (consume_token p) with
      | ok s p1 =>
        have hne := (statement_start_ne_eof hr).2.1
        have hs : Steps p (consume_token p) := steps_consume ⟨hne, hc⟩
        have h1 : Steps (consume_token p) p1 := by
          have := parse_statement_sound L (consume_token p)
          rw [hr] at this
          exact this
        simp only [ok_bind]
        exact guarded_mono (fun _ h => ⟨⟨h.1.choose,
          steps_trans (steps_trans hs h1) h.1.choose_spec.1, h.1.choose_spec.2⟩, h.2⟩)
          (ih _ p1)
      | thrown e p1 =>
        have := parse_statement_sound L (consume_token p)
        rw [hr] at this
        cases e <;> exact this
      | null_deref p1 =>
        have := parse_statement_sound L (consume_token p)
        rw [hr] at this
        exact this
      | fuel => exact trivial
    · rename_i hc
      simp only [ne_eq, not_not] at hc
      exact ⟨⟨p, steps_refl p, rfl⟩, hc⟩

theorem program_loop_guarded (L : Toolchain) (ss : List ASTStatementNode) (p : Parser) :
    Guarded (fun p1 => (p1 = p ∨ (Clean p.current_token ∧ StepsThenOne p p1)) ∧
        p1.current_token.type = TOKEN.TOK_EOF) (program_loop L ss p) := by
  rw [program_loop_eq]
  split
  · rename_i hc
    cases hr : parse_statement L p with
    | ok s p1 =>
      have hne := (statement_start_ne_eof hr).2.1
      have h1 : Steps p p1 := by
        have := parse_statement_sound L p
        rw [hr] at this
        exact this
      simp only [ok_bind]
      exact guarded_mono (fun _ h => ⟨Or.inr ⟨⟨hne, hc⟩, h.1.choose,
        steps_trans h1 h.1.choose_spec.1, h.1.choose_spec.2⟩, h.2⟩)
        (program_loopF_sound L _ _ p1)
    | thrown e p1 =>
      have := parse_statement_sound L p
      rw [hr] at this
      cases e <;> exact this
    | null_deref p1 =>
      have := parse_statement_sound L p
      rw [hr] at this
      exact this
    | fuel => exact trivial
  · rename_i hc
    simp only [ne_eq, not_not] at hc
    exact ⟨Or.inl rfl, hc⟩

theorem mentions_of_parts (pre post : String) (n : Nat) :
    Mentions (pre ++ toString n ++ post) n :=
  ⟨pre.data, post.data, by simp [String.data_append]⟩

/-- C6, as stated, fails: for the input `{` followed by the end of the input (reported on
line 7), `parse_program` fails at the end-of-input token with the message of the open
block, which contains no line number. -/
theorem open_block_error_carries_no_line :
    parse_program example_lib (Parser.new ⟨[⟨TOKEN.TOK_LEFT_CURLY, "\x7b", 7⟩], "", 7⟩)
      = Result.thrown (Exception.runtime_error
          "Reached end of file while parsing. Mismatched scopes.")
          (Parser.reading ⟨TOKEN.TOK_EOF, "", 7⟩ [] "" 7) ∧
    ¬ Mentions "Reached end of file while parsing. Mismatched scopes." 7 := by
  refine ⟨rfl, ?_⟩
  unfold Mentions
  decide

/-- C6, amended: every `std::runtime_error` with which `parse_program` fails, other than
the open-block error "Reached end of file while parsing. Mismatched scopes.", has a
message that contains the decimal line number of the token that is current when it is
thrown. -/
theorem runtime_errors_carry_the_line (L : Toolchain) (p p1 : Parser) (msg : String)
    (h : parse_program L p = Result.thrown (Exception.runtime_error msg) p1) :
    msg = "Reached end of file while parsing. Mismatched scopes." ∨
      Mentions msg p1.current_token.line_number := by
  have hg := program_loop_guarded L [] p
  rw [show program_loop L [] p = parse_program L p from rfl, h] at hg
  rcases hg with hg | ⟨pre, post, rfl⟩
  · exact Or.inl hg
  · exact Or.inr (mentions_of_parts pre post _)

/-- C6, amended, at a concrete input: `print x` followed by the end of the input on
line 3. -/
theorem runtime_errors_carry_the_line_witness :
    Mentions "Expected ';' after print statement on line 3." 3 :=
  (runtime_errors_carry_the_line example_lib
    (Parser.new ⟨[⟨TOKEN.TOK_PRINT, "print", 1⟩, ⟨TOKEN.TOK_IDENTIFIER, "x", 1⟩], "", 3⟩)
    (Parser.reading ⟨TOKEN.TOK_EOF, "", 3⟩ [] "" 3)
    "Expected ';' after print statement on line 3." rfl).resolve_left (by decide)

/-- C14: parsing terminates on every finite token stream. For every parser state (a
finite list of pending tokens, followed by end-of-input tokens) `parse_program` returns
a program or throws an exception; it neither exhausts the budget of the model nor
dereferences a null pointer, and every budget of at least `size p + 1` loop iterations
gives the same result. -/
theorem parse_program_terminates (L : Toolchain) (p : Parser) :
    ((∃ prog p1, parse_program L p = Result.ok prog p1) ∨
      (∃ e p1, parse_program L p = Result.thrown e p1)) ∧
    ∀ m, size p + 1 ≤ m → program_loopF L m [] p = parse_program L p := by
  have hne : parse_program L p ≠ Result.fuel := program_loopF_ne_fuel L _ [] p (le_refl _)
  have hg := program_loop_guarded L [] p
  rw [show program_loop L [] p = parse_program L p from rfl] at hg
  refine ⟨?_, fun m hm => ?_⟩
  · cases hr : parse_program L p with
    | ok prog p1 => exact Or.inl ⟨prog, p1, rfl⟩
    | thrown e p1 => exact Or.inr ⟨e, p1, rfl⟩
    | null_deref p1 => rw [hr] at hg; exact absurd hg id
    | fuel => exact absurd hr hne
  · exact approx_eq (program_loopF_approx L m [] p) (program_loopF_ne_fuel L m [] p hm)

theorem consume_new (toks : List Token) (ev : String) (el : Nat) :
    consume_token (Parser.new ⟨toks, ev, el⟩) = Parser.new ⟨toks.tail, ev, el⟩ := by
  cases toks with
  | nil => rfl
  | cons t ts => rw [new_cons, consume_reading]; rfl

theorem current_after_consumes (ev : String) (el : Nat) : ∀ (i : Nat) (toks : List Token),
    (consume_token^[i] (Parser.new ⟨toks, ev, el⟩)).current_token
      = toks.getD i ⟨TOKEN.TOK_EOF, ev, el⟩ := by
  intro i
  induction i with
  | zero =>
    intro toks
    cases toks with
    | nil => rfl
    | cons t ts => rw [new_cons]; rfl
  | succ i ih =>
    intro toks
    rw [Function.iterate_succ_apply, consume_new, ih]
    cases toks <;> simp

theorem mem_takeWhile_index {α : Type} (P : α → Bool) (d : α) : ∀ (l : List α) (t : α),
    t ∈ l.takeWhile P → ∃ i, l.getD i d = t ∧ ∀ j, j ≤ i → P (l.getD j d) = true := by
  intro l
  induction l with
  | nil => intro t h; simp at h
  | cons a l ih =>
    intro t h
    rw [List.takeWhile_cons] at h
    split at h
    · rename_i ha
      rcases List.mem_cons.mp h with rfl | h
      · refine ⟨0, rfl, fun j hj => ?_⟩
        have : j = 0 := by omega
        subst this
        simpa using ha
      · obtain ⟨i, hi, hall⟩ := ih t h
        refine ⟨i + 1, by simpa using hi, fun j hj => ?_⟩
        cases j with
        | zero => simpa using ha
        | succ j => simpa using hall j (by omega)
    · simp at h

/-- C19: the parser never accepts a stream with a lexer error token in it. If
`parse_program` returns a program for a token stream, no token before the first
end-of-input token of the stream has kind `TOK_ERROR`. -/
theorem accepted_stream_has_no_error_token (L : Toolchain) (toks : List Token) (ev : String)
    (el : Nat) (prog : ASTProgramNode) (p1 : Parser)
    (h : parse_program L (Parser.new ⟨toks, ev, el⟩) = Result.ok prog p1) :
    ∀ t ∈ toks.takeWhile (fun t => decide (t.type ≠ TOKEN.TOK_EOF)),
      t.type ≠ TOKEN.TOK_ERROR := by
  intro t ht
  obtain ⟨i, hi, hall⟩ := mem_takeWhile_index _ ⟨TOKEN.TOK_EOF, ev, el⟩ toks t ht
  have hg := program_loop_guarded L [] (Parser.new ⟨toks, ev, el⟩)
  rw [show program_loop L [] (Parser.new ⟨toks, ev, el⟩)
    = parse_program L (Parser.new ⟨toks, ev, el⟩) from rfl, h] at hg
  obtain ⟨hcase, heof⟩ := hg
  rcases hcase with rfl | ⟨hclean, q, ⟨k, rfl, hk⟩, rfl⟩
  · have h0 := of_decide_eq_true (hall 0 (Nat.zero_le _))
    have hc := current_after_consumes ev el 0 toks
    simp only [Function.iterate_zero, id_eq] at hc
    rw [hc] at heof
    exact absurd heof h0
  · have hlast : (toks.getD (k + 1) ⟨TOKEN.TOK_EOF, ev, el⟩).type = TOKEN.TOK_EOF := by
      rw [← current_after_consumes ev el (k + 1) toks, Function.iterate_succ_apply']
      exact heof
    have hik : i ≤ k := by
      by_contra hgt
      exact of_decide_eq_true (hall (k + 1) (by omega)) hlast
    have hcl : Clean (toks.getD i ⟨TOKEN.TOK_EOF, ev, el⟩) := by
      rw [← current_after_consumes ev el i toks]
      cases i with
      | zero => exact hclean
      | succ i => exact hk (i + 1) (by omega) hik
    rw [hi] at hcl
    exact hcl.1

/-- C19, at a concrete input: `print x ;` is accepted and holds no error token. -/
theorem accepted_stream_has_no_error_token_witness :
    parse_program example_lib (Parser.new ⟨[⟨TOKEN.TOK_PRINT, "print", 1⟩,
        ⟨TOKEN.TOK_IDENTIFIER, "x", 1⟩, ⟨TOKEN.TOK_SEMICOLON, ";", 1⟩], "", 2⟩)
      = Result.ok ⟨[ASTStatementNode.print (ASTExprNode.identifier "x")]⟩
          (Parser.new ⟨[], "", 2⟩)
    ∧ (([(⟨TOKEN.TOK_PRINT, "print", 1⟩ : Token), ⟨TOKEN.TOK_IDENTIFIER, "x", 1⟩,
        ⟨TOKEN.TOK_SEMICOLON, ";", 1⟩].takeWhile
          (fun t => decide (t.type ≠ TOKEN.TOK_EOF))).all
        (fun t => decide (t.type ≠ TOKEN.TOK_ERROR))) = true :=
  ⟨rfl, List.all_eq_true.mpr (fun t ht => decide_eq_true
    (accepted_stream_has_no_error_token example_lib
      [⟨TOKEN.TOK_PRINT, "print", 1⟩, ⟨TOKEN.TOK_IDENTIFIER, "x", 1⟩,
        ⟨TOKEN.TOK_SEMICOLON, ";", 1⟩] "" 2
      ⟨[ASTStatementNode.print (ASTExprNode.identifier "x")]⟩
      (Parser.new ⟨[], "", 2⟩) rfl t ht))⟩

theorem bind_eq_ok {α β : Type} {r : Result α} {f : α → Parser → Result β}
    {v : β} {p2 : Parser} (h : r.bind f = Result.ok v p2) :
    ∃ a p1, r = Result.ok a p1 ∧ f a p1 = Result.ok v p2 := by
  cases r with
  | ok a p1 => exact ⟨a, p1, rfl, h⟩
  | thrown e p1 => simp at h
  | null_deref p1 => simp at h
  | fuel => simp [Result.bind] at h

theorem parse_declaration_statement_end {L : Toolchain} {p p1 : Parser}
    {s : ASTStatementNode} (h : parse_declaration_statement L p = Result.ok s p1) :
    p1.current_token.type = statement_end s := by
  unfold parse_declaration_statement at h
  dsimp only at h
  split at h
  · simp at h
  · split at h
    · simp at h
    · obtain ⟨t, p3, _, h⟩ := bind_eq_ok h
      split at h
      · simp at h
      · obtain ⟨e, p5, _, h⟩ := bind_eq_ok h
        split at h
        · simp at h
        · rename_i hc
          simp only [ne_eq, not_not] at hc
          simp only [Result.ok.injEq] at h
          obtain ⟨rfl, rfl⟩ := h
          exact hc

theorem parse_assignment_statement_end {L : Toolchain} {p p1 : Parser}
    {s : ASTStatementNode} (h : parse_assignment_statement L p = Result.ok s p1) :
    p1.current_token.type = statement_end s := by
  unfold parse_assignment_statement at h
  dsimp only at h
  split at h
  · simp at h
  · split at h
    · simp at h
    · obtain ⟨e, p5, _, h⟩ := bind_eq_ok h
      split at h
      · simp at h
      · rename_i hc
        simp only [ne_eq, not_not] at hc
        simp only [Result.ok.injEq] at h
        obtain ⟨rfl, rfl⟩ := h
        exact hc

theorem parse_print_statement_end {L : Toolchain} {p p1 : Parser}
    {s : ASTStatementNode} (h : parse_print_statement L p = Result.ok s p1) :
    p1.current_token.type = statement_end s := by
  unfold parse_print_statement at h
  obtain ⟨e, p5, _, h⟩ := bind_eq_ok h
  dsimp only at h
  split at h
  · simp at h
  · rename_i hc
    simp only [ne_eq, not_not] at hc
    simp only [Result.ok.injEq] at h
    obtain ⟨rfl, rfl⟩ := h
    exact hc

theorem parse_return_statement_end {L : Toolchain} {p p1 : Parser}
    {s : ASTStatementNode} (h : parse_return_statement L p = Result.ok s p1) :
    p1.current_token.type = statement_end s := by
  unfold parse_return_statement at h
  obtain ⟨e, p5, _, h⟩ := bind_eq_ok h
  dsimp only at h
  split at h
  · simp at h
  · rename_i hc
    simp only [ne_eq, not_not] at hc
    simp only [Result.ok.injEq] at h
    obtain ⟨rfl, rfl⟩ := h
    exact hc

theorem parse_if_statement_end {L : Toolchain} {p p1 : Parser}
    {s : ASTStatementNode} (h : parse_if_statement L p = Result.ok s p1) :
    p1.current_token.type = statement_end s := by
  rw [parse_if_statement_eq] at h
  split at h
  · simp at h
  · obtain ⟨c, p2, _, h⟩ := bind_eq_ok h
    split at h
    · simp at h
    · split at h
      · simp at h
      · obtain ⟨b, p5, hb, h⟩ := bind_eq_ok h
        split at h
        · simp only [Result.ok.injEq] at h
          obtain ⟨rfl, rfl⟩ := h
          exact parse_block_ends_on_brace hb
        · split at h
          · simp at h
          · obtain ⟨b2, p8, hb2, h⟩ := bind_eq_ok h
            simp only [Result.ok.injEq] at h
            obtain ⟨rfl, rfl⟩ := h
            exact parse_block_ends_on_brace hb2

theorem parse_while_statement_end {L : Toolchain} {p p1 : Parser}
    {s : ASTStatementNode} (h : parse_while_statement L p = Result.ok s p1) :
    p1.current_token.type = statement_end s := by
  rw [parse_while_statement_eq] at h
  split at h
  · simp at h
  · obtain ⟨c, p2, _, h⟩ := bind_eq_ok h
    split at h
    · simp at h
    · split at h
      · simp at h
      · obtain ⟨b, p5, hb, h⟩ := bind_eq_ok h
        simp only [Result.ok.injEq] at h
        obtain ⟨rfl, rfl⟩ := h
        exact parse_block_ends_on_brace hb

theorem parse_function_definition_end {L : Toolchain} {p p1 : Parser}
    {s : ASTStatementNode} (h : parse_function_definition L p = Result.ok s p1) :
    p1.current_token.type = statement_end s := by
  rw [parse_function_definition_eq] at h
  split at h
  · simp at h
  · split at h
    · simp at h
    · obtain ⟨ps, p3, _, h⟩ := bind_eq_ok h
      split at h
      · simp at h
      · obtain ⟨t, p5, _, h⟩ := bind_eq_ok h
        split at h
        · simp at h
        · obtain ⟨b, p7, hb, h⟩ := bind_eq_ok h
          simp only [Result.ok.injEq] at h
          obtain ⟨rfl, rfl⟩ := h
          exact parse_block_ends_on_brace hb

theorem parse_statement_end {L : Toolchain} {p p1 : Parser} {s : ASTStatementNode}
    (h : parse_statement L p = Result.ok s p1) :
    p1.current_token.type = statement_end s := by
  rw [parse_statement_eq] at h
  split at h
  · exact parse_declaration_statement_end h
  · exact parse_assignment_statement_end h
  · exact parse_print_statement_end h
  · exact parse_if_statement_end h
  · exact parse_while_statement_end h
  · exact parse_return_statement_end h
  · exact parse_function_definition_end h
  · obtain ⟨b, p5, hb, h⟩ := bind_eq_ok h
    simp only [Result.ok.injEq] at h
    obtain ⟨rfl, rfl⟩ := h
    exact parse_block_ends_on_brace hb
  · simp at h

/-- C20: whenever `parse_statement` returns a statement, the current token is the last
token of that statement, `;` for a declaration, assignment, print or return and `}` for a
block, if, while or function definition; the parser is the one it was entered with after
`k ≥ 1` calls of `consume_token`, all on tokens of the statement, so that its lookahead
is the first token after the statement; and the one `consume_token` that `parse_program`
and `parse_block` make after the statement puts their loops on that token. -/
theorem statement_leaves_parser_on_last_token (L : Toolchain) (p p1 : Parser)
    (s : ASTStatementNode) (h : parse_statement L p = Result.ok s p1) :
    p1.current_token.type = statement_end s ∧
    (∃ k, 1 ≤ k ∧ p1 = consume_token^[k] p ∧
      ∀ i, 1 ≤ i → i ≤ k → Clean (consume_token^[i] p).current_token) ∧
    (∀ acc, program_loop L acc p = program_loop L (acc ++ [s]) (consume_token p1)) ∧
    (∀ acc, block_loop L acc p = block_loop L (acc ++ [s]) (consume_token p1)) := by
  obtain ⟨n1, n2, n3⟩ := statement_start_ne_eof h
  refine ⟨parse_statement_end h, ?_, fun acc => ?_, fun acc => ?_⟩
  · have hs := parse_statement_sound L p
    rw [h] at hs
    obtain ⟨k, hk, hc⟩ := hs
    refine ⟨k, ?_, hk, hc⟩
    by_contra hlt
    have hz : k = 0 := by omega
    subst hz
    have hb := parse_statement_below L p s p1 h
    rw [hk] at hb
    simp at hb
  · rw [program_loop_eq, if_pos n3, h, ok_bind]
  · rw [block_loop_eq, if_pos ⟨n1, n2, n3⟩, h, ok_bind]

/-- C20, at a concrete input: `print x ;` followed by `return 1 ;`. The print statement
stops on its `;` with `return` as the lookahead. -/
theorem statement_leaves_parser_on_last_token_witness :
    (Parser.reading ⟨TOKEN.TOK_SEMICOLON, ";", 1⟩
        [⟨TOKEN.TOK_RETURN, "return", 2⟩, ⟨TOKEN.TOK_INT, "1", 2⟩,
          ⟨TOKEN.TOK_SEMICOLON, ";", 2⟩] "" 3).current_token.type
      = statement_end (ASTStatementNode.print (ASTExprNode.identifier "x")) :=
  (statement_leaves_parser_on_last_token example_lib
    (Parser.reading ⟨TOKEN.TOK_PRINT, "print", 1⟩
      [⟨TOKEN.TOK_IDENTIFIER, "x", 1⟩, ⟨TOKEN.TOK_SEMICOLON, ";", 1⟩,
        ⟨TOKEN.TOK_RETURN, "return", 2⟩, ⟨TOKEN.TOK_INT, "1", 2⟩,
        ⟨TOKEN.TOK_SEMICOLON, ";", 2⟩] "" 3)
    (Parser.reading ⟨TOKEN.TOK_SEMICOLON, ";", 1⟩
        [⟨TOKEN.TOK_RETURN, "return", 2⟩, ⟨TOKEN.TOK_INT, "1", 2⟩,
          ⟨TOKEN.TOK_SEMICOLON, ";", 2⟩] "" 3)
    (ASTStatementNode.print (ASTExprNode.identifier "x")) rfl).1

theorem binary_pair (L : Toolchain) (c a op b : Token) (rest : List Token) (ev : String)
    (el : Nat) (A B : ASTExprNode) (hA : IsPrimary L a A) (hB : IsPrimary L b B)
    (hop : op.type = TOKEN.TOK_RELATIONAL_OP ∨ op.type = TOKEN.TOK_ADDITIVE_OP ∨
      op.type = TOKEN.TOK_MULTIPLICATIVE_OP)
    (hend : EndsExpression (Parser.reading b rest ev el).next_token.type) :
    parse_expression L (Parser.reading c (a :: op :: b :: rest) ev el)
      = Result.ok (ASTExprNode.binary_expr (stored_text L (binary_site op.type) op b) A B)
          (Parser.reading b rest ev el) := by
  obtain ⟨e1, e2, e3, e4⟩ := hend
  have fb := primary_factor hB op rest ev el e4
  have tb := term_stop fb e3
  have sb := simple_stop tb e2
  have eb := expression_stop sb e1
  rcases hop with h | h | h
  · have fa := primary_factor hA c (op :: b :: rest) ev el (by simp [h])
    have sa := simple_stop (term_stop fa (by simp [h])) (by simp [h])
    simpa [binary_site, h] using expression_step sa (by simp [h]) (by simpa using eb)
  · have fa := primary_factor hA c (op :: b :: rest) ev el (by simp [h])
    have := simple_step (term_stop fa (by simp [h])) (by simp [h]) (by simpa using sb)
    simpa [binary_site, h] using expression_stop this e1
  · have fa := primary_factor hA c (op :: b :: rest) ev el (by simp [h])
    have := term_step fa (by simp [h]) (by simpa using tb)
    simpa [binary_site, h] using expression_stop (simple_stop this e2) e1

theorem parse_factor_unary (L : Toolchain) (p : Parser)
    (hu : (consume_token p).current_token.type = TOKEN.TOK_ADDITIVE_OP ∨
      (consume_token p).current_token.type = TOKEN.TOK_NOT) :
    parse_factor L p
      = (parse_expression L (consume_token p)).bind fun operand p1 =>
          Result.ok (ASTExprNode.unary_expr
            (stored_text L CallSite.unary (consume_token p).current_token p1.current_token)
            operand) p1 := by
  rw [parse_factor_eq]
  rcases hu with h | h <;> simp only [h, operator_text_eq]

/-- C16: a leading `+`, `-` or logical not in `parse_factor` yields `UnaryExpr(t, E)`
where `E` is what a full `parse_expression` builds from the tokens that follow, so the
operand extends over every following binary operator; the text `t` depends on the order
in which the implementation evaluates the arguments of
`new ASTUnaryExprNode(current_token.value, parse_expression())`: it is the operator text
where `current_token.value` is evaluated first, and the text of the last token of the
operand where the operand is parsed first. For primary operands `a`, `b` and a binary
operator `op`, `u a op b` parses to `UnaryExpr(t, BinaryExpr(s, A, B))`, where `t` and `s`
are the texts of `u` and `op` under the first order and both the text of `b` under the
second. -/
theorem unary_node_stored_text (L : Toolchain) (c u a op b : Token)
    (rest : List Token) (ev : String) (el : Nat) (A B : ASTExprNode)
    (hu : u.type = TOKEN.TOK_ADDITIVE_OP ∨ u.type = TOKEN.TOK_NOT) :
    (∀ ts, parse_factor L (Parser.reading c (u :: ts) ev el)
      = (parse_expression L (Parser.reading u ts ev el)).bind fun operand p1 =>
          Result.ok (ASTExprNode.unary_expr
            (stored_text L CallSite.unary u p1.current_token) operand) p1) ∧
    (IsPrimary L a A → IsPrimary L b B →
      (op.type = TOKEN.TOK_RELATIONAL_OP ∨ op.type = TOKEN.TOK_ADDITIVE_OP ∨
        op.type = TOKEN.TOK_MULTIPLICATIVE_OP) →
      EndsExpression (Parser.reading b rest ev el).next_token.type →
      parse_factor L (Parser.reading c (u :: a :: op :: b :: rest) ev el)
        = Result.ok (ASTExprNode.unary_expr (stored_text L CallSite.unary u b)
            (ASTExprNode.binary_expr (stored_text L (binary_site op.type) op b) A B))
            (Parser.reading b rest ev el)) := by
  have hgen : ∀ ts, parse_factor L (Parser.reading c (u :: ts) ev el)
      = (parse_expression L (Parser.reading u ts ev el)).bind fun operand p1 =>
          Result.ok (ASTExprNode.unary_expr
            (stored_text L CallSite.unary u p1.current_token) operand) p1 := by
    intro ts
    have := parse_factor_unary L (Parser.reading c (u :: ts) ev el)
      (by simpa using hu)
    simpa using this
  refine ⟨hgen, fun hA hB hop hend => ?_⟩
  rw [hgen, binary_pair L u a op b rest ev el A B hA hB hop hend, ok_bind]
  rfl

/-- C16, at the failing input `- x * y`, where the operand is parsed before the operator
text is read: the result is the negation node over the product node, and both nodes
store `y` instead of `-` and `*`. -/
theorem unary_node_stored_text_witness :
    parse_factor example_lib (Parser.reading ⟨TOKEN.TOK_PRINT, "print", 1⟩
        [⟨TOKEN.TOK_ADDITIVE_OP, "-", 1⟩, ⟨TOKEN.TOK_IDENTIFIER, "x", 1⟩,
          ⟨TOKEN.TOK_MULTIPLICATIVE_OP, "*", 1⟩, ⟨TOKEN.TOK_IDENTIFIER, "y", 1⟩] "" 2)
      = Result.ok (ASTExprNode.unary_expr "y" (ASTExprNode.binary_expr "y"
          (ASTExprNode.identifier "x") (ASTExprNode.identifier "y")))
          (Parser.reading ⟨TOKEN.TOK_IDENTIFIER, "y", 1⟩ [] "" 2) :=
  (unary_node_stored_text example_lib ⟨TOKEN.TOK_PRINT, "print", 1⟩
    ⟨TOKEN.TOK_ADDITIVE_OP, "-", 1⟩ ⟨TOKEN.TOK_IDENTIFIER, "x", 1⟩
    ⟨TOKEN.TOK_MULTIPLICATIVE_OP, "*", 1⟩ ⟨TOKEN.TOK_IDENTIFIER, "y", 1⟩ [] "" 2
    (ASTExprNode.identifier "x") (ASTExprNode.identifier "y") (Or.inl rfl)).2
    ⟨Or.inr (Or.inr (Or.inr (Or.inr rfl))), fun _ _ _ => rfl⟩
    ⟨Or.inr (Or.inr (Or.inr (Or.inr rfl))), fun _ _ _ => rfl⟩
    (Or.inr (Or.inr rfl)) ⟨by decide, by decide, by decide, by decide⟩

/-- C11, as stated, fails: `- x * y` does not parse to the product of `- x` and `y`,
whichever argument of a node constructor is evaluated first; the result is a unary node
over the product node. -/
theorem unary_minus_does_not_bind_tighter :
    (∃ s1 s2, parse_expression example_lib (Parser.reading ⟨TOKEN.TOK_PRINT, "print", 1⟩
        [⟨TOKEN.TOK_ADDITIVE_OP, "-", 1⟩, ⟨TOKEN.TOK_IDENTIFIER, "x", 1⟩,
          ⟨TOKEN.TOK_MULTIPLICATIVE_OP, "*", 1⟩, ⟨TOKEN.TOK_IDENTIFIER, "y", 1⟩] "" 2)
      = Result.ok (ASTExprNode.unary_expr s1 (ASTExprNode.binary_expr s2
          (ASTExprNode.identifier "x") (ASTExprNode.identifier "y")))
          (Parser.reading ⟨TOKEN.TOK_IDENTIFIER, "y", 1⟩ [] "" 2)) ∧
    (∃ s1 s2, parse_expression in_order_lib (Parser.reading ⟨TOKEN.TOK_PRINT, "print", 1⟩
        [⟨TOKEN.TOK_ADDITIVE_OP, "-", 1⟩, ⟨TOKEN.TOK_IDENTIFIER, "x", 1⟩,
          ⟨TOKEN.TOK_MULTIPLICATIVE_OP, "*", 1⟩, ⟨TOKEN.TOK_IDENTIFIER, "y", 1⟩] "" 2)
      = Result.ok (ASTExprNode.unary_expr s1 (ASTExprNode.binary_expr s2
          (ASTExprNode.identifier "x") (ASTExprNode.identifier "y")))
          (Parser.reading ⟨TOKEN.TOK_IDENTIFIER, "y", 1⟩ [] "" 2)) ∧
    (∀ p1, parse_expression example_lib (Parser.reading ⟨TOKEN.TOK_PRINT, "print", 1⟩
        [⟨TOKEN.TOK_ADDITIVE_OP, "-", 1⟩, ⟨TOKEN.TOK_IDENTIFIER, "x", 1⟩,
          ⟨TOKEN.TOK_MULTIPLICATIVE_OP, "*", 1⟩, ⟨TOKEN.TOK_IDENTIFIER, "y", 1⟩] "" 2)
      ≠ Result.ok (ASTExprNode.binary_expr "*" (ASTExprNode.unary_expr "-"
          (ASTExprNode.identifier "x")) (ASTExprNode.identifier "y")) p1) ∧
    (∀ p1, parse_expression in_order_lib (Parser.reading ⟨TOKEN.TOK_PRINT, "print", 1⟩
        [⟨TOKEN.TOK_ADDITIVE_OP, "-", 1⟩, ⟨TOKEN.TOK_IDENTIFIER, "x", 1⟩,
          ⟨TOKEN.TOK_MULTIPLICATIVE_OP, "*", 1⟩, ⟨TOKEN.TOK_IDENTIFIER, "y", 1⟩] "" 2)
      ≠ Result.ok (ASTExprNode.binary_expr "*" (ASTExprNode.unary_expr "-"
          (ASTExprNode.identifier "x")) (ASTExprNode.identifier "y")) p1) := by
  have h : parse_expression example_lib (Parser.reading ⟨TOKEN.TOK_PRINT, "print", 1⟩
        [⟨TOKEN.TOK_ADDITIVE_OP, "-", 1⟩, ⟨TOKEN.TOK_IDENTIFIER, "x", 1⟩,
          ⟨TOKEN.TOK_MULTIPLICATIVE_OP, "*", 1⟩, ⟨TOKEN.TOK_IDENTIFIER, "y", 1⟩] "" 2)
      = Result.ok (ASTExprNode.unary_expr "y" (ASTExprNode.binary_expr "y"
          (ASTExprNode.identifier "x") (ASTExprNode.identifier "y")))
          (Parser.reading ⟨TOKEN.TOK_IDENTIFIER, "y", 1⟩ [] "" 2) := rfl
  have h2 : parse_expression in_order_lib (Parser.reading ⟨TOKEN.TOK_PRINT, "print", 1⟩
        [⟨TOKEN.TOK_ADDITIVE_OP, "-", 1⟩, ⟨TOKEN.TOK_IDENTIFIER, "x", 1⟩,
          ⟨TOKEN.TOK_MULTIPLICATIVE_OP, "*", 1⟩, ⟨TOKEN.TOK_IDENTIFIER, "y", 1⟩] "" 2)
      = Result.ok (ASTExprNode.unary_expr "-" (ASTExprNode.binary_expr "*"
          (ASTExprNode.identifier "x") (ASTExprNode.identifier "y")))
          (Parser.reading ⟨TOKEN.TOK_IDENTIFIER, "y", 1⟩ [] "" 2) := rfl
  refine ⟨⟨_, _, h⟩, ⟨_, _, h2⟩, fun p1 hp => ?_, fun p1 hp => ?_⟩
  · rw [h] at hp
    simp at hp
  · rw [h2] at hp
    simp at hp

/-- C11, amended: a unary operator takes the whole following expression as its operand.
For a unary operator `u` (`+`, `-` or logical not), primary operands `a`, `b` and a binary
operator `op`, `parse_expression` on `u a op b` returns a `UnaryExpr` node whose operand
is the `BinaryExpr` node with the operands `A` and `B`, and stops on `b`; the two nodes
store the texts of `u` and of `op` where the implementation evaluates
`current_token.value` before it parses the operand. -/
theorem unary_binds_looser_than_binary (L : Toolchain) (c u a op b : Token)
    (rest : List Token) (ev : String) (el : Nat) (A B : ASTExprNode)
    (hu : u.type = TOKEN.TOK_ADDITIVE_OP ∨ u.type = TOKEN.TOK_NOT)
    (hA : IsPrimary L a A) (hB : IsPrimary L b B)
    (hop : op.type = TOKEN.TOK_RELATIONAL_OP ∨ op.type = TOKEN.TOK_ADDITIVE_OP ∨
      op.type = TOKEN.TOK_MULTIPLICATIVE_OP)
    (hend : EndsExpression (Parser.reading b rest ev el).next_token.type) :
    ∃ s1 s2 : String,
      parse_expression L (Parser.reading c (u :: a :: op :: b :: rest) ev el)
        = Result.ok (ASTExprNode.unary_expr s1 (ASTExprNode.binary_expr s2 A B))
            (Parser.reading b rest ev el) ∧
      (L.operator_first CallSite.unary = true → s1 = u.value) ∧
      (L.operator_first (binary_site op.type) = true → s2 = op.value) := by
  have hf : parse_factor L (Parser.reading c (u :: a :: op :: b :: rest) ev el)
      = Result.ok (ASTExprNode.unary_expr (stored_text L CallSite.unary u b)
          (ASTExprNode.binary_expr (stored_text L (binary_site op.type) op b) A B))
          (Parser.reading b rest ev el) := by
    have := parse_factor_unary L (Parser.reading c (u :: a :: op :: b :: rest) ev el)
      (by simpa using hu)
    rw [this, consume_reading_cons, binary_pair L u a op b rest ev el A B hA hB hop hend,
      ok_bind]
    simp
  refine ⟨_, _, expression_stop (simple_stop (term_stop hf hend.2.2.1) hend.2.1) hend.1,
    fun h => ?_, fun h => ?_⟩
  · simp [stored_text, h]
  · simp [stored_text, h]

/-- C11, amended, at a concrete input: `not x < y` is a unary node over the comparison
node of `x` and `y`. -/
theorem unary_binds_looser_than_binary_witness :
    ∃ s1 s2 : String,
      parse_expression example_lib (Parser.reading ⟨TOKEN.TOK_PRINT, "print", 1⟩
        [⟨TOKEN.TOK_NOT, "not", 1⟩, ⟨TOKEN.TOK_IDENTIFIER, "x", 1⟩,
          ⟨TOKEN.TOK_RELATIONAL_OP, "<", 1⟩, ⟨TOKEN.TOK_IDENTIFIER, "y", 1⟩] "" 2)
        = Result.ok (ASTExprNode.unary_expr s1 (ASTExprNode.binary_expr s2
            (ASTExprNode.identifier "x") (ASTExprNode.identifier "y")))
            (Parser.reading ⟨TOKEN.TOK_IDENTIFIER, "y", 1⟩ [] "" 2) ∧
      (example_lib.operator_first CallSite.unary = true → s1 = "not") ∧
      (example_lib.operator_first CallSite.relational = true → s2 = "<") :=
  unary_binds_looser_than_binary example_lib ⟨TOKEN.TOK_PRINT, "print", 1⟩
    ⟨TOKEN.TOK_NOT, "not", 1⟩ ⟨TOKEN.TOK_IDENTIFIER, "x", 1⟩
    ⟨TOKEN.TOK_RELATIONAL_OP, "<", 1⟩ ⟨TOKEN.TOK_IDENTIFIER, "y", 1⟩ [] "" 2
    (ASTExprNode.identifier "x") (ASTExprNode.identifier "y") (Or.inr rfl)
    ⟨Or.inr (Or.inr (Or.inr (Or.inr rfl))), fun _ _ _ => rfl⟩
    ⟨Or.inr (Or.inr (Or.inr (Or.inr rfl))), fun _ _ _ => rfl⟩
    (Or.inl rfl) ⟨by decide, by decide, by decide, by decide⟩

/-- C12: `parse_statement` dispatches on the kind of the current token only: `var`,
`set`, `print`, `if`, `while`, `return`, `def` and `{` select the declaration, assignment,
print, if, while, return, function-definition and block routine, and every other kind
makes it throw "Invalid statement starting with '<text>' encountered on line <line>."
built from the text and line of that token, with the parser unchanged. -/
theorem statement_dispatch (L : Toolchain) (p : Parser) :
    (p.current_token.type = TOKEN.TOK_VAR →
      parse_statement L p = parse_declaration_statement L p) ∧
    (p.current_token.type = TOKEN.TOK_SET →
      parse_statement L p = parse_assignment_statement L p) ∧
    (p.current_token.type = TOKEN.TOK_PRINT →
      parse_statement L p = parse_print_statement L p) ∧
    (p.current_token.type = TOKEN.TOK_IF →
      parse_statement L p = parse_if_statement L p) ∧
    (p.current_token.type = TOKEN.TOK_WHILE →
      parse_statement L p = parse_while_statement L p) ∧
    (p.current_token.type = TOKEN.TOK_RETURN →
      parse_statement L p = parse_return_statement L p) ∧
    (p.current_token.type = TOKEN.TOK_DEF →
      parse_statement L p = parse_function_definition L p) ∧
    (p.current_token.type = TOKEN.TOK_LEFT_CURLY →
      parse_statement L p = (parse_block L p).bind fun statements p1 =>
        Result.ok (ASTStatementNode.block statements) p1) ∧
    (p.current_token.type ≠ TOKEN.TOK_VAR → p.current_token.type ≠ TOKEN.TOK_SET →
      p.current_token.type ≠ TOKEN.TOK_PRINT → p.current_token.type ≠ TOKEN.TOK_IF →
      p.current_token.type ≠ TOKEN.TOK_WHILE → p.current_token.type ≠ TOKEN.TOK_RETURN →
      p.current_token.type ≠ TOKEN.TOK_DEF →
      p.current_token.type ≠ TOKEN.TOK_LEFT_CURLY →
      parse_statement L p
        = Result.thrown (Exception.runtime_error ("Invalid statement starting with '"
            ++ p.current_token.value ++ "' encountered on line "
            ++ toString p.current_token.line_number ++ ".")) p) := by
  rw [parse_statement_eq]
  refine ⟨?_, ?_, ?_, ?_, ?_, ?_, ?_, ?_, ?_⟩
  all_goals intro h
  all_goals first
    | rw [h]
    | skip
  intro h2 h3 h4 h5 h6 h7 h8
  split <;> first | rfl | contradiction

/-- C12, at a concrete input: a statement cannot start with `else`. -/
theorem statement_dispatch_witness :
    parse_statement example_lib (Parser.reading ⟨TOKEN.TOK_ELSE, "else", 4⟩ [] "" 5)
      = Result.thrown (Exception.runtime_error
          "Invalid statement starting with 'else' encountered on line 4.")
          (Parser.reading ⟨TOKEN.TOK_ELSE, "else", 4⟩ [] "" 5) :=
  (statement_dispatch example_lib
    (Parser.reading ⟨TOKEN.TOK_ELSE, "else", 4⟩ [] "" 5)).2.2.2.2.2.2.2.2
    (by decide) (by decide) (by decide) (by decide) (by decide) (by decide) (by decide)
    (by decide)

/-- C13: `parse_type` returns `INT`, `REAL`, `BOOL` or `STRING` exactly when the current
token is the `int`, `real`, `bool` or `string` type keyword; for every other kind it throws
"Expected type for <identifier> after ':' on line <line>." with the identifier passed in
and the line of the current token; in both cases the parser is unchanged. -/
theorem parse_type_maps_keywords (identifier : String) (p : Parser) :
    (p.current_token.type = TOKEN.TOK_INT_TYPE →
      parse_type identifier p = Result.ok TYPE.INT p) ∧
    (p.current_token.type = TOKEN.TOK_REAL_TYPE →
      parse_type identifier p = Result.ok TYPE.REAL p) ∧
    (p.current_token.type = TOKEN.TOK_BOOL_TYPE →
      parse_type identifier p = Result.ok TYPE.BOOL p) ∧
    (p.current_token.type = TOKEN.TOK_STRING_TYPE →
      parse_type identifier p = Result.ok TYPE.STRING p) ∧
    (p.current_token.type ≠ TOKEN.TOK_INT_TYPE →
      p.current_token.type ≠ TOKEN.TOK_REAL_TYPE →
      p.current_token.type ≠ TOKEN.TOK_BOOL_TYPE →
      p.current_token.type ≠ TOKEN.TOK_STRING_TYPE →
      parse_type identifier p
        = Result.thrown (Exception.runtime_error ("Expected type for " ++ identifier
            ++ " after ':' on line " ++ toString p.current_token.line_number ++ "."))
            p) ∧
    (∀ T p1, parse_type identifier p = Result.ok T p1 →
      p.current_token.type = type_keyword T ∧ p1 = p) := by
  refine ⟨?_, ?_, ?_, ?_, ?_, ?_⟩
  · intro h
    exact parse_type_keyword identifier p TYPE.INT h
  · intro h
    exact parse_type_keyword identifier p TYPE.REAL h
  · intro h
    exact parse_type_keyword identifier p TYPE.BOOL h
  · intro h
    exact parse_type_keyword identifier p TYPE.STRING h
  · intro h1 h2 h3 h4
    apply parse_type_not_keyword
    intro T
    cases T <;> simpa [type_keyword]
  · intro T p1 h
    refine ⟨?_, parse_type_state h⟩
    unfold parse_type at h
    split at h
    all_goals simp only [Result.ok.injEq, reduceCtorEq] at h
    all_goals obtain ⟨rfl, -⟩ := h
    all_goals assumption

/-- C13, at a concrete input: an identifier where a type is due. -/
theorem parse_type_maps_keywords_witness :
    parse_type "x" (Parser.reading ⟨TOKEN.TOK_IDENTIFIER, "y", 6⟩ [] "" 7)
      = Result.thrown (Exception.runtime_error
          "Expected type for x after ':' on line 6.")
          (Parser.reading ⟨TOKEN.TOK_IDENTIFIER, "y", 6⟩ [] "" 7) :=
  (parse_type_maps_keywords "x"
    (Parser.reading ⟨TOKEN.TOK_IDENTIFIER, "y", 6⟩ [] "" 7)).2.2.2.2.1
    (by decide) (by decide) (by decide) (by decide)

theorem parse_factor_bracket (L : Toolchain) (p : Parser)
    (h : (consume_token p).current_token.type = TOKEN.TOK_LEFT_BRACKET) :
    parse_factor L p
      = (parse_expression L (consume_token p)).bind fun sub_expr p1 =>
          if (consume_token p1).current_token.type ≠ TOKEN.TOK_RIGHT_BRACKET then
            Result.thrown (Exception.runtime_error
              ("Expected ')' after expression on line "
                ++ toString (consume_token p1).current_token.line_number ++ "."))
              (consume_token p1)
          else Result.ok sub_expr (consume_token p1) := by
  rw [parse_factor_eq]
  simp only [h]

/-- C18: parentheses are transparent and must be matched. When `parse_factor` consumes
`(` and `parse_expression` builds `E` from the tokens that follow, it returns `E` itself
and consumes the next token if that token is `)`, and throws "Expected ')' after
expression on line <line>." on that token otherwise. Consequently `( a + b ) * d` parses
to `BinaryExpr(t, BinaryExpr(s, A, B), D)`; the texts `t` and `s` depend on the order in
which the implementation evaluates the arguments of
`new ASTBinaryExprNode(current_token.value, left, parse_x())`: they are the texts of `*`
and `+` where `current_token.value` is evaluated first, and the texts of `d` and `b`
where the right operand is parsed first. -/
theorem bracketed_operand_stored_text (L : Toolchain) (c lp a plus b rp star d : Token)
    (rest : List Token) (ev : String) (el : Nat) (A B D : ASTExprNode)
    (hlp : lp.type = TOKEN.TOK_LEFT_BRACKET) :
    (∀ (ts : List Token) (E : ASTExprNode) (p1 : Parser),
      parse_expression L (Parser.reading lp ts ev el) = Result.ok E p1 →
      ((consume_token p1).current_token.type = TOKEN.TOK_RIGHT_BRACKET →
        parse_factor L (Parser.reading c (lp :: ts) ev el)
          = Result.ok E (consume_token p1)) ∧
      ((consume_token p1).current_token.type ≠ TOKEN.TOK_RIGHT_BRACKET →
        parse_factor L (Parser.reading c (lp :: ts) ev el)
          = Result.thrown (Exception.runtime_error
              ("Expected ')' after expression on line "
                ++ toString (consume_token p1).current_token.line_number ++ "."))
              (consume_token p1))) ∧
    (IsPrimary L a A → IsPrimary L b B → IsPrimary L d D →
      plus.type = TOKEN.TOK_ADDITIVE_OP → rp.type = TOKEN.TOK_RIGHT_BRACKET →
      star.type = TOKEN.TOK_MULTIPLICATIVE_OP →
      EndsExpression (Parser.reading d rest ev el).next_token.type →
      parse_expression L
          (Parser.reading c (lp :: a :: plus :: b :: rp :: star :: d :: rest) ev el)
        = Result.ok (ASTExprNode.binary_expr (stored_text L CallSite.multiplicative star d)
            (ASTExprNode.binary_expr (stored_text L CallSite.additive plus b) A B) D)
            (Parser.reading d rest ev el)) := by
  have hgen : ∀ (ts : List Token), parse_factor L (Parser.reading c (lp :: ts) ev el)
      = (parse_expression L (Parser.reading lp ts ev el)).bind fun sub_expr p1 =>
          if (consume_token p1).current_token.type ≠ TOKEN.TOK_RIGHT_BRACKET then
            Result.thrown (Exception.runtime_error
              ("Expected ')' after expression on line "
                ++ toString (consume_token p1).current_token.line_number ++ "."))
              (consume_token p1)
          else Result.ok sub_expr (consume_token p1) := by
    intro ts
    have := parse_factor_bracket L (Parser.reading c (lp :: ts) ev el) (by simpa using hlp)
    simpa using this
  refine ⟨fun ts E p1 hE => ⟨fun h => ?_, fun h => ?_⟩, ?_⟩
  · rw [hgen, hE, ok_bind]
    simp [h]
  · rw [hgen, hE, ok_bind]
    simp [h]
  · intro hA hB hD hplus hrp hstar hend
    have hin := binary_pair L lp a plus b (rp :: star :: d :: rest) ev el A B hA hB
      (Or.inr (Or.inl hplus)) (by simp [EndsExpression, hrp])
    have hf : parse_factor L
        (Parser.reading c (lp :: a :: plus :: b :: rp :: star :: d :: rest) ev el)
        = Result.ok (ASTExprNode.binary_expr (stored_text L CallSite.additive plus b) A B)
            (Parser.reading rp (star :: d :: rest) ev el) := by
      rw [hgen, hin, ok_bind]
      simp [hrp, hplus, binary_site]
    have fd := primary_factor hD star rest ev el hend.2.2.2
    have td := term_stop fd hend.2.2.1
    have ht := term_step hf (by simp [hstar]) (by simpa using td)
    simpa using expression_stop (simple_stop ht hend.2.1) hend.1

/-- C18, at the failing input `( x + y ) * z`, where the right operand is parsed before
the operator text is read: the sum node is the left operand of the product node itself,
the product node stores `z` and the sum node stores `y`. -/
theorem bracketed_operand_stored_text_witness :
    parse_expression example_lib (Parser.reading ⟨TOKEN.TOK_PRINT, "print", 1⟩
        [⟨TOKEN.TOK_LEFT_BRACKET, "(", 1⟩, ⟨TOKEN.TOK_IDENTIFIER, "x", 1⟩,
          ⟨TOKEN.TOK_ADDITIVE_OP, "+", 1⟩, ⟨TOKEN.TOK_IDENTIFIER, "y", 1⟩,
          ⟨TOKEN.TOK_RIGHT_BRACKET, ")", 1⟩, ⟨TOKEN.TOK_MULTIPLICATIVE_OP, "*", 1⟩,
          ⟨TOKEN.TOK_IDENTIFIER, "z", 1⟩] "" 2)
      = Result.ok (ASTExprNode.binary_expr "z" (ASTExprNode.binary_expr "y"
          (ASTExprNode.identifier "x") (ASTExprNode.identifier "y"))
          (ASTExprNode.identifier "z"))
          (Parser.reading ⟨TOKEN.TOK_IDENTIFIER, "z", 1⟩ [] "" 2) :=
  (bracketed_operand_stored_text example_lib ⟨TOKEN.TOK_PRINT, "print", 1⟩
    ⟨TOKEN.TOK_LEFT_BRACKET, "(", 1⟩ ⟨TOKEN.TOK_IDENTIFIER, "x", 1⟩
    ⟨TOKEN.TOK_ADDITIVE_OP, "+", 1⟩ ⟨TOKEN.TOK_IDENTIFIER, "y", 1⟩
    ⟨TOKEN.TOK_RIGHT_BRACKET, ")", 1⟩ ⟨TOKEN.TOK_MULTIPLICATIVE_OP, "*", 1⟩
    ⟨TOKEN.TOK_IDENTIFIER, "z", 1⟩ [] "" 2
    (ASTExprNode.identifier "x") (ASTExprNode.identifier "y") (ASTExprNode.identifier "z")
    rfl).2
    ⟨Or.inr (Or.inr (Or.inr (Or.inr rfl))), fun _ _ _ => rfl⟩
    ⟨Or.inr (Or.inr (Or.inr (Or.inr rfl))), fun _ _ _ => rfl⟩
    ⟨Or.inr (Or.inr (Or.inr (Or.inr rfl))), fun _ _ _ => rfl⟩ rfl rfl rfl
    ⟨by decide, by decide, by decide, by decide⟩

theorem expression_start_not_closing {L : Toolchain} {q q1 : Parser} {E : ASTExprNode}
    (h : parse_expression L q = Result.ok E q1) :
    q.next_token.type ≠ TOKEN.TOK_RIGHT_BRACKET := by
  rw [parse_expression_eq] at h
  obtain ⟨a1, p1, h, _⟩ := bind_eq_ok h
  rw [parse_simple_expression_eq] at h
  obtain ⟨a2, p2, h, _⟩ := bind_eq_ok h
  rw [parse_term_eq] at h
  obtain ⟨a3, p3, h, _⟩ := bind_eq_ok h
  rw [parse_factor_eq] at h
  intro hc
  have hc2 : (consume_token q).current_token.type = TOKEN.TOK_RIGHT_BRACKET := hc
  simp only [hc2] at h
  simp at h

theorem actual_params_of_chain (L : Toolchain) : ∀ (Es : List ASTExprNode)
    (acc : List ASTExprNode) (q q' : Parser), ArgChain L Es q q' →
    ((parse_expression L q).bind fun e q1 =>
      actual_params_loop L (acc ++ [e]) (consume_token q1))
      = Result.ok (acc ++ Es) q' := by
  intro Es
  induction Es with
  | nil => intro acc q q' h; exact absurd h id
  | cons E Es ih =>
    intro acc q q' h
    cases Es with
    | nil =>
      obtain ⟨q1, hE, rfl, hc⟩ := h
      rw [hE, ok_bind, actual_params_loop_eq, if_neg hc]
    | cons E2 Es =>
      obtain ⟨q1, hE, hc, hrest⟩ := h
      rw [hE, ok_bind, actual_params_loop_eq, if_pos hc, ih (acc ++ [E]) _ _ hrest]
      simp

/-- C17: an identifier is parsed as a function call exactly when the next token is `(`,
and otherwise as `Identifier(name)` with no further token consumed. A call
`f ( e1 , ... , en )` with `n ≥ 1` argument expressions parsing to `E1 .. En` returns
`FunctionCall(f, [E1, ..., En])` with the current token on the closing `)`; a token other
than `,` or `)` after an argument makes the call throw "Expected ')' on line <line> after
function parameters.". -/
theorem identifier_or_function_call (L : Toolchain) (c f lp : Token) (ts : List Token)
    (ev : String) (el : Nat) (hf : f.type = TOKEN.TOK_IDENTIFIER) :
    (lp.type = TOKEN.TOK_LEFT_BRACKET →
      parse_factor L (Parser.reading c (f :: lp :: ts) ev el)
        = parse_function_call L (Parser.reading f (lp :: ts) ev el)) ∧
    ((Parser.reading f ts ev el).next_token.type ≠ TOKEN.TOK_LEFT_BRACKET →
      parse_factor L (Parser.reading c (f :: ts) ev el)
        = Result.ok (ASTExprNode.identifier f.value) (Parser.reading f ts ev el)) ∧
    (lp.type = TOKEN.TOK_LEFT_BRACKET →
      ∀ (Es : List ASTExprNode) (q' : Parser),
        ArgChain L Es (Parser.reading lp ts ev el) q' →
        (q'.current_token.type = TOKEN.TOK_RIGHT_BRACKET →
          parse_factor L (Parser.reading c (f :: lp :: ts) ev el)
            = Result.ok (ASTExprNode.function_call f.value Es) q') ∧
        (q'.current_token.type ≠ TOKEN.TOK_RIGHT_BRACKET →
          parse_factor L (Parser.reading c (f :: lp :: ts) ev el)
            = Result.thrown (Exception.runtime_error ("Expected ')' on line "
                ++ toString q'.current_token.line_number
                ++ " after function parameters.")) q')) := by
  have hcall : lp.type = TOKEN.TOK_LEFT_BRACKET →
      parse_factor L (Parser.reading c (f :: lp :: ts) ev el)
        = parse_function_call L (Parser.reading f (lp :: ts) ev el) := by
    intro hlp
    rw [parse_factor_eq]
    simp [hf, hlp]
  refine ⟨hcall, fun hn => ?_, fun hlp Es q' hchain => ?_⟩
  · rw [parse_factor_eq]
    simp only [consume_reading_cons, reading_current, hf]
    rw [if_neg hn]
  · have hfirst : (Parser.reading lp ts ev el).next_token.type
        ≠ TOKEN.TOK_RIGHT_BRACKET := by
      cases Es with
      | nil => exact absurd hchain id
      | cons E Es =>
        cases Es with
        | nil =>
          obtain ⟨q1, hE, _, _⟩ := hchain
          exact expression_start_not_closing hE
        | cons E2 Es =>
          obtain ⟨q1, hE, _, _⟩ := hchain
          exact expression_start_not_closing hE
    have hps : parse_actual_params L (Parser.reading lp ts ev el) = Result.ok Es q' := by
      rw [parse_actual_params_eq]
      simpa using actual_params_of_chain L Es [] _ _ hchain
    have hfc : parse_function_call L (Parser.reading f (lp :: ts) ev el)
        = if q'.current_token.type ≠ TOKEN.TOK_RIGHT_BRACKET then
            Result.thrown (Exception.runtime_error ("Expected ')' on line "
              ++ toString q'.current_token.line_number
              ++ " after function parameters.")) q'
          else Result.ok (ASTExprNode.function_call f.value Es) q' := by
      rw [parse_function_call_eq]
      simp only [consume_reading_cons, reading_current]
      rw [if_neg (by simp [hlp]), if_pos hfirst, hps]
      rfl
    refine ⟨fun h => ?_, fun h => ?_⟩
    · rw [hcall hlp, hfc]
      simp [h]
    · rw [hcall hlp, hfc]
      simp [h]

/-- C17, at a concrete input: `f ( x , 1 )`. -/
theorem identifier_or_function_call_witness :
    parse_factor example_lib (Parser.reading ⟨TOKEN.TOK_PRINT, "print", 1⟩
        [⟨TOKEN.TOK_IDENTIFIER, "f", 1⟩, ⟨TOKEN.TOK_LEFT_BRACKET, "(", 1⟩,
          ⟨TOKEN.TOK_IDENTIFIER, "x", 1⟩, ⟨TOKEN.TOK_COMMA, ",", 1⟩,
          ⟨TOKEN.TOK_INT, "1", 1⟩, ⟨TOKEN.TOK_RIGHT_BRACKET, ")", 1⟩] "" 2)
      = Result.ok (ASTExprNode.function_call "f"
          [ASTExprNode.identifier "x", ASTExprNode.literal_int 1])
          (Parser.reading ⟨TOKEN.TOK_RIGHT_BRACKET, ")", 1⟩ [] "" 2) :=
  ((identifier_or_function_call example_lib ⟨TOKEN.TOK_PRINT, "print", 1⟩
    ⟨TOKEN.TOK_IDENTIFIER, "f", 1⟩ ⟨TOKEN.TOK_LEFT_BRACKET, "(", 1⟩
    [⟨TOKEN.TOK_IDENTIFIER, "x", 1⟩, ⟨TOKEN.TOK_COMMA, ",", 1⟩,
      ⟨TOKEN.TOK_INT, "1", 1⟩, ⟨TOKEN.TOK_RIGHT_BRACKET, ")", 1⟩] "" 2 rfl).2.2 rfl
    [ASTExprNode.identifier "x", ASTExprNode.literal_int 1]
    (Parser.reading ⟨TOKEN.TOK_RIGHT_BRACKET, ")", 1⟩ [] "" 2)
    ⟨_, rfl, rfl, ⟨_, rfl, rfl, by decide⟩⟩).1 rfl

end MiniLang
